import Mathlib

/-!
# Samba connection manager (nsswitch/winbindd_cm.c)

A shallow embedding of the winbind connection manager: the domain-controller
lookup cache, the failed-connection cache, the connection establisher and the
pool of cached connections.

Conventions of the embedding

* A C string is the list of its bytes before the terminating NUL.
* The three process-wide linked lists are Lean lists, head first
  (DLIST_ADD inserts at the head, DLIST_REMOVE unlinks one node).
* Every call that leaves the connection manager (discovery, secrets store,
  named mutex, SMB client library) appends an event to `State.trace`
  (newest event first) and takes its answer from `Env`, as a function of the
  events so far: this is an arbitrary deterministic environment.
* `time(NULL)` and `malloc` are read from `Env` at the current trace.
* An `fstring` is a buffer of 256 bytes; `fstrcpy` truncates to 255. The
  theorems about names that are copied into such a buffer and compared with
  the original assume that the name fits.
* `smb_panic` and a failed `SMB_ASSERT` abort the process: the functions that
  can reach one return `Option`, `none` being the abort.
-/

namespace Samba

/-! ## Strings, status codes -/

/-- The bytes of a NUL-terminated C string, terminator excluded. -/
abbrev CStr := List Nat

/-- A 32-bit NT status code. -/
abbrev NTSTATUS := Nat

/-- Seconds since the epoch. -/
abbrev time_t := Int

/-- An IPv4 address (`struct in_addr`) as a number; `zero_ip` is 0. -/
abbrev in_addr := Nat

/-- A policy handle (`POLICY_HND`) read as a number; the zeroed struct is 0. -/
abbrev POLICY_HND := Nat

def NT_STATUS_OK : NTSTATUS := 0
def NT_STATUS_UNSUCCESSFUL : NTSTATUS := 0xC0000001
def NT_STATUS_NO_MEMORY : NTSTATUS := 0xC0000017
def NT_STATUS_PIPE_NOT_AVAILABLE : NTSTATUS := 0xC00000AC
def NT_STATUS_POSSIBLE_DEADLOCK : NTSTATUS := 0xC0000194
def NT_STATUS_DOMAIN_CONTROLLER_NOT_FOUND : NTSTATUS := 0xC0000233

/-- The macro `NT_STATUS_IS_OK(x)`: `x` is `NT_STATUS_OK`. -/
def NT_STATUS_IS_OK (x : NTSTATUS) : Bool := x == NT_STATUS_OK

/-- The value of `SEC_ADS` in `enum security_types`. -/
def SEC_ADS : Nat := 4

/-- Upper-case one ASCII byte. -/
def toupper_ascii (c : Nat) : Nat := if 97 ≤ c ∧ c ≤ 122 then c - 32 else c

/-- Modelled from the spec: strequal (lib/util_str.c is not among the
sources). Names are "opaque case-insensitive strings ... no canonicalization
beyond case-folding": two strings are equal when their case-folded bytes are. -/
def strequal (s1 s2 : CStr) : Bool :=
  decide (s1.map toupper_ascii = s2.map toupper_ascii)

/-- Modelled from the spec: strupper (lib/util_str.c is not among the
sources), the in-place upper-casing that goes with strequal. -/
def strupper (s : CStr) : CStr := s.map toupper_ascii

/-- The size of an `fstring` buffer (`typedef char fstring[256]`). -/
def FSTRING_LEN : Nat := 256

/-- The macro `fstrcpy(d, s)`, the bounded copy into an `fstring`: at most
`sizeof(fstring) - 1` bytes are copied. The value is the new content of `d`. -/
def fstrcpy (s : CStr) : CStr := s.take (FSTRING_LEN - 1)

/-- The pipe name `PIPE_LSARPC`, "\PIPE\lsarpc". -/
def PIPE_LSARPC : CStr := [92, 80, 73, 80, 69, 92, 108, 115, 97, 114, 112, 99]

/-- The pipe name `PIPE_SAMR`, "\PIPE\samr". -/
def PIPE_SAMR : CStr := [92, 80, 73, 80, 69, 92, 115, 97, 109, 114]

/-! ## Data -/

/-- The two fields of `struct cli_state` that the connection manager reads. -/
structure cli_state where
  initialised : Nat
  fd : Int
deriving DecidableEq, Repr

/-- `struct winbindd_cm_conn`, without the list links. -/
structure winbindd_cm_conn where
  domain : CStr
  controller : CStr
  pipe_name : CStr
  mutex_ref_count : Nat
  cli : Option cli_state
  pol : POLICY_HND
deriving DecidableEq, Repr

/-- `ZERO_STRUCTP(conn)`. -/
def winbindd_cm_conn.zero : winbindd_cm_conn :=
  { domain := [], controller := [], pipe_name := [], mutex_ref_count := 0,
    cli := none, pol := 0 }

def GET_DC_NAME_CACHE_TIMEOUT : Int := 30

/-- `struct get_dc_name_cache`, without the list links. -/
structure get_dc_name_cache where
  domain_name : CStr
  srv_name : CStr
  lookup_time : time_t
deriving DecidableEq, Repr

def FAILED_CONNECTION_CACHE_TIMEOUT : Int := 30

/-- `struct failed_connection_cache`, without the list links. -/
structure failed_connection_cache where
  domain_name : CStr
  controller : CStr
  lookup_time : time_t
  nt_status : NTSTATUS
deriving DecidableEq, Repr

/-- The fields of `ADS_STRUCT` that `cm_ads_find_dc` reads. -/
structure ADS_STRUCT where
  config_realm : Option CStr
  config_ldap_server_name : Option CStr
  ldap_ip : in_addr
deriving DecidableEq, Repr

/-- The keys of the secrets store that `cm_get_ipc_userpass` reads. -/
inductive SecretKey where
  | SECRETS_AUTH_USER
  | SECRETS_AUTH_DOMAIN
  | SECRETS_AUTH_PASSWORD
deriving DecidableEq, Repr

/-- One call that leaves the connection manager. -/
inductive Event where
  | ads_init (realm domain : CStr)
  | ads_connect
  | ads_destroy
  | rpc_find_dc (domain : CStr)
  | secrets_fetch (key : SecretKey)
  | secrets_named_mutex (name : CStr) (granted : Bool)
  | secrets_named_mutex_release (name : CStr)
  | cli_full_connection (controller : CStr) (dc_ip : in_addr)
  | cli_nt_session_open (pipe_index : Int)
  | cli_shutdown (cli : Option cli_state)
  | cli_lsa_open_policy
  | cli_samr_connect
deriving DecidableEq, Repr

/-- The discovery collaborators: the ADS method and the RPC method. -/
def Event.is_discovery : Event → Bool
  | Event.ads_init _ _ => true
  | Event.ads_connect => true
  | Event.ads_destroy => true
  | Event.rpc_find_dc _ => true
  | _ => false

/-- A call of `cli_full_connection` (open_session). -/
def Event.is_open_session : Event → Bool
  | Event.cli_full_connection _ _ => true
  | _ => false

/-- A call of `cli_nt_session_open` (open_endpoint). -/
def Event.is_open_endpoint : Event → Bool
  | Event.cli_nt_session_open _ => true
  | _ => false

/-- A call of `secrets_named_mutex`, granted or not. -/
def Event.is_mutex_request : Event → Bool
  | Event.secrets_named_mutex _ _ => true
  | _ => false

/-- A call of `secrets_named_mutex` that was granted. -/
def Event.is_mutex_grant : Event → Bool
  | Event.secrets_named_mutex _ granted => granted
  | _ => false

/-- A call of `secrets_named_mutex_release`. -/
def Event.is_mutex_release : Event → Bool
  | Event.secrets_named_mutex_release _ => true
  | _ => false

/-- A call of `secrets_fetch`. -/
def Event.is_secrets_fetch : Event → Bool
  | Event.secrets_fetch _ => true
  | _ => false

/-- A call of `cli_shutdown`. -/
def Event.is_shutdown : Event → Bool
  | Event.cli_shutdown _ => true
  | _ => false

/-- What `cli_full_connection` leaves behind: its status, the client state it
stored through `output_cli`, and the value it left in `*retry`. -/
structure full_connection_result where
  status : NTSTATUS
  cli : Option cli_state
  retry : Bool
deriving DecidableEq, Repr

/-- The collaborators of the connection manager and the build/run-time
configuration. Every answer may depend on the events so far. -/
structure Env where
  /-- The clock: `time(NULL)`. -/
  time : List Event → time_t
  /-- Whether a `malloc` at this point returns memory. -/
  malloc : List Event → Bool
  lp_workgroup : CStr
  lp_realm : CStr
  lp_security : Nat
  /-- Whether the build defines `HAVE_ADS`. -/
  HAVE_ADS : Bool
  ads_init : List Event → CStr → CStr → Option ADS_STRUCT
  ads_connect : List Event → ADS_STRUCT → ADS_STRUCT
  /-- The RPC discovery: controller name and address, or failure. -/
  rpc_find_dc : List Event → CStr → Option (CStr × in_addr)
  secrets_fetch : List Event → SecretKey → Option CStr
  /-- Whether the named lock is granted within the wait time; the last
  argument is the caller's reference count. -/
  named_lock_acquire : List Event → CStr → Nat → Bool
  cli_full_connection : List Event → CStr → in_addr →
    Option CStr → Option CStr → Option CStr → full_connection_result
  /-- The result of `cli_nt_session_open` and the client state afterwards. -/
  cli_nt_session_open : List Event → Option cli_state → Int → Bool × Option cli_state
  is_win2k_pipe : Int → Bool
  get_pipe_index : CStr → Int
  get_pipe_name_from_index : Int → Option CStr
  cli_lsa_open_policy : List Event → cli_state → NTSTATUS × cli_state × POLICY_HND
  cli_samr_connect : List Event → cli_state → NTSTATUS × cli_state × POLICY_HND

/-- The process-wide state: the three linked lists and the event trace. -/
structure State where
  get_dc_name_cache : List get_dc_name_cache
  failed_connection_cache : List failed_connection_cache
  cm_conns : List winbindd_cm_conn
  trace : List Event
deriving DecidableEq, Repr

/-! ## Lookup cache: cm_ads_find_dc, cm_get_dc_name -/

/-- The function `cm_ads_find_dc`. Returns the result, the content of
`srv_name`, the content of `*dc_ip` and the trace. `strcasecmp(a, b) == 0` is
`strequal a b`; the flag set in `ads->auth.flags` is an input of `ads_connect`
only and is not kept. -/
def cm_ads_find_dc (env : Env) (tr : List Event) (domain : CStr)
    (dc_ip : in_addr) (srv_name : CStr) : Bool × CStr × in_addr × List Event :=
  let realm := if strequal domain env.lp_workgroup then env.lp_realm else domain
  match env.ads_init tr realm domain with
  | none => (false, srv_name, dc_ip, Event.ads_init realm domain :: tr)
  | some ads0 =>
    let tr1 := Event.ads_init realm domain :: tr
    let (ads, tr2) :=
      if env.HAVE_ADS then (env.ads_connect tr1 ads0, Event.ads_connect :: tr1)
      else (ads0, tr1)
    match ads.config_realm with
    | none => (false, srv_name, dc_ip, tr2)
    | some _ =>
      (true, strupper (fstrcpy (ads.config_ldap_server_name.getD [])), ads.ldap_ip,
        Event.ads_destroy :: tr2)

/-- How the scan of the lookup cache in `cm_get_dc_name` ends. -/
inductive dc_scan where
  /-- An unexpired entry with a server name: `return True`. -/
  | positive (srv_name : CStr)
  /-- An unexpired entry without a server name: `return False`. -/
  | negative
  /-- No entry for the domain, or an expired one that was unlinked (`break`):
  the list as the loop leaves it. -/
  | miss (cache : List get_dc_name_cache)
deriving DecidableEq, Repr

/-- The `for` loop over the lookup cache in `cm_get_dc_name`; `now` is
`time(NULL)`. -/
def cm_get_dc_name_scan (now : time_t) (domain : CStr) :
    List get_dc_name_cache → dc_scan
  | [] => dc_scan.miss []
  | dcc :: next =>
    if !strequal domain dcc.domain_name then
      match cm_get_dc_name_scan now domain next with
      | dc_scan.miss rest => dc_scan.miss (dcc :: rest)
      | r => r
    else if now - dcc.lookup_time > GET_DC_NAME_CACHE_TIMEOUT then
      dc_scan.miss next
    else if dcc.srv_name ≠ [] then dc_scan.positive dcc.srv_name
    else dc_scan.negative

/-- The discovery step of `cm_get_dc_name`, from `zero_ip(&dc_ip)` to the
fall-back on the RPC method. Returns `ret`, the content of `srv_name`, `dc_ip`
and the trace. -/
def cm_get_dc_name_find (env : Env) (tr : List Event) (domain : CStr) (srv_name : CStr) :
    Bool × CStr × in_addr × List Event :=
  let dc_ip0 : in_addr := 0
  let (ret1, srv1, dc_ip1, tr1) :=
    if env.lp_security = SEC_ADS then cm_ads_find_dc env tr domain dc_ip0 srv_name
    else (false, srv_name, dc_ip0, tr)
  if !ret1 then
    match env.rpc_find_dc tr1 domain with
    | none => (false, srv1, dc_ip1, Event.rpc_find_dc domain :: tr1)
    | some (name, ip) => (true, fstrcpy name, ip, Event.rpc_find_dc domain :: tr1)
  else (ret1, srv1, dc_ip1, tr1)

/-- The function `cm_get_dc_name`. Returns the result, the content of
`srv_name`, the content of `*ip_out` and the state. -/
def cm_get_dc_name (env : Env) (s : State) (domain : CStr) (srv_name : CStr)
    (ip_out : in_addr) : Bool × CStr × in_addr × State :=
  match cm_get_dc_name_scan (env.time s.trace) domain s.get_dc_name_cache with
  | dc_scan.positive name => (true, fstrcpy name, ip_out, s)
  | dc_scan.negative => (false, srv_name, ip_out, s)
  | dc_scan.miss cache =>
    if !env.malloc s.trace then
      (false, srv_name, ip_out, { s with get_dc_name_cache := cache })
    else
      let dcc : get_dc_name_cache :=
        { domain_name := fstrcpy domain, srv_name := [], lookup_time := env.time s.trace }
      match cm_get_dc_name_find env s.trace domain srv_name with
      | (false, srv1, _, tr1) =>
        (false, srv1, ip_out, { s with get_dc_name_cache := dcc :: cache, trace := tr1 })
      | (true, srv1, dc_ip, tr1) =>
        (true, srv1, dc_ip,
          { s with get_dc_name_cache := { dcc with srv_name := fstrcpy srv1 } :: cache,
                   trace := tr1 })

/-! ## Credentials: cm_get_ipc_userpass -/

/-- The function `cm_get_ipc_userpass`. Returns `*username`, `*domain`,
`*password` (`none` is the NULL pointer) and the trace. -/
def cm_get_ipc_userpass (env : Env) (tr : List Event) :
    Option CStr × Option CStr × Option CStr × List Event :=
  let username := env.secrets_fetch tr SecretKey.SECRETS_AUTH_USER
  let tr1 := Event.secrets_fetch SecretKey.SECRETS_AUTH_USER :: tr
  let domain := env.secrets_fetch tr1 SecretKey.SECRETS_AUTH_DOMAIN
  let tr2 := Event.secrets_fetch SecretKey.SECRETS_AUTH_DOMAIN :: tr1
  let password := env.secrets_fetch tr2 SecretKey.SECRETS_AUTH_PASSWORD
  let tr3 := Event.secrets_fetch SecretKey.SECRETS_AUTH_PASSWORD :: tr2
  if username.isSome && username ≠ some [] then
    let domain1 :=
      if domain.isNone || domain = some [] then some env.lp_workgroup else domain
    let password1 :=
      if password.isNone || password = some [] then some [] else password
    (username, domain1, password1, tr3)
  else
    (some [], some [], some [], tr3)

/-! ## Failed-connection cache: add_failed_connection_entry -/

/-- The function `add_failed_connection_entry`; `none` is the failed
`SMB_ASSERT(!NT_STATUS_IS_OK(result))`. -/
def add_failed_connection_entry (env : Env) (s : State) (new_conn : winbindd_cm_conn)
    (result : NTSTATUS) : Option State :=
  if NT_STATUS_IS_OK result then none
  else if s.failed_connection_cache.any
      (fun fcc => strequal fcc.domain_name new_conn.domain) then some s
  else if !env.malloc s.trace then some s
  else
    let fcc : failed_connection_cache :=
      { domain_name := fstrcpy new_conn.domain,
        controller := fstrcpy new_conn.controller,
        lookup_time := env.time s.trace,
        nt_status := result }
    some { s with failed_connection_cache := fcc :: s.failed_connection_cache }

/-! ## The named mutex -/

/-- Modelled from the spec: secrets_named_mutex (passdb/secrets.c is not among
the sources). "named_lock_acquire(name, timeout) -> ok|fail", "a reference
count (multiple logical holders in-process may hold the same named lock)":
a granted request counts one more holder. Returns the result, the reference
count and the trace. -/
def secrets_named_mutex (env : Env) (tr : List Event) (name : CStr) (ref_count : Nat) :
    Bool × Nat × List Event :=
  let granted := env.named_lock_acquire tr name ref_count
  (granted, if granted then ref_count + 1 else ref_count,
    Event.secrets_named_mutex name granted :: tr)

/-- Modelled from the spec: secrets_named_mutex_release (passdb/secrets.c is
not among the sources), "named_lock_release(name)": one holder less. Returns
the reference count and the trace. -/
def secrets_named_mutex_release (tr : List Event) (name : CStr) (ref_count : Nat) :
    Nat × List Event :=
  (ref_count - 1, Event.secrets_named_mutex_release name :: tr)

/-! ## The connection establisher: cm_open_connection -/

/-- How the scan of the failed-connection cache in `cm_open_connection` ends. -/
inductive fcc_scan where
  /-- An unexpired entry for (domain, controller): its status is returned. -/
  | cached (nt_status : NTSTATUS)
  /-- No entry for (domain, controller), or an expired one that was unlinked
  (`break`): the list as the loop leaves it. -/
  | miss (cache : List failed_connection_cache)
deriving DecidableEq, Repr

/-- The `for` loop over the failed-connection cache in `cm_open_connection`;
`now` is `time(NULL)`. -/
def cm_open_connection_scan (now : time_t) (domain controller : CStr) :
    List failed_connection_cache → fcc_scan
  | [] => fcc_scan.miss []
  | fcc :: next =>
    if !(strequal domain fcc.domain_name && strequal controller fcc.controller) then
      match cm_open_connection_scan now domain controller next with
      | fcc_scan.miss rest => fcc_scan.miss (fcc :: rest)
      | r => r
    else if now - fcc.lookup_time > FAILED_CONNECTION_CACHE_TIMEOUT then
      fcc_scan.miss next
    else fcc_scan.cached fcc.nt_status

/-- The variables of `cm_open_connection` that its connect loop changes. -/
structure connect_loop_state where
  retry : Bool
  got_mutex : Bool
  result : NTSTATUS
  new_conn : winbindd_cm_conn
  trace : List Event
deriving DecidableEq, Repr

/-- The loop `for (i = 0; retry && (i < 3); i++)` of `cm_open_connection`.
The first argument is the number of values of `i` still to come, `3 - i`. -/
def cm_open_connection_loop (env : Env) (dc_ip : in_addr)
    (ipc_username ipc_domain ipc_password : Option CStr) :
    Nat → connect_loop_state → connect_loop_state
  | 0, st => st
  | n + 1, st =>
    if !st.retry then st
    else
      match secrets_named_mutex env st.trace st.new_conn.controller
          st.new_conn.mutex_ref_count with
      | (false, rc, tr1) =>
        cm_open_connection_loop env dc_ip ipc_username ipc_domain ipc_password n
          { st with result := NT_STATUS_POSSIBLE_DEADLOCK,
                    new_conn := { st.new_conn with mutex_ref_count := rc },
                    trace := tr1 }
      | (true, rc, tr1) =>
        let r := env.cli_full_connection tr1 st.new_conn.controller dc_ip
          ipc_username ipc_domain ipc_password
        let tr2 := Event.cli_full_connection st.new_conn.controller dc_ip :: tr1
        let conn1 := { st.new_conn with mutex_ref_count := rc, cli := r.cli }
        if NT_STATUS_IS_OK r.status then
          { retry := r.retry, got_mutex := true, result := r.status,
            new_conn := conn1, trace := tr2 }
        else
          let (rc2, tr3) := secrets_named_mutex_release tr2 conn1.controller rc
          cm_open_connection_loop env dc_ip ipc_username ipc_domain ipc_password n
            { retry := r.retry, got_mutex := false, result := r.status,
              new_conn := { conn1 with mutex_ref_count := rc2 }, trace := tr3 }

/-- The part of `cm_open_connection` from "Initialise SMB connection" on:
credentials, connect loop, opening the pipe. `s` carries the caches as the
scan left them. -/
def cm_open_connection_connect (env : Env) (s : State) (pipe_index : Int)
    (new_conn : winbindd_cm_conn) (keep_mutex : Bool) (dc_ip : in_addr) :
    Option (NTSTATUS × winbindd_cm_conn × State) :=
  let (ipc_username, ipc_domain, ipc_password, tr0) := cm_get_ipc_userpass env s.trace
  -- `result` is not initialised in the source; `retry` is True and `0 < 3`,
  -- so the first iteration always runs and assigns it.
  let st := cm_open_connection_loop env dc_ip ipc_username ipc_domain ipc_password 3
    { retry := true, got_mutex := false, result := NT_STATUS_OK,
      new_conn := new_conn, trace := tr0 }
  if !NT_STATUS_IS_OK st.result then
    let (rc, tr1) :=
      if st.got_mutex then
        secrets_named_mutex_release st.trace st.new_conn.controller st.new_conn.mutex_ref_count
      else (st.new_conn.mutex_ref_count, st.trace)
    let conn1 := { st.new_conn with mutex_ref_count := rc }
    (add_failed_connection_entry env { s with trace := tr1 } conn1 st.result).map
      (fun s1 => (st.result, conn1, s1))
  else
    let (opened, cli1) := env.cli_nt_session_open st.trace st.new_conn.cli pipe_index
    let tr1 := Event.cli_nt_session_open pipe_index :: st.trace
    let conn1 := { st.new_conn with cli := cli1 }
    if !opened then
      let result := NT_STATUS_PIPE_NOT_AVAILABLE
      let (rc, tr2) :=
        if st.got_mutex then
          secrets_named_mutex_release tr1 conn1.controller conn1.mutex_ref_count
        else (conn1.mutex_ref_count, tr1)
      let conn2 := { conn1 with mutex_ref_count := rc }
      let s2 : Option State :=
        if !env.is_win2k_pipe pipe_index then
          add_failed_connection_entry env { s with trace := tr2 } conn2 result
        else some { s with trace := tr2 }
      s2.map (fun s3 =>
        (result, conn2, { s3 with trace := Event.cli_shutdown conn2.cli :: s3.trace }))
    else
      let (rc, tr2) :=
        if st.got_mutex && !keep_mutex then
          secrets_named_mutex_release tr1 conn1.controller conn1.mutex_ref_count
        else (conn1.mutex_ref_count, tr1)
      some (NT_STATUS_OK, { conn1 with mutex_ref_count := rc }, { s with trace := tr2 })

/-- The function `cm_open_connection`. Returns the status, the content of
`*new_conn` and the state; `none` is a failed `SMB_ASSERT`. -/
def cm_open_connection (env : Env) (s : State) (domain : CStr) (pipe_index : Int)
    (new_conn : winbindd_cm_conn) (keep_mutex : Bool) :
    Option (NTSTATUS × winbindd_cm_conn × State) :=
  let dc_ip0 : in_addr := 0
  let conn0 := { new_conn with
    domain := fstrcpy domain,
    pipe_name := fstrcpy ((env.get_pipe_name_from_index pipe_index).getD []) }
  match cm_get_dc_name env s domain conn0.controller dc_ip0 with
  | (false, srv, _, s1) =>
    let conn1 := { conn0 with controller := srv }
    let result := NT_STATUS_DOMAIN_CONTROLLER_NOT_FOUND
    (add_failed_connection_entry env s1 conn1 result).map (fun s2 => (result, conn1, s2))
  | (true, srv, dc_ip, s1) =>
    let conn1 := { conn0 with controller := srv }
    match cm_open_connection_scan (env.time s1.trace) domain conn1.controller
        s1.failed_connection_cache with
    | fcc_scan.cached result =>
      if NT_STATUS_IS_OK result then none else some (result, conn1, s1)
    | fcc_scan.miss cache =>
      cm_open_connection_connect env { s1 with failed_connection_cache := cache }
        pipe_index conn1 keep_mutex dc_ip

/-! ## The connection pool: connection_ok, get_connection_from_cache -/

/-- The function `connection_ok` on a non-NULL `conn`; `none` is `smb_panic`. -/
def connection_ok (conn : winbindd_cm_conn) : Option Bool :=
  match conn.cli with
  | none => none
  | some cli =>
    if cli.initialised = 0 then none
    else if cli.fd = -1 then some false
    else some true

/-- The `for` loop over `cm_conns` in `get_connection_from_cache`. Returns the
position of the entry the loop stopped at (`none`: `conn` is NULL after the
loop), the list and the trace; `none` is `smb_panic`. -/
def get_connection_from_cache_scan (env : Env) (domain pipe_name : CStr)
    (keep_mutex : Bool) :
    List winbindd_cm_conn → List Event →
      Option (Option Nat × List winbindd_cm_conn × List Event)
  | [], tr => some (none, [], tr)
  | conn :: next, tr =>
    if strequal conn.domain domain && strequal conn.pipe_name pipe_name then
      match connection_ok conn with
      | none => none
      | some false =>
        let tr1 := if conn.cli.isSome then Event.cli_shutdown conn.cli :: tr else tr
        get_connection_from_cache_scan env domain pipe_name keep_mutex next tr1
      | some true =>
        if keep_mutex then
          match secrets_named_mutex env tr conn.controller conn.mutex_ref_count with
          | (_, rc, tr1) => some (some 0, { conn with mutex_ref_count := rc } :: next, tr1)
        else some (some 0, conn :: next, tr)
    else
      match get_connection_from_cache_scan env domain pipe_name keep_mutex next tr with
      | none => none
      | some (found, rest, tr1) => some (found.map (· + 1), conn :: rest, tr1)

/-- The function `get_connection_from_cache`. Returns the status, `*conn_out`
as the position of the entry in `cm_conns` (`none` when it is not set) and the
state; `none` is an abort (`smb_panic` or a failed `SMB_ASSERT`). -/
def get_connection_from_cache (env : Env) (s : State) (domain pipe_name : CStr)
    (keep_mutex : Bool) : Option (NTSTATUS × Option Nat × State) :=
  match get_connection_from_cache_scan env domain pipe_name keep_mutex s.cm_conns s.trace with
  | none => none
  | some (some k, conns, tr) =>
    some (NT_STATUS_OK, some k, { s with cm_conns := conns, trace := tr })
  | some (none, conns, tr) =>
    let s1 := { s with cm_conns := conns, trace := tr }
    if !env.malloc s1.trace then some (NT_STATUS_NO_MEMORY, none, s1)
    else
      match cm_open_connection env s1 domain (env.get_pipe_index pipe_name)
          winbindd_cm_conn.zero keep_mutex with
      | none => none
      | some (result, conn, s2) =>
        if !NT_STATUS_IS_OK result then some (result, none, s2)
        else some (NT_STATUS_OK, some 0, { s2 with cm_conns := conn :: s2.cm_conns })

/-! ## Handle acquisition: cm_get_lsa_handle, cm_get_sam_handle -/

/-- `CLI_POLICY_HND`: a policy handle and the client state it was opened on. -/
structure CLI_POLICY_HND where
  pol : POLICY_HND
  cli : Option cli_state
deriving DecidableEq, Repr

/-- Modelled from the spec: policy_handle_is_valid (rpc_parse/parse_misc.c is
not among the sources). The pool entry carries "a single cached protocol
policy handle (valid/invalid flag)": the handle of a zeroed record is the
invalid one, every other handle is valid. -/
def policy_handle_is_valid (pol : POLICY_HND) : Bool := pol != 0

/-- The type of the two handle-open collaborators, `cli_lsa_open_policy` and
`cli_samr_connect`: the status, the client state afterwards and the handle
stored through the last argument. -/
abbrev handle_opener := List Event → cli_state → NTSTATUS × cli_state × POLICY_HND

/-- The statement `result = cli_lsa_open_policy(conn->cli, conn->cli->mem_ctx,
..., &conn->pol)` (or `cli_samr_connect`), `conn` being the pool entry at
position `k`. Returns the result and the state; `none` is the dereference of a
NULL `conn->cli`. -/
def cm_get_handle_open (open_handle : handle_opener) (ev : Event) (s : State) (k : Nat) :
    Option (NTSTATUS × State) :=
  match s.cm_conns[k]? with
  | none => none
  | some conn =>
    match conn.cli with
    | none => none
    | some cli =>
      let r := open_handle s.trace cli
      some (r.1,
        { s with cm_conns := s.cm_conns.set k { conn with cli := some r.2.1, pol := r.2.2 },
                 trace := ev :: s.trace })

/-- The value of `conn->cli->fd`, `conn` being the pool entry at position `k`. -/
def cm_get_handle_fd (s : State) (k : Nat) : Option Int :=
  (s.cm_conns[k]?).bind (fun conn => conn.cli.map (fun cli => cli.fd))

/-- The failure exit `cli_shutdown(conn->cli); DLIST_REMOVE(cm_conns, conn);
SAFE_FREE(conn); return NULL`, `conn` being the pool entry at position `k`. -/
def cm_get_handle_drop (s : State) (k : Nat) : State :=
  { s with cm_conns := s.cm_conns.eraseIdx k,
           trace := Event.cli_shutdown ((s.cm_conns[k]?).bind (fun conn => conn.cli)) :: s.trace }

/-- The exit `hnd.pol = conn->pol; hnd.cli = conn->cli; return &hnd`, `conn`
being the pool entry at position `k`. -/
def cm_get_handle_hnd (s : State) (k : Nat) : Option CLI_POLICY_HND :=
  (s.cm_conns[k]?).map (fun conn => { pol := conn.pol, cli := conn.cli })

/-- The body that `cm_get_lsa_handle` and `cm_get_sam_handle` share; they
differ in the pipe name and in the handle-open call (`ev` is its event).
Returns the pointer returned (`none` is NULL) and the state; the outer `none`
is an abort. -/
def cm_get_handle (env : Env) (pipe_name : CStr) (open_handle : handle_opener) (ev : Event)
    (s : State) (domain : CStr) : Option (Option CLI_POLICY_HND × State) :=
  match get_connection_from_cache env s domain pipe_name false with
  | none => none
  | some (result, conn_out, s1) =>
    if !NT_STATUS_IS_OK result then some (none, s1)
    else
      match conn_out.bind (fun k => (s1.cm_conns[k]?).map (fun conn => (k, conn))) with
      | none => none
      | some (k, conn) =>
        if policy_handle_is_valid conn.pol then
          some (some { pol := conn.pol, cli := conn.cli }, s1)
        else
          match cm_get_handle_open open_handle ev s1 k with
          | none => none
          | some (result1, s2) =>
            if !NT_STATUS_IS_OK result1 then
              if cm_get_handle_fd s2 k = some (-1) then
                match get_connection_from_cache env s2 domain pipe_name false with
                | none => none
                | some (result2, conn_out2, s3) =>
                  if !NT_STATUS_IS_OK result2 then some (none, s3)
                  else
                    match conn_out2 with
                    | none => none
                    | some k2 =>
                      match cm_get_handle_open open_handle ev s3 k2 with
                      | none => none
                      | some (result3, s4) =>
                        if !NT_STATUS_IS_OK result3 then some (none, cm_get_handle_drop s4 k2)
                        else some (cm_get_handle_hnd s4 k2, s4)
              else some (none, cm_get_handle_drop s2 k)
            else some (cm_get_handle_hnd s2 k, s2)

/-- The function `cm_get_lsa_handle`. -/
def cm_get_lsa_handle (env : Env) (s : State) (domain : CStr) :
    Option (Option CLI_POLICY_HND × State) :=
  cm_get_handle env PIPE_LSARPC env.cli_lsa_open_policy Event.cli_lsa_open_policy s domain

/-- The function `cm_get_sam_handle`. -/
def cm_get_sam_handle (env : Env) (s : State) (domain : CStr) :
    Option (Option CLI_POLICY_HND × State) :=
  cm_get_handle env PIPE_SAMR env.cli_samr_connect Event.cli_samr_connect s domain

/-! ## Counting calls -/

/-- The number of events of the trace that satisfy `p`. -/
def calls (p : Event → Bool) (tr : List Event) : Nat := tr.countP p

/-- The number of `cli_full_connection` calls in the trace. -/
def open_session_calls (tr : List Event) : Nat := calls Event.is_open_session tr

/-- The number of `secrets_named_mutex` calls in the trace. -/
def lock_calls (tr : List Event) : Nat := calls Event.is_mutex_request tr

/-- The number of `secrets_fetch` calls in the trace. -/
def credential_calls (tr : List Event) : Nat := calls Event.is_secrets_fetch tr

/-- The number of `cli_nt_session_open` calls in the trace. -/
def open_endpoint_calls (tr : List Event) : Nat := calls Event.is_open_endpoint tr

/-- What `cli_full_connection` answers in the first iteration of the connect
loop of `cm_open_connection`, entered in state `s`, once the lock is granted. -/
def cm_open_connection_first_attempt (env : Env) (s : State) (new_conn : winbindd_cm_conn)
    (dc_ip : in_addr) : full_connection_result :=
  env.cli_full_connection
    (Event.secrets_named_mutex new_conn.controller true :: (cm_get_ipc_userpass env s.trace).2.2.2)
    new_conn.controller dc_ip (cm_get_ipc_userpass env s.trace).1
    (cm_get_ipc_userpass env s.trace).2.1 (cm_get_ipc_userpass env s.trace).2.2.1

/-- A granted `secrets_named_mutex` for the lock `name`. -/
def Event.is_grant_of (name : CStr) : Event → Bool
  | Event.secrets_named_mutex n granted => granted && decide (n = name)
  | _ => false

/-- A `secrets_named_mutex_release` of the lock `name`. -/
def Event.is_release_of (name : CStr) : Event → Bool
  | Event.secrets_named_mutex_release n => decide (n = name)
  | _ => false

/-- A call of `cli_lsa_open_policy` or `cli_samr_connect` (handle-open). -/
def Event.is_handle_open : Event → Bool
  | Event.cli_lsa_open_policy => true
  | Event.cli_samr_connect => true
  | _ => false

/-- The number of granted `secrets_named_mutex` calls for `name` in the trace. -/
def grant_calls (name : CStr) (tr : List Event) : Nat := calls (Event.is_grant_of name) tr

/-- The number of `secrets_named_mutex_release` calls for `name` in the trace. -/
def release_calls (name : CStr) (tr : List Event) : Nat := calls (Event.is_release_of name) tr

/-- The number of handle-open calls in the trace. -/
def handle_open_calls (tr : List Event) : Nat := calls Event.is_handle_open tr

/-- The number of `cli_shutdown` calls in the trace. -/
def shutdown_calls (tr : List Event) : Nat := calls Event.is_shutdown tr

/-- What `cli_full_connection` answers in an iteration of the connect loop
entered with the loop variables `st`, once the lock is granted. -/
def cm_open_connection_attempt (env : Env) (dc_ip : in_addr)
    (ipc_username ipc_domain ipc_password : Option CStr) (st : connect_loop_state) :
    full_connection_result :=
  env.cli_full_connection (Event.secrets_named_mutex st.new_conn.controller true :: st.trace)
    st.new_conn.controller dc_ip ipc_username ipc_domain ipc_password

/-- The loop variables after an iteration in which the lock was not granted
(`continue`). -/
def cm_open_connection_deadlock (st : connect_loop_state) : connect_loop_state :=
  { st with result := NT_STATUS_POSSIBLE_DEADLOCK,
            trace := Event.secrets_named_mutex st.new_conn.controller false :: st.trace }

/-- The loop variables after an iteration in which the lock was granted and
`cli_full_connection` returned `NT_STATUS_OK` (`break`). -/
def cm_open_connection_connected (env : Env) (dc_ip : in_addr)
    (ipc_username ipc_domain ipc_password : Option CStr) (st : connect_loop_state) :
    connect_loop_state :=
  { retry := (cm_open_connection_attempt env dc_ip ipc_username ipc_domain ipc_password st).retry,
    got_mutex := true,
    result := (cm_open_connection_attempt env dc_ip ipc_username ipc_domain ipc_password st).status,
    new_conn := { st.new_conn with
      mutex_ref_count := st.new_conn.mutex_ref_count + 1,
      cli := (cm_open_connection_attempt env dc_ip ipc_username ipc_domain ipc_password st).cli },
    trace := Event.cli_full_connection st.new_conn.controller dc_ip ::
      Event.secrets_named_mutex st.new_conn.controller true :: st.trace }

/-- The loop variables after an iteration in which the lock was granted and
`cli_full_connection` failed: the mutex is released again. -/
def cm_open_connection_failed (env : Env) (dc_ip : in_addr)
    (ipc_username ipc_domain ipc_password : Option CStr) (st : connect_loop_state) :
    connect_loop_state :=
  { retry := (cm_open_connection_attempt env dc_ip ipc_username ipc_domain ipc_password st).retry,
    got_mutex := false,
    result := (cm_open_connection_attempt env dc_ip ipc_username ipc_domain ipc_password st).status,
    new_conn := { st.new_conn with
      mutex_ref_count := st.new_conn.mutex_ref_count + 1 - 1,
      cli := (cm_open_connection_attempt env dc_ip ipc_username ipc_domain ipc_password st).cli },
    trace := Event.secrets_named_mutex_release st.new_conn.controller ::
      Event.cli_full_connection st.new_conn.controller dc_ip ::
      Event.secrets_named_mutex st.new_conn.controller true :: st.trace }

/-- Whether a pool entry is an entry for (domain, pipe): the test of the scan
in `get_connection_from_cache`. -/
def pool_key (domain pipe_name : CStr) (conn : winbindd_cm_conn) : Bool :=
  strequal conn.domain domain && strequal conn.pipe_name pipe_name

/-- The first handle-open attempt of `cm_get_lsa_handle` / `cm_get_sam_handle`:
the function up to and including its first `result = cli_lsa_open_policy(...)`
(or `cli_samr_connect`). Returns the result of the attempt, the state after
it and the position of the pool entry; `none` when the function returns or
aborts before making the attempt. -/
def cm_get_handle_first (env : Env) (pipe_name : CStr) (open_handle : handle_opener)
    (ev : Event) (s : State) (domain : CStr) : Option (NTSTATUS × State × Nat) :=
  match get_connection_from_cache env s domain pipe_name false with
  | none => none
  | some (result, conn_out, s1) =>
    if !NT_STATUS_IS_OK result then none
    else
      match conn_out.bind (fun k => (s1.cm_conns[k]?).map (fun conn => (k, conn))) with
      | none => none
      | some (k, conn) =>
        if policy_handle_is_valid conn.pol then none
        else (cm_get_handle_open open_handle ev s1 k).map (fun r => (r.1, r.2, k))

/-- The first handle-open attempt of `cm_get_lsa_handle`. -/
def cm_get_lsa_handle_first (env : Env) (s : State) (domain : CStr) :
    Option (NTSTATUS × State × Nat) :=
  cm_get_handle_first env PIPE_LSARPC env.cli_lsa_open_policy Event.cli_lsa_open_policy s
    domain

/-- The first handle-open attempt of `cm_get_sam_handle`. -/
def cm_get_sam_handle_first (env : Env) (s : State) (domain : CStr) :
    Option (NTSTATUS × State × Nat) :=
  cm_get_handle_first env PIPE_SAMR env.cli_samr_connect Event.cli_samr_connect s domain

/-- Whether every entry of a failed-connection cache carries a failure status,
that is, a status for which `NT_STATUS_IS_OK` is false. -/
def fcc_all_failures (l : List failed_connection_cache) : Bool :=
  l.all (fun fcc => !NT_STATUS_IS_OK fcc.nt_status)

/-- The states of the connection manager that are reachable from a state with
an empty failed-connection cache by returning calls of the functions of this
file that touch the process-wide lists: `cm_get_dc_name`,
`cm_open_connection`, `get_connection_from_cache`, `cm_get_lsa_handle` and
`cm_get_sam_handle`, with any arguments. -/
inductive cm_reachable (env : Env) : State → Prop
  | start (s : State) (h : s.failed_connection_cache = []) : cm_reachable env s
  | resolve (s : State) (domain srv_name : CStr) (ip_out : in_addr)
      (h : cm_reachable env s) :
      cm_reachable env (cm_get_dc_name env s domain srv_name ip_out).2.2.2
  | establish (s : State) (domain : CStr) (pipe_index : Int) (new_conn : winbindd_cm_conn)
      (keep_mutex : Bool) (r : NTSTATUS × winbindd_cm_conn × State)
      (h : cm_reachable env s)
      (hr : cm_open_connection env s domain pipe_index new_conn keep_mutex = some r) :
      cm_reachable env r.2.2
  | acquire (s : State) (domain pipe_name : CStr) (keep_mutex : Bool)
      (r : NTSTATUS × Option Nat × State) (h : cm_reachable env s)
      (hr : get_connection_from_cache env s domain pipe_name keep_mutex = some r) :
      cm_reachable env r.2.2
  | lsa_handle (s : State) (domain : CStr) (r : Option CLI_POLICY_HND × State)
      (h : cm_reachable env s) (hr : cm_get_lsa_handle env s domain = some r) :
      cm_reachable env r.2
  | sam_handle (s : State) (domain : CStr) (r : Option CLI_POLICY_HND × State)
      (h : cm_reachable env s) (hr : cm_get_sam_handle env s domain = some r) :
      cm_reachable env r.2

/-- The states reachable from a state with an empty lookup cache by calls of
`cm_get_dc_name` for domain names that fit an `fstring`, with any other
arguments. -/
inductive lookup_reachable (env : Env) : State → Prop
  | start (s : State) (h : s.get_dc_name_cache = []) : lookup_reachable env s
  | resolve (s : State) (domain srv_name : CStr) (ip_out : in_addr)
      (h : lookup_reachable env s) (hfits : domain.length < FSTRING_LEN) :
      lookup_reachable env (cm_get_dc_name env s domain srv_name ip_out).2.2.2

/-! ## Inputs for the witnesses and counterexamples -/

/-- The domain name "CORP". -/
def demo_CORP : CStr := [67, 79, 82, 80]

/-- The controller name "DC1". -/
def demo_DC1 : CStr := [68, 67, 49]

/-- The controller name "DC2". -/
def demo_DC2 : CStr := [68, 67, 50]

/-- The address 10.0.0.1. -/
def demo_addr : in_addr := 167772161

/-- A live client state. -/
def demo_cli : cli_state := { initialised := 1, fd := 5 }

/-- An environment with a fixed clock, where allocation succeeds, the lock is
granted, RPC discovery answers ("DC1", 10.0.0.1) when `found`, and
`cli_full_connection` always answers `conn`. -/
def demo_env (now : time_t) (found : Bool) (conn : full_connection_result) : Env :=
  { time := fun _ => now
    malloc := fun _ => true
    lp_workgroup := [87, 71]
    lp_realm := [82]
    lp_security := 3
    HAVE_ADS := false
    ads_init := fun _ _ _ => none
    ads_connect := fun _ ads => ads
    rpc_find_dc := fun _ _ => if found then some (demo_DC1, demo_addr) else none
    secrets_fetch := fun _ _ => none
    named_lock_acquire := fun _ _ _ => true
    cli_full_connection := fun _ _ _ _ _ _ => conn
    cli_nt_session_open := fun _ cli _ => (true, cli)
    is_win2k_pipe := fun _ => false
    get_pipe_index := fun name =>
      if strequal name PIPE_LSARPC then 0 else if strequal name PIPE_SAMR then 1 else -1
    get_pipe_name_from_index := fun i =>
      if i = 0 then some PIPE_LSARPC else if i = 1 then some PIPE_SAMR else none
    cli_lsa_open_policy := fun _ cli => (NT_STATUS_OK, cli, 7)
    cli_samr_connect := fun _ cli => (NT_STATUS_OK, cli, 7) }

/-- A successful `cli_full_connection`. -/
def demo_connected : full_connection_result :=
  { status := NT_STATUS_OK, cli := some demo_cli, retry := false }

/-- The state with empty caches, an empty pool and no event. -/
def demo_empty : State :=
  { get_dc_name_cache := [], failed_connection_cache := [], cm_conns := [], trace := [] }

/-- A positive lookup-cache entry for "CORP", made at time `t`. -/
def demo_lookup (t : time_t) : get_dc_name_cache :=
  { domain_name := demo_CORP, srv_name := demo_DC1, lookup_time := t }

/-- A connection record for "CORP" and the given controller. -/
def demo_conn (controller : CStr) : winbindd_cm_conn :=
  { winbindd_cm_conn.zero with domain := demo_CORP, controller := controller }

/-- A failed-connection entry for ("CORP", "DC1"), made at time `t`. -/
def demo_failed (t : time_t) : failed_connection_cache :=
  { domain_name := demo_CORP, controller := demo_DC1, lookup_time := t,
    nt_status := NT_STATUS_UNSUCCESSFUL }

/-- The state whose failed-connection cache holds one entry, for
("CORP", "DC1"), made at time `t`. -/
def demo_failed_state (t : time_t) : State :=
  { demo_empty with failed_connection_cache := [demo_failed t] }

/-- A `cli_full_connection` that fails and leaves `*retry` False. -/
def demo_refused : full_connection_result :=
  { status := NT_STATUS_UNSUCCESSFUL, cli := none, retry := false }

/-- A `cli_full_connection` that fails and leaves `*retry` True. -/
def demo_dropped : full_connection_result :=
  { status := NT_STATUS_UNSUCCESSFUL, cli := none, retry := true }

/-- A connection for ("CORP", lsarpc) to "DC1" whose transport has died. -/
def demo_dead_conn : winbindd_cm_conn :=
  { domain := demo_CORP, controller := demo_DC1, pipe_name := PIPE_LSARPC,
    mutex_ref_count := 0, cli := some { initialised := 1, fd := -1 }, pol := 0 }

/-- The state whose pool holds the dead connection only. -/
def demo_stale_pool : State := { demo_empty with cm_conns := [demo_dead_conn] }

/-- The state after a connection for ("CORP", lsarpc) was made on the empty
state. -/
def demo_pool_lsa : State :=
  ((get_connection_from_cache (demo_env 100 true demo_connected) demo_empty demo_CORP
    PIPE_LSARPC false).map (fun r => r.2.2)).getD demo_empty

/-- The state after a connection for ("CORP", samr) was made next. -/
def demo_pool_lsa_samr : State :=
  ((get_connection_from_cache (demo_env 100 true demo_connected) demo_pool_lsa demo_CORP
    PIPE_SAMR false).map (fun r => r.2.2)).getD demo_empty

/-- The user name "admin". -/
def demo_admin : CStr := [97, 100, 109, 105, 110]

/-- An environment whose secrets store holds a user name and nothing else. -/
def demo_env_user : Env :=
  { demo_env 100 true demo_connected with
    secrets_fetch := fun _ key =>
      match key with
      | SecretKey.SECRETS_AUTH_USER => some demo_admin
      | _ => none }

/-- A `cli_full_connection` that succeeds and leaves `*retry` True. -/
def demo_connected_retry : full_connection_result :=
  { status := NT_STATUS_OK, cli := some demo_cli, retry := true }

/-- The loop variables on entry to the connect loop, for a record of
("CORP", "DC1") and an empty trace. -/
def demo_loop_entry : connect_loop_state :=
  { retry := true, got_mutex := false, result := NT_STATUS_OK, new_conn := demo_conn demo_DC1,
    trace := [] }

/-- An environment in which the named lock is never granted. -/
def demo_env_nolock : Env :=
  { demo_env 100 true demo_connected with named_lock_acquire := fun _ _ _ => false }

/-- An environment in which `cli_nt_session_open` fails; `win2k` is the answer
of `is_win2k_pipe`. -/
def demo_env_nopipe (win2k : Bool) : Env :=
  { demo_env 100 true demo_connected with
    cli_nt_session_open := fun _ cli _ => (false, cli)
    is_win2k_pipe := fun _ => win2k }

/-- A failed-connection entry for "CORP" without a controller name, as a
failed discovery leaves it. -/
def demo_failed_discovery (t : time_t) : failed_connection_cache :=
  { domain_name := demo_CORP, controller := [], lookup_time := t,
    nt_status := NT_STATUS_DOMAIN_CONTROLLER_NOT_FOUND }

/-- The state whose failed-connection cache holds the entry of a failed
discovery for "CORP", made at time `t`. -/
def demo_blocked (t : time_t) : State :=
  { demo_empty with failed_connection_cache := [demo_failed_discovery t] }

/-- The pool entry of `demo_handle_lsa` and, with the other pipe name, of
`demo_handle_sam`. -/
def demo_handle_conn (pipe_name : CStr) : winbindd_cm_conn :=
  { domain := demo_CORP, controller := demo_DC1, pipe_name := pipe_name, mutex_ref_count := 0,
    cli := some demo_cli, pol := 7 }

/-- An environment in which both handle-open collaborators fail and leave the
transport descriptor at `fd_after`; `cli_full_connection` answers `conn`. -/
def demo_env_handle_fails (conn : full_connection_result) (fd_after : Int) : Env :=
  { demo_env 100 true conn with
    cli_lsa_open_policy := fun _ cli =>
      (NT_STATUS_UNSUCCESSFUL, { cli with fd := fd_after }, 0)
    cli_samr_connect := fun _ cli =>
      (NT_STATUS_UNSUCCESSFUL, { cli with fd := fd_after }, 0) }

/-- An environment in which the first handle-open call finds the remote end
gone (it fails and leaves the transport descriptor at -1) and every later one
succeeds with the handle 7. -/
def demo_env_stale_once : Env :=
  { demo_env 100 true demo_connected with
    cli_lsa_open_policy := fun tr cli =>
      if handle_open_calls tr = 0 then (NT_STATUS_UNSUCCESSFUL, { cli with fd := -1 }, 0)
      else (NT_STATUS_OK, cli, 7)
    cli_samr_connect := fun tr cli =>
      if handle_open_calls tr = 0 then (NT_STATUS_UNSUCCESSFUL, { cli with fd := -1 }, 0)
      else (NT_STATUS_OK, cli, 7) }

/-- The state after a failed `cm_get_lsa_handle` for "CORP" on the pool with
an entry for lsarpc and one for samr. -/
def demo_handle_failed : State :=
  ((cm_get_lsa_handle (demo_env_handle_fails demo_connected 5) demo_pool_lsa_samr
    demo_CORP).map (fun r => r.2)).getD demo_empty

/-- The state after `cm_get_lsa_handle` for "CORP" in `demo_env_stale_once` on
the pool with one entry, for ("CORP", lsarpc), without a handle. -/
def demo_handle_retried : State :=
  ((cm_get_lsa_handle demo_env_stale_once demo_pool_lsa demo_CORP).map
    (fun r => r.2)).getD demo_empty

/-- The result of `cm_open_connection` for "CORP" on the empty state when
`cli_full_connection` is refused: the failure is recorded. -/
def demo_after_refusal : NTSTATUS × winbindd_cm_conn × State :=
  (cm_open_connection (demo_env 100 true demo_refused) demo_empty demo_CORP 0
    winbindd_cm_conn.zero false).getD (NT_STATUS_OK, winbindd_cm_conn.zero, demo_empty)

/-- The state after `cm_get_dc_name` for "CORP" on the empty state, at time 100
with a discovery that answers: the lookup cache holds the entry for "CORP". -/
def demo_resolved : State :=
  (cm_get_dc_name (demo_env 100 true demo_connected) demo_empty demo_CORP [] 0).2.2.2

/-- A domain name of 300 bytes, 300 times "A": longer than an `fstring` holds. -/
def demo_long_domain : CStr := List.replicate 300 65

/-! ## Account database helpers (passdb/passdb.c) -/

/-- The account-control bit `ACB_DISABLED` (include/smb.h). -/
def ACB_DISABLED : Nat := 0x0001
/-- The account-control bit `ACB_HOMDIRREQ`. -/
def ACB_HOMDIRREQ : Nat := 0x0002
/-- The account-control bit `ACB_PWNOTREQ`. -/
def ACB_PWNOTREQ : Nat := 0x0004
/-- The account-control bit `ACB_TEMPDUP`. -/
def ACB_TEMPDUP : Nat := 0x0008
/-- The account-control bit `ACB_NORMAL`. -/
def ACB_NORMAL : Nat := 0x0010
/-- The account-control bit `ACB_MNS`. -/
def ACB_MNS : Nat := 0x0020
/-- The account-control bit `ACB_DOMTRUST`. -/
def ACB_DOMTRUST : Nat := 0x0040
/-- The account-control bit `ACB_WSTRUST`. -/
def ACB_WSTRUST : Nat := 0x0080
/-- The account-control bit `ACB_SVRTRUST`. -/
def ACB_SVRTRUST : Nat := 0x0100
/-- The account-control bit `ACB_PWNOEXP`. -/
def ACB_PWNOEXP : Nat := 0x0200
/-- The account-control bit `ACB_AUTOLOCK`. -/
def ACB_AUTOLOCK : Nat := 0x0400

/-- The flag `LOCAL_TRUST_ACCOUNT` of `local_password_change` (include/smb.h). -/
def LOCAL_TRUST_ACCOUNT : Nat := 0x10
/-- The flag `LOCAL_INTERDOM_ACCOUNT` of `local_password_change`. -/
def LOCAL_INTERDOM_ACCOUNT : Nat := 0x100

/-- C's logical negation `!x`: 1 when `x` is 0, else 0. -/
def c_logical_not (x : Nat) : Nat := if x = 0 then 1 else 0

/-- The statement `other_acb = (pdb_get_acct_ctrl(sam_pass) &
(!(ACB_WSTRUST|ACB_DOMTRUST|ACB_SVRTRUST|ACB_NORMAL)));` of
`local_password_change`; `acct_ctrl` is what `pdb_get_acct_ctrl` returns and
`other_acb` is a `uint16`. -/
def local_password_change_other_acb (acct_ctrl : Nat) : Nat :=
  (acct_ctrl &&& c_logical_not (ACB_WSTRUST ||| ACB_DOMTRUST ||| ACB_SVRTRUST ||| ACB_NORMAL))
    % 2 ^ 16

/-- The account-type step of `local_password_change`: the value it passes to
`pdb_set_acct_ctrl` in the `if (local_flags & LOCAL_TRUST_ACCOUNT) ... else if
(local_flags & LOCAL_INTERDOM_ACCOUNT) ... else ...` statement. -/
def local_password_change_acct_type (acct_ctrl local_flags : Nat) : Nat :=
  let other_acb := local_password_change_other_acb acct_ctrl
  if local_flags &&& LOCAL_TRUST_ACCOUNT ≠ 0 then (ACB_WSTRUST ||| other_acb) % 2 ^ 16
  else if local_flags &&& LOCAL_INTERDOM_ACCOUNT ≠ 0 then (ACB_DOMTRUST ||| other_acb) % 2 ^ 16
  else (ACB_NORMAL ||| other_acb) % 2 ^ 16

/-- The stores `buf[i] = b0; buf[i+1] = b1; ...` into a byte buffer, all
within the buffer. -/
def c_store (buf : List Nat) (i : Nat) (bytes : List Nat) : List Nat :=
  buf.take i ++ bytes ++ buf.drop (i + bytes.length)

/-- The C string that starts a byte buffer: the bytes before the first NUL. -/
def c_string (buf : List Nat) : CStr := buf.takeWhile (fun b => b ≠ 0)

/-- The modulus of `size_t` arithmetic, `size_t` taken as 32 bits wide. Only
`length - 2` for a `length` below 2 depends on the width. -/
def SIZE_T_MOD : Nat := 2 ^ 32

/-- The function `pdb_encode_acct_ctrl`. `acct_str` is the content of the
static `fstring` on entry; the result is its content on return, the returned
pointer being its start. `none` is a store outside the buffer. The characters
are their ASCII codes: '[' 91, ']' 93, ' ' 32. -/
def pdb_encode_acct_ctrl (acct_str : List Nat) (acct_ctrl length : Nat) : Option (List Nat) :=
  let s0 : List Nat := [91]
  let s1 := if acct_ctrl &&& ACB_PWNOTREQ ≠ 0 then s0 ++ [78] else s0
  let s2 := if acct_ctrl &&& ACB_DISABLED ≠ 0 then s1 ++ [68] else s1
  let s3 := if acct_ctrl &&& ACB_HOMDIRREQ ≠ 0 then s2 ++ [72] else s2
  let s4 := if acct_ctrl &&& ACB_TEMPDUP ≠ 0 then s3 ++ [84] else s3
  let s5 := if acct_ctrl &&& ACB_NORMAL ≠ 0 then s4 ++ [85] else s4
  let s6 := if acct_ctrl &&& ACB_MNS ≠ 0 then s5 ++ [77] else s5
  let s7 := if acct_ctrl &&& ACB_WSTRUST ≠ 0 then s6 ++ [87] else s6
  let s8 := if acct_ctrl &&& ACB_SVRTRUST ≠ 0 then s7 ++ [83] else s7
  let s9 := if acct_ctrl &&& ACB_AUTOLOCK ≠ 0 then s8 ++ [76] else s8
  let s10 := if acct_ctrl &&& ACB_PWNOEXP ≠ 0 then s9 ++ [88] else s9
  let s11 := if acct_ctrl &&& ACB_DOMTRUST ≠ 0 then s10 ++ [73] else s10
  let i := s11.length
  let last := (length + SIZE_T_MOD - 2) % SIZE_T_MOD
  if last + 1 < FSTRING_LEN then
    let buf1 := c_store acct_str 0 s11
    let buf2 := c_store buf1 i (List.replicate (last - i) 32)
    some (c_store buf2 last [93, 0])
  else none

/-- The `for` loop of `pdb_decode_acct_ctrl`, `p` being the rest of the string
and the second argument `acct_ctrl`. The end of the list is the NUL that ends
the loop; a character that is neither a flag letter nor a blank sets
`finished`. The flags are below 2^16, so `|=` never leaves the `uint16`. -/
def pdb_decode_acct_ctrl_loop : CStr → Nat → Nat
  | [], acct_ctrl => acct_ctrl
  | c :: p, acct_ctrl =>
    if c = 78 then pdb_decode_acct_ctrl_loop p (acct_ctrl ||| ACB_PWNOTREQ)
    else if c = 68 then pdb_decode_acct_ctrl_loop p (acct_ctrl ||| ACB_DISABLED)
    else if c = 72 then pdb_decode_acct_ctrl_loop p (acct_ctrl ||| ACB_HOMDIRREQ)
    else if c = 84 then pdb_decode_acct_ctrl_loop p (acct_ctrl ||| ACB_TEMPDUP)
    else if c = 85 then pdb_decode_acct_ctrl_loop p (acct_ctrl ||| ACB_NORMAL)
    else if c = 77 then pdb_decode_acct_ctrl_loop p (acct_ctrl ||| ACB_MNS)
    else if c = 87 then pdb_decode_acct_ctrl_loop p (acct_ctrl ||| ACB_WSTRUST)
    else if c = 83 then pdb_decode_acct_ctrl_loop p (acct_ctrl ||| ACB_SVRTRUST)
    else if c = 76 then pdb_decode_acct_ctrl_loop p (acct_ctrl ||| ACB_AUTOLOCK)
    else if c = 88 then pdb_decode_acct_ctrl_loop p (acct_ctrl ||| ACB_PWNOEXP)
    else if c = 73 then pdb_decode_acct_ctrl_loop p (acct_ctrl ||| ACB_DOMTRUST)
    else if c = 32 then pdb_decode_acct_ctrl_loop p acct_ctrl
    else acct_ctrl

/-- The function `pdb_decode_acct_ctrl` on a non-NULL string. -/
def pdb_decode_acct_ctrl (p : CStr) : Nat :=
  match p with
  | 91 :: rest => pdb_decode_acct_ctrl_loop rest 0
  | _ => 0

/-- The byte `p[i]` of a C string held in a buffer of exactly its size: a
character, the terminating NUL at `i = strlen(p)`, or `none` beyond it (a read
outside the string). -/
def c_char_at (p : CStr) (i : Nat) : Option Nat :=
  if i < p.length then p[i]? else if i = p.length then some 0 else none

/-- The string `hexchars` of `pdb_gethexpwd`, "0123456789ABCDEF". -/
def hexchars : CStr := [48, 49, 50, 51, 52, 53, 54, 55, 56, 57, 65, 66, 67, 68, 69, 70]

/-- The offset `strchr(s, c) - s`, `none` when `strchr` returns NULL. As in
C, the terminating NUL belongs to the string: `strchr(s, 0)` points at it. -/
def strchr_offset (s : CStr) (c : Nat) : Option Nat :=
  if c = 0 then some s.length
  else if s.indexOf c < s.length then some (s.indexOf c) else none

/-- The `for` loop of `pdb_gethexpwd` from `i = 2 * k` on, `n` pairs of
characters still to come; `pwd` holds the bytes stored so far, in order.
Returns the result and the bytes stored; `none` is a read outside the
string. -/
def pdb_gethexpwd_loop (p : CStr) : Nat → Nat → List Nat → Option (Bool × List Nat)
  | 0, _, pwd => some (true, pwd)
  | n + 1, k, pwd =>
    match c_char_at p (2 * k), c_char_at p (2 * k + 1) with
    | some c1, some c2 =>
      let hinybble := toupper_ascii c1 % 256
      let lonybble := toupper_ascii c2 % 256
      match strchr_offset hexchars hinybble, strchr_offset hexchars lonybble with
      | some p1, some p2 =>
        pdb_gethexpwd_loop p n (k + 1) (pwd ++ [((p1 % 256) * 16 ||| (p2 % 256)) % 256])
      | _, _ => some (false, pwd)
    | _, _ => none

/-- The function `pdb_gethexpwd` on a non-NULL `p`: the result and the bytes
`pwd[0]`, `pwd[1]`, ... it stored. -/
def pdb_gethexpwd (p : CStr) : Option (Bool × List Nat) := pdb_gethexpwd_loop p 16 0 []

/-- The flags that `pdb_encode_acct_ctrl` writes and the letters it writes them
as, in its order. -/
def acb_letters : List (Nat × Nat) :=
  [(ACB_PWNOTREQ, 78), (ACB_DISABLED, 68), (ACB_HOMDIRREQ, 72), (ACB_TEMPDUP, 84),
   (ACB_NORMAL, 85), (ACB_MNS, 77), (ACB_WSTRUST, 87), (ACB_SVRTRUST, 83),
   (ACB_AUTOLOCK, 76), (ACB_PWNOEXP, 88), (ACB_DOMTRUST, 73)]

/-- The eleven encodable flags together. -/
def ACB_ENCODABLE : Nat :=
  ACB_PWNOTREQ ||| ACB_DISABLED ||| ACB_HOMDIRREQ ||| ACB_TEMPDUP ||| ACB_NORMAL ||| ACB_MNS |||
    ACB_WSTRUST ||| ACB_SVRTRUST ||| ACB_AUTOLOCK ||| ACB_PWNOEXP ||| ACB_DOMTRUST

/-- Thirty-one hexadecimal digits, "0123456789ABCDEF0123456789ABCDE". -/
def demo_hex31 : CStr :=
  [48, 49, 50, 51, 52, 53, 54, 55, 56, 57, 65, 66, 67, 68, 69, 70,
   48, 49, 50, 51, 52, 53, 54, 55, 56, 57, 65, 66, 67, 68, 69]

/-! ## NT ACL to Unix mode (modules/vfs_darwin_acls.c) -/

/-- A security identifier (`DOM_SID`), read as the list of its numbers. -/
abbrev DOM_SID := List Nat

/-- The fields of `SEC_ACE` that `map_ntacl_to_mode` reads: `type` and
`flags` are bytes, `access_mask` is 32 bits wide. -/
structure SEC_ACE where
  type : Nat
  flags : Nat
  access_mask : Nat
  trustee : DOM_SID
deriving DecidableEq, Repr

/-- The ACE type `SEC_ACE_TYPE_ACCESS_ALLOWED` (include/rpc_secdes.h). -/
def SEC_ACE_TYPE_ACCESS_ALLOWED : Nat := 0
/-- The ACE type `SEC_ACE_TYPE_ACCESS_DENIED`. -/
def SEC_ACE_TYPE_ACCESS_DENIED : Nat := 1
/-- The ACE type `SEC_ACE_TYPE_SYSTEM_AUDIT`. -/
def SEC_ACE_TYPE_SYSTEM_AUDIT : Nat := 2
/-- The ACE flag `SEC_ACE_FLAG_INHERITED_ACE`. -/
def SEC_ACE_FLAG_INHERITED_ACE : Nat := 0x10

/-- The permission bits of <sys/stat.h>. -/
def S_IRUSR : Nat := 0o400
def S_IWUSR : Nat := 0o200
def S_IXUSR : Nat := 0o100
def S_IRGRP : Nat := 0o040
def S_IWGRP : Nat := 0o020
def S_IXGRP : Nat := 0o010
def S_IROTH : Nat := 0o004
def S_IWOTH : Nat := 0o002
def S_IXOTH : Nat := 0o001
def S_IRWXU : Nat := 0o700
/-- The macro `ACCESSPERMS`, `S_IRWXU|S_IRWXG|S_IRWXO`. -/
def ACCESSPERMS : Nat := 0o777

/-- What `map_ntacl_to_mode` uses and the sources do not hold: `sid_equal` and
`global_sid_World` of the SID library, and the kauth constants of the Darwin
headers. The two permission maps `map_perms_nt_to_kauth` and
`map_perms_kauth_to_nt` are tables over those constants and the NT access
rights; they are taken as they are, as functions. -/
structure darwin_acl_env where
  sid_equal : DOM_SID → DOM_SID → Bool
  global_sid_World : DOM_SID
  map_perms_nt_to_kauth : Nat → Nat
  map_perms_kauth_to_nt : Nat → Nat
  KAUTH_VNODE_GENERIC_READ_BITS : Nat
  KAUTH_VNODE_GENERIC_WRITE_BITS : Nat
  KAUTH_VNODE_GENERIC_EXECUTE_BITS : Nat
  KAUTH_VNODE_WRITE_SECURITY : Nat
  KAUTH_VNODE_TAKE_OWNERSHIP : Nat
  KAUTH_VNODE_DELETE : Nat
  KAUTH_VNODE_DELETE_CHILD : Nat

/-- The C expression `x & ~m` on unsigned values: `x` without the bits of `m`. -/
def c_and_not (x m : Nat) : Nat := x ^^^ (x &&& m)

/-- The macro `MASK_MATCH_ALL(mask1, mask2)`. -/
def MASK_MATCH_ALL (mask1 mask2 : Nat) : Bool := (mask1 &&& mask2) == mask2

/-- The macro `KAUTH_UNIX_GENERIC_WRITE_BITS`. -/
def KAUTH_UNIX_GENERIC_WRITE_BITS (env : darwin_acl_env) : Nat :=
  c_and_not
    (c_and_not env.KAUTH_VNODE_GENERIC_WRITE_BITS
      (env.KAUTH_VNODE_WRITE_SECURITY ||| env.KAUTH_VNODE_TAKE_OWNERSHIP))
    (env.KAUTH_VNODE_DELETE ||| env.KAUTH_VNODE_DELETE_CHILD)

/-- The function `unix_perms_to_acl_perms`. -/
def unix_perms_to_acl_perms (env : darwin_acl_env) (mode r_mask w_mask x_mask : Nat) : Nat :=
  let a0 : Nat := 0
  let a1 := if mode &&& r_mask ≠ 0 then a0 ||| env.KAUTH_VNODE_GENERIC_READ_BITS else a0
  let a2 := if mode &&& w_mask ≠ 0 then a1 ||| KAUTH_UNIX_GENERIC_WRITE_BITS env else a1
  let a3 := if mode &&& x_mask ≠ 0 then a2 ||| env.KAUTH_VNODE_GENERIC_EXECUTE_BITS else a2
  let a4 := if (r_mask ||| w_mask ||| x_mask) = S_IRWXU then a3 ||| env.KAUTH_VNODE_WRITE_SECURITY
    else a3
  env.map_perms_kauth_to_nt a4

/-- The function `acl_perms_to_unix_perms`. -/
def acl_perms_to_unix_perms (env : darwin_acl_env) (ntperms r_mask w_mask x_mask : Nat) : Nat :=
  let darwin_access := env.map_perms_nt_to_kauth ntperms
  let m0 : Nat := 0
  let m1 := if MASK_MATCH_ALL darwin_access env.KAUTH_VNODE_GENERIC_READ_BITS then m0 ||| r_mask
    else m0
  let m2 := if MASK_MATCH_ALL darwin_access (KAUTH_UNIX_GENERIC_WRITE_BITS env) then m1 ||| w_mask
    else m1
  if MASK_MATCH_ALL darwin_access env.KAUTH_VNODE_GENERIC_EXECUTE_BITS then m2 ||| x_mask else m2

/-- The variables that the first loop of `map_ntacl_to_mode` changes. -/
structure ntacl_scan where
  direct_ace_count : Nat
  deny_ace_count : Nat
  user_allowed : Nat
  group_allowed : Nat
  other_allowed : Nat
deriving DecidableEq, Repr

/-- The first `for` loop of `map_ntacl_to_mode`, over the ACEs in order. -/
def map_ntacl_to_mode_scan (env : darwin_acl_env) (owner_sid group_sid : DOM_SID) :
    List SEC_ACE → ntacl_scan → ntacl_scan
  | [], st => st
  | sec_ace :: rest, st =>
    let st1 :=
      if sec_ace.flags &&& SEC_ACE_FLAG_INHERITED_ACE = 0 then
        { st with direct_ace_count := st.direct_ace_count + 1 }
      else st
    let st2 :=
      if sec_ace.type = SEC_ACE_TYPE_ACCESS_DENIED then
        { st1 with deny_ace_count := st1.deny_ace_count + 1 }
      else st1
    let st3 :=
      if sec_ace.type = SEC_ACE_TYPE_ACCESS_ALLOWED then
        if env.sid_equal sec_ace.trustee owner_sid then
          { st2 with user_allowed := st2.user_allowed ||| sec_ace.access_mask }
        else if env.sid_equal sec_ace.trustee group_sid then
          { st2 with group_allowed := st2.group_allowed ||| sec_ace.access_mask }
        else if env.sid_equal sec_ace.trustee env.global_sid_World then
          { st2 with other_allowed := st2.other_allowed ||| sec_ace.access_mask }
        else st2
      else st2
    map_ntacl_to_mode_scan env owner_sid group_sid rest st3

/-- The second `for` loop of `map_ntacl_to_mode`: the ACEs as it leaves them;
`none` is the failed `SMB_ASSERT(sec_ace->type == SEC_ACE_TYPE_ACCESS_ALLOWED)`. -/
def map_ntacl_to_mode_strip (env : darwin_acl_env) (owner_sid group_sid : DOM_SID)
    (user_allowed group_allowed other_allowed : Nat) : List SEC_ACE → Option (List SEC_ACE)
  | [] => some []
  | sec_ace :: rest =>
    if sec_ace.type ≠ SEC_ACE_TYPE_ACCESS_ALLOWED then none
    else
      let ace1 :=
        if sec_ace.flags ≠ 0 then sec_ace
        else if env.sid_equal sec_ace.trustee owner_sid then
          { sec_ace with access_mask := c_and_not sec_ace.access_mask user_allowed }
        else if env.sid_equal sec_ace.trustee group_sid then
          { sec_ace with access_mask := c_and_not sec_ace.access_mask group_allowed }
        else if env.sid_equal sec_ace.trustee env.global_sid_World then
          { sec_ace with access_mask := c_and_not sec_ace.access_mask other_allowed }
        else sec_ace
      (map_ntacl_to_mode_strip env owner_sid group_sid user_allowed group_allowed other_allowed
        rest).map (fun l => ace1 :: l)

/-- The statement at `done:` of `map_ntacl_to_mode`. All operands are `mode_t`
values, so the result is one. -/
def map_ntacl_to_mode_done (mode user_mode group_mode other_mode : Nat) : Nat :=
  c_and_not mode ACCESSPERMS ||| user_mode ||| group_mode ||| other_mode

/-- The function `map_ntacl_to_mode`. `dacl` is `none` for a NULL pointer, else
the ACEs (`num_aces` is their number). Returns the mode and the DACL as the
function leaves it; `none` is the failed `SMB_ASSERT`. -/
def map_ntacl_to_mode (env : darwin_acl_env) (dacl : Option (List SEC_ACE))
    (owner_sid group_sid : DOM_SID) (mode : Nat) : Option (Nat × Option (List SEC_ACE)) :=
  match dacl with
  | none => some (mode, none)
  | some [] => some (mode, some [])
  | some (ace :: aces) =>
    let st := map_ntacl_to_mode_scan env owner_sid group_sid (ace :: aces)
      { direct_ace_count := 0, deny_ace_count := 0, user_allowed := 0, group_allowed := 0,
        other_allowed := 0 }
    let user_mode0 :=
      if st.direct_ace_count = 0 then mode &&& (S_IRUSR ||| S_IWUSR ||| S_IXUSR) else 0
    let group_mode0 :=
      if st.direct_ace_count = 0 then mode &&& (S_IRGRP ||| S_IWGRP ||| S_IXGRP) else 0
    let other_mode0 :=
      if st.direct_ace_count = 0 then mode &&& (S_IROTH ||| S_IWOTH ||| S_IXOTH) else 0
    if st.deny_ace_count ≠ 0 then
      some (map_ntacl_to_mode_done mode user_mode0 group_mode0 other_mode0, some (ace :: aces))
    else
      let user_mode := user_mode0 |||
        acl_perms_to_unix_perms env st.user_allowed S_IRUSR S_IWUSR S_IXUSR
      let user_allowed :=
        if user_mode ≠ 0 then unix_perms_to_acl_perms env user_mode S_IRUSR S_IWUSR S_IXUSR
        else 0
      let group_mode := group_mode0 |||
        acl_perms_to_unix_perms env st.group_allowed S_IRGRP S_IWGRP S_IXGRP
      let group_allowed :=
        if group_mode ≠ 0 then unix_perms_to_acl_perms env group_mode S_IRGRP S_IWGRP S_IXGRP
        else 0
      let other_mode := other_mode0 |||
        acl_perms_to_unix_perms env st.other_allowed S_IROTH S_IWOTH S_IXOTH
      let other_allowed :=
        if other_mode ≠ 0 then unix_perms_to_acl_perms env other_mode S_IROTH S_IWOTH S_IXOTH
        else 0
      match map_ntacl_to_mode_strip env owner_sid group_sid user_allowed group_allowed
          other_allowed (ace :: aces) with
      | none => none
      | some aces1 =>
        some (map_ntacl_to_mode_done mode user_mode group_mode other_mode, some aces1)

/-- The SID of the owner in the witnesses. -/
def demo_owner_sid : DOM_SID := [1, 5, 21, 1000]

/-- A direct SYSTEM_AUDIT entry for the owner. -/
def demo_audit_ace : SEC_ACE :=
  { type := SEC_ACE_TYPE_SYSTEM_AUDIT, flags := 0, access_mask := 2, trustee := demo_owner_sid }

/-! ## Command lookup (client/client.c) -/

/-- An entry of the table `commands`: its name and whether its `fn` is
non-NULL. -/
structure client_command where
  name : CStr
  fn : Bool
deriving DecidableEq, Repr

/-- The table `commands`, names as ASCII codes. The entry "!" has a NULL `fn`
and ends the scan of `process_tok`; the entry with the empty name follows
it. -/
def commands : List client_command :=
  [ { name := [63], fn := true }, -- "?"
    { name := [97, 108, 116, 110, 97, 109, 101], fn := true }, -- "altname"
    { name := [97, 114, 99, 104, 105, 118, 101], fn := true }, -- "archive"
    { name := [98, 108, 111, 99, 107, 115, 105, 122, 101], fn := true }, -- "blocksize"
    { name := [99, 97, 110, 99, 101, 108], fn := true }, -- "cancel"
    { name := [99, 100], fn := true }, -- "cd"
    { name := [99, 104, 109, 111, 100], fn := true }, -- "chmod"
    { name := [99, 104, 111, 119, 110], fn := true }, -- "chown"
    { name := [100, 101, 108], fn := true }, -- "del"
    { name := [100, 105, 114], fn := true }, -- "dir"
    { name := [100, 117], fn := true }, -- "du"
    { name := [101, 120, 105, 116], fn := true }, -- "exit"
    { name := [103, 101, 116], fn := true }, -- "get"
    { name := [104, 101, 108, 112], fn := true }, -- "help"
    { name := [104, 105, 115, 116, 111, 114, 121], fn := true }, -- "history"
    { name := [108, 99, 100], fn := true }, -- "lcd"
    { name := [108, 105, 110, 107], fn := true }, -- "link"
    { name := [108, 111, 119, 101, 114, 99, 97, 115, 101], fn := true }, -- "lowercase"
    { name := [108, 115], fn := true }, -- "ls"
    { name := [109, 97, 115, 107], fn := true }, -- "mask"
    { name := [109, 100], fn := true }, -- "md"
    { name := [109, 103, 101, 116], fn := true }, -- "mget"
    { name := [109, 107, 100, 105, 114], fn := true }, -- "mkdir"
    { name := [109, 111, 114, 101], fn := true }, -- "more"
    { name := [109, 112, 117, 116], fn := true }, -- "mput"
    { name := [110, 101, 119, 101, 114], fn := true }, -- "newer"
    { name := [111, 112, 101, 110], fn := true }, -- "open"
    { name := [112, 114, 105, 110, 116], fn := true }, -- "print"
    { name := [112, 114, 105, 110, 116, 109, 111, 100, 101], fn := true }, -- "printmode"
    { name := [112, 114, 111, 109, 112, 116], fn := true }, -- "prompt"
    { name := [112, 117, 116], fn := true }, -- "put"
    { name := [112, 119, 100], fn := true }, -- "pwd"
    { name := [113], fn := true }, -- "q"
    { name := [113, 117, 101, 117, 101], fn := true }, -- "queue"
    { name := [113, 117, 105, 116], fn := true }, -- "quit"
    { name := [114, 100], fn := true }, -- "rd"
    { name := [114, 101, 99, 117, 114, 115, 101], fn := true }, -- "recurse"
    { name := [114, 101, 103, 101, 116], fn := true }, -- "reget"
    { name := [114, 101, 110, 97, 109, 101], fn := true }, -- "rename"
    { name := [114, 101, 112, 117, 116], fn := true }, -- "reput"
    { name := [114, 109], fn := true }, -- "rm"
    { name := [114, 109, 100, 105, 114], fn := true }, -- "rmdir"
    { name := [115, 101, 116, 109, 111, 100, 101], fn := true }, -- "setmode"
    { name := [115, 121, 109, 108, 105, 110, 107], fn := true }, -- "symlink"
    { name := [116, 97, 114], fn := true }, -- "tar"
    { name := [116, 97, 114, 109, 111, 100, 101], fn := true }, -- "tarmode"
    { name := [116, 114, 97, 110, 115, 108, 97, 116, 101], fn := true }, -- "translate"
    { name := [33], fn := false }, -- "!"
    { name := [], fn := false } ]

/-- The `while` loop of `process_tok` from entry `i` on. `strnequal` is the
function of lib/util_str.c, which is not among the sources. Returns `matches`
(here `n_matches`) and `cmd`; `none` is a read past the end of the table. -/
def process_tok_loop (strnequal : CStr → CStr → Nat → Bool) (tok : CStr) (tok_len : Nat) :
    List client_command → Int → Int → Int → Option (Int × Int)
  | [], _, _, _ => none
  | c :: rest, i, n_matches, cmd =>
    if !c.fn then some (n_matches, cmd)
    else if strequal c.name tok then some (1, i)
    else if strnequal c.name tok tok_len then
      process_tok_loop strnequal tok tok_len rest (i + 1) (n_matches + 1) i
    else process_tok_loop strnequal tok tok_len rest (i + 1) n_matches cmd

/-- The function `process_tok`. -/
def process_tok (strnequal : CStr → CStr → Nat → Bool) (tok : CStr) : Option Int :=
  match process_tok_loop strnequal tok tok.length commands 0 0 0 with
  | none => none
  | some (n_matches, cmd) =>
    if n_matches = 0 then some (-1)
    else if n_matches = 1 then some cmd
    else some (-2)

/-- Whether `name` starts with `tok`, characters compared without regard to
case. -/
def abbreviates (tok name : CStr) : Bool :=
  decide ((name.take tok.length).map toupper_ascii = tok.map toupper_ascii)

/-- The positions, counted from `i`, of the entries of a list that satisfy
`p`. -/
def matching_indices (p : client_command → Bool) : List client_command → Int → List Int
  | [], _ => []
  | c :: rest, i => (if p c then [i] else []) ++ matching_indices p rest (i + 1)

/-- The command lookup in the words of its description, over the entries of
the table before the terminating "!" entry: the index of the command whose
name equals the token without regard to case when there is one; otherwise the
index of the entry that has the token as a prefix when there is exactly one,
-2 when there are two or more, -1 when there is none. -/
def process_tok_spec (tok : CStr) : Int :=
  let entries := commands.takeWhile (fun c => c.fn)
  match matching_indices (fun c => strequal c.name tok) entries 0 with
  | i :: _ => i
  | [] =>
    match matching_indices (fun c => abbreviates tok c.name) entries 0 with
    | [] => -1
    | [i] => i
    | _ => -2

/-- A `strnequal` for the witnesses: the first `n` characters are compared
without regard to case, and a comparison of no character is not a match. -/
def demo_strnequal (s1 s2 : CStr) (n : Nat) : Bool :=
  n != 0 && decide ((s1.take n).map toupper_ascii = (s2.take n).map toupper_ascii)

/-! ## The do_list queue (client/client.c) -/

/-- The size of a `pstring` buffer (`typedef char pstring[1024]`). -/
def PSTRING_LEN : Nat := 1024

/-- The allocator as the queue functions see it: whether `malloc` or `Realloc`
of that many bytes succeeds, and the value of the bytes of allocated memory
that the program has not stored to (any value). -/
structure client_env where
  alloc_ok : Nat → Bool
  fresh_byte : Nat

/-- The static variables of the do_list queue. `do_list_queue` is `none` for
the NULL pointer, else the bytes of the buffer. The three `long` variables are
natural numbers: the functions only add to them, set them to 0 or 1024, double
the size, and subtract `start` from `end` in a state where `start <= end`
(C28 shows that it holds in every state the functions reach). -/
structure do_list_state where
  do_list_queue : Option (List Nat)
  do_list_queue_size : Nat
  do_list_queue_start : Nat
  do_list_queue_end : Nat
deriving DecidableEq, Repr

/-- The function `reset_do_list_queue`: the state it leaves. -/
def reset_do_list_queue : do_list_state :=
  { do_list_queue := none, do_list_queue_size := 0, do_list_queue_start := 0,
    do_list_queue_end := 0 }

/-- The function `init_do_list_queue`: the state it leaves. -/
def init_do_list_queue (env : client_env) : do_list_state :=
  if env.alloc_ok 1024 then
    { reset_do_list_queue with
      do_list_queue_size := 1024,
      do_list_queue := some (List.replicate 1024 0) }
  else reset_do_list_queue

/-- The function `adjust_do_list_queue`; `none` is the `memmove` through a NULL
pointer. -/
def adjust_do_list_queue (st : do_list_state) : Option do_list_state :=
  match st.do_list_queue with
  | some buf =>
    if st.do_list_queue_start = st.do_list_queue_end then
      some { st with do_list_queue_start := 0, do_list_queue_end := 0,
                     do_list_queue := some (c_store buf 0 [0]) }
    else if st.do_list_queue_start > st.do_list_queue_size / 2 then
      some { st with
        do_list_queue := some (c_store buf 0
          ((buf.drop st.do_list_queue_start).take
            (st.do_list_queue_end - st.do_list_queue_start))),
        do_list_queue_end := st.do_list_queue_end - st.do_list_queue_start,
        do_list_queue_start := 0 }
    else some st
  | none =>
    if st.do_list_queue_start > st.do_list_queue_size / 2 then none else some st

/-- The loop `while (new_end > do_list_queue_size)` of `add_to_do_list_queue`;
the first argument bounds the number of rounds, and `none` is a loop that is
still running after that many. `Realloc` gives a buffer of the new size that
starts with the old bytes. -/
def add_to_do_list_queue_grow (env : client_env) (new_end : Nat) :
    Nat → do_list_state → Option do_list_state
  | 0, st => if new_end > st.do_list_queue_size then none else some st
  | rounds + 1, st =>
    if new_end > st.do_list_queue_size then
      let size := st.do_list_queue_size * 2
      if !env.alloc_ok size then
        add_to_do_list_queue_grow env new_end rounds reset_do_list_queue
      else
        let dlq := ((st.do_list_queue.getD []) ++ List.replicate size env.fresh_byte).take size
        add_to_do_list_queue_grow env new_end rounds
          { st with do_list_queue_size := size,
                    do_list_queue := some (c_store dlq (size / 2) (List.replicate (size / 2) 0)) }
    else some st

/-- The function `add_to_do_list_queue`. The loop doubles the size, so from a
positive size it ends within `new_end` rounds, and from the size 0 it never
ends: `none`. `pstrcpy` copies at most `sizeof(pstring) - 1` characters and
the NUL. -/
def add_to_do_list_queue (env : client_env) (st : do_list_state) (entry : CStr) :
    Option do_list_state :=
  let new_end := st.do_list_queue_end + entry.length + 1
  match add_to_do_list_queue_grow env new_end new_end st with
  | none => none
  | some st1 =>
    match st1.do_list_queue with
    | some buf =>
      some { st1 with
        do_list_queue :=
          some (c_store buf st1.do_list_queue_end (entry.take (PSTRING_LEN - 1) ++ [0])),
        do_list_queue_end := new_end }
    | none => some st1

/-- The function `do_list_queue_head`: the string at the pointer it returns;
`none` when `do_list_queue` is NULL. -/
def do_list_queue_head (st : do_list_state) : Option CStr :=
  st.do_list_queue.map (fun buf => c_string (buf.drop st.do_list_queue_start))

/-- The function `remove_do_list_queue_head`; `none` is the `strlen` or the
`memmove` through a NULL pointer. -/
def remove_do_list_queue_head (st : do_list_state) : Option do_list_state :=
  if st.do_list_queue_end > st.do_list_queue_start then
    match do_list_queue_head st with
    | none => none
    | some head =>
      adjust_do_list_queue
        { st with do_list_queue_start := st.do_list_queue_start + head.length + 1 }
  else some st

/-- The function `do_list_queue_empty`. -/
def do_list_queue_empty (st : do_list_state) : Bool :=
  match st.do_list_queue with
  | none => true
  | some buf => buf.headD 0 == 0

/-- A call on the queue: `add_to_do_list_queue(entry)` or
`remove_do_list_queue_head()`. -/
inductive do_list_op where
  | add (entry : CStr)
  | remove_head
deriving DecidableEq, Repr

/-- The calls of a list made in order. -/
def do_list_run (env : client_env) : List do_list_op → do_list_state → Option do_list_state
  | [], st => some st
  | do_list_op.add entry :: ops, st =>
    (add_to_do_list_queue env st entry).bind (do_list_run env ops)
  | do_list_op.remove_head :: ops, st =>
    (remove_do_list_queue_head st).bind (do_list_run env ops)

/-- The queue in the words of its description, a FIFO of strings: the entries
added and not yet removed, oldest first, after the calls of a list. -/
def fifo_after : List do_list_op → List CStr → List CStr
  | [], q => q
  | do_list_op.add entry :: ops, q => fifo_after ops (q ++ [entry])
  | do_list_op.remove_head :: ops, q => fifo_after ops q.tail

/-- The bytes of a queue of strings in the buffer: each string and its NUL. -/
def do_list_encode : List CStr → List Nat
  | [] => []
  | e :: q => e ++ 0 :: do_list_encode q

/-- The state `st` holds the queue `q`: the buffer is some bytes, the strings
of `q` from `start` to `end`, and the rest; the first byte of the buffer is NUL
exactly when `q` is empty, and then `start` and `end` are 0. -/
def do_list_holds (st : do_list_state) (q : List CStr) : Prop :=
  ∃ pre post : List Nat,
    st.do_list_queue = some (pre ++ do_list_encode q ++ post) ∧
    st.do_list_queue_start = pre.length ∧
    st.do_list_queue_end = pre.length + (do_list_encode q).length ∧
    st.do_list_queue_size = (pre ++ do_list_encode q ++ post).length ∧
    (∀ e ∈ q, e ≠ [] ∧ ∀ c ∈ e, c ≠ 0) ∧
    (q = [] → pre = [] ∧ post.head? = some 0) ∧
    (q ≠ [] → ∃ c, (pre ++ do_list_encode q).head? = some c ∧ c ≠ 0)

/-- An allocator that never fails. -/
def demo_client_env : client_env := { alloc_ok := fun _ => true, fresh_byte := 170 }

/-- Three entries of 600 characters, then two removals. -/
def demo_do_list_ops : List do_list_op :=
  [do_list_op.add (List.replicate 600 65), do_list_op.add (List.replicate 600 66),
   do_list_op.add (List.replicate 600 67), do_list_op.remove_head, do_list_op.remove_head]

/-! # Theorems -/

/-! ## Strings -/

theorem strequal_refl (a : CStr) : strequal a a = true := by
  simp [strequal]

theorem strequal_symm (a b : CStr) : strequal a b = strequal b a := by
  simp only [strequal]
  exact decide_eq_decide.mpr eq_comm

theorem strequal_trans {a b c : CStr} (h1 : strequal a b = true) (h2 : strequal b c = true) :
    strequal a c = true := by
  simp only [strequal, decide_eq_true_eq] at *
  exact h1.trans h2

theorem strequal_congr_left {a b : CStr} (c : CStr) (h : strequal a b = true) :
    strequal a c = strequal b c := by
  simp only [strequal, decide_eq_true_eq] at h
  simp only [strequal, h]

theorem strequal_congr_right {a b : CStr} (c : CStr) (h : strequal a b = true) :
    strequal c a = strequal c b := by
  simp only [strequal, decide_eq_true_eq] at h
  simp only [strequal, h]

theorem fstrcpy_of_fits {a : CStr} (h : a.length < FSTRING_LEN) : fstrcpy a = a := by
  unfold fstrcpy
  apply List.take_of_length_le
  unfold FSTRING_LEN at *
  omega

theorem fstrcpy_length (a : CStr) : (fstrcpy a).length < FSTRING_LEN := by
  unfold fstrcpy FSTRING_LEN
  simp [List.length_take]

theorem strupper_length (a : CStr) : (strupper a).length = a.length := by
  simp [strupper]

/-! ## Lookup cache -/

theorem cm_ads_find_dc_fits (env : Env) (tr : List Event) (domain srv_name : CStr) (ip : in_addr)
    (h : (cm_ads_find_dc env tr domain ip srv_name).1 = true) :
    (cm_ads_find_dc env tr domain ip srv_name).2.1.length < FSTRING_LEN := by
  unfold cm_ads_find_dc at h ⊢
  simp only [] at h ⊢
  split at h
  · simp at h
  · split at h
    · simp at h
    · simp only [strupper_length]
      exact fstrcpy_length _

/-- A controller name that discovery produced fits in an `fstring`. -/
theorem cm_get_dc_name_find_fits (env : Env) (tr : List Event) (domain srv_name : CStr)
    (h : (cm_get_dc_name_find env tr domain srv_name).1 = true) :
    (cm_get_dc_name_find env tr domain srv_name).2.1.length < FSTRING_LEN := by
  unfold cm_get_dc_name_find at h ⊢
  simp only [] at h ⊢
  by_cases hsec : env.lp_security = SEC_ADS
  · simp only [hsec, if_true] at h ⊢
    cases hads : (cm_ads_find_dc env tr domain 0 srv_name).1
    · simp only [hads, Bool.not_false, if_true] at h ⊢
      cases hr : env.rpc_find_dc (cm_ads_find_dc env tr domain 0 srv_name).2.2.2 domain with
      | none => simp [hr] at h
      | some p => simpa [hr] using fstrcpy_length p.1
    · simp only [hads, Bool.not_true, Bool.false_eq_true, if_false]
      exact cm_ads_find_dc_fits env tr domain srv_name 0 hads
  · simp only [hsec, if_false, Bool.not_false, if_true] at h ⊢
    cases hr : env.rpc_find_dc tr domain with
    | none => simp [hr] at h
    | some p => simpa [hr] using fstrcpy_length p.1

/-- The events of `cm_ads_find_dc` are discovery events, at least one. -/
theorem cm_ads_find_dc_trace (env : Env) (tr : List Event) (domain srv_name : CStr)
    (ip : in_addr) :
    ∃ evs, (cm_ads_find_dc env tr domain ip srv_name).2.2.2 = evs ++ tr ∧
      (∀ ev ∈ evs, Event.is_discovery ev = true) ∧ evs ≠ [] := by
  unfold cm_ads_find_dc
  simp only []
  cases env.ads_init tr (if strequal domain env.lp_workgroup = true then env.lp_realm else domain)
      domain with
  | none =>
    exact ⟨[Event.ads_init _ _], rfl, by simp [Event.is_discovery], by simp⟩
  | some ads0 =>
    cases env.HAVE_ADS
    · simp only [Bool.false_eq_true, if_false]
      cases ads0.config_realm with
      | none => exact ⟨[Event.ads_init _ _], rfl, by simp [Event.is_discovery], by simp⟩
      | some r =>
        exact ⟨[Event.ads_destroy, Event.ads_init _ _], rfl, by simp [Event.is_discovery],
          by simp⟩
    · simp only [if_true]
      cases (env.ads_connect (Event.ads_init
          (if strequal domain env.lp_workgroup = true then env.lp_realm else domain) domain :: tr)
          ads0).config_realm with
      | none =>
        exact ⟨[Event.ads_connect, Event.ads_init _ _], rfl, by simp [Event.is_discovery],
          by simp⟩
      | some r =>
        exact ⟨[Event.ads_destroy, Event.ads_connect, Event.ads_init _ _], rfl,
          by simp [Event.is_discovery], by simp⟩

/-- The events of the discovery step are discovery events, at least one. -/
theorem cm_get_dc_name_find_trace (env : Env) (tr : List Event) (domain srv_name : CStr) :
    ∃ evs, (cm_get_dc_name_find env tr domain srv_name).2.2.2 = evs ++ tr ∧
      (∀ ev ∈ evs, Event.is_discovery ev = true) ∧ evs ≠ [] := by
  unfold cm_get_dc_name_find
  simp only []
  by_cases hsec : env.lp_security = SEC_ADS
  · simp only [hsec, if_true]
    obtain ⟨evs, h1, h2, h3⟩ := cm_ads_find_dc_trace env tr domain srv_name 0
    cases hads : (cm_ads_find_dc env tr domain 0 srv_name).1
    · simp only [Bool.not_false, if_true]
      refine ⟨Event.rpc_find_dc domain :: evs, ?_, ?_, by simp⟩
      · cases env.rpc_find_dc (cm_ads_find_dc env tr domain 0 srv_name).2.2.2 domain <;>
          simp [h1]
      · intro ev hev
        rcases List.mem_cons.mp hev with h | h
        · rw [h]; rfl
        · exact h2 ev h
    · simp only [Bool.not_true, Bool.false_eq_true, if_false]
      exact ⟨evs, h1, h2, h3⟩
  · simp only [hsec, if_false, Bool.not_false, if_true]
    refine ⟨[Event.rpc_find_dc domain], ?_, by simp [Event.is_discovery], by simp⟩
    cases env.rpc_find_dc tr domain <;> simp

theorem calls_append (p : Event → Bool) (evs tr : List Event) :
    calls p (evs ++ tr) = calls p evs + calls p tr := by
  simp [calls, List.countP_append]

theorem calls_eq_zero (p : Event → Bool) (evs : List Event)
    (h : ∀ ev ∈ evs, p ev = false) : calls p evs = 0 := by
  simp only [calls, List.countP_eq_zero]
  intro ev hev
  simp [h ev hev]

/-- The scan of the failed-connection cache leaves a list without an entry for
(domain, controller) as it is. -/
theorem cm_open_connection_scan_none (now : time_t) (domain controller : CStr)
    (l : List failed_connection_cache)
    (h : ∀ x ∈ l, (strequal domain x.domain_name && strequal controller x.controller) = false) :
    cm_open_connection_scan now domain controller l = fcc_scan.miss l := by
  induction l with
  | nil => rfl
  | cons x xs ih =>
    have hx := h x (List.mem_cons_self _ _)
    have ih1 := ih (fun y hy => h y (List.mem_cons_of_mem _ hy))
    rw [cm_open_connection_scan]
    simp only [hx, Bool.not_false, if_true, ih1]

/-- The scan of the failed-connection cache stops at the first entry for
(domain, controller). -/
theorem cm_open_connection_scan_first (now : time_t) (domain controller : CStr)
    (pre post : List failed_connection_cache) (e : failed_connection_cache)
    (hpre : ∀ x ∈ pre,
      (strequal domain x.domain_name && strequal controller x.controller) = false)
    (he : (strequal domain e.domain_name && strequal controller e.controller) = true) :
    cm_open_connection_scan now domain controller (pre ++ e :: post) =
      if now - e.lookup_time > FAILED_CONNECTION_CACHE_TIMEOUT then fcc_scan.miss (pre ++ post)
      else fcc_scan.cached e.nt_status := by
  induction pre with
  | nil =>
    rw [List.nil_append, cm_open_connection_scan]
    simp only [he, Bool.not_true, Bool.false_eq_true, if_false, List.nil_append]
  | cons x xs ih =>
    have hx := hpre x (List.mem_cons_self _ _)
    have ih1 := ih (fun y hy => hpre y (List.mem_cons_of_mem _ hy))
    rw [List.cons_append, cm_open_connection_scan]
    simp only [hx, Bool.not_false, if_true, ih1]
    split_ifs <;> rfl

/-- C6. Negative-cache idempotence. Start from a failed-connection cache with
no entry for the domain. `add_failed_connection_entry` for (domain, ctrlA) with
the failure status S1 puts (domain, ctrlA, S1) at the head of the cache. A
second `add_failed_connection_entry` for the same domain (up to case), a
controller ctrlB that differs from ctrlA (also up to case) and a failure status
S2, after any further events, changes nothing. The scan of `cm_open_connection`
for (domain, ctrlB) then finds nothing and leaves the cache as it is, and the
scan for (domain, ctrlA), at most 30 seconds after the first call, returns S1.
Domain and controller are the `fstring` fields of the connection record, so
they fit an `fstring`. -/
theorem record_failure_first_wins (env : Env) (s : State) (connA connB : winbindd_cm_conn)
    (S1 S2 : NTSTATUS)
    (hS1 : NT_STATUS_IS_OK S1 = false) (hS2 : NT_STATUS_IS_OK S2 = false)
    (hdom : strequal connB.domain connA.domain = true)
    (hctrl : strequal connB.controller connA.controller = false)
    (hfitsD : connA.domain.length < FSTRING_LEN)
    (hfitsC : connA.controller.length < FSTRING_LEN)
    (hnone : ∀ x ∈ s.failed_connection_cache, strequal x.domain_name connA.domain = false)
    (hmalloc : env.malloc s.trace = true) :
    add_failed_connection_entry env s connA S1 =
      some { s with failed_connection_cache :=
        { domain_name := connA.domain, controller := connA.controller,
          lookup_time := env.time s.trace, nt_status := S1 } :: s.failed_connection_cache } ∧
    (∀ tr : List Event,
      add_failed_connection_entry env
        { s with
          failed_connection_cache :=
            { domain_name := connA.domain, controller := connA.controller,
              lookup_time := env.time s.trace, nt_status := S1 } :: s.failed_connection_cache,
          trace := tr } connB S2 =
      some { s with
          failed_connection_cache :=
            { domain_name := connA.domain, controller := connA.controller,
              lookup_time := env.time s.trace, nt_status := S1 } :: s.failed_connection_cache,
          trace := tr }) ∧
    (∀ now : time_t,
      cm_open_connection_scan now connB.domain connB.controller
        ({ domain_name := connA.domain, controller := connA.controller,
           lookup_time := env.time s.trace, nt_status := S1 } :: s.failed_connection_cache) =
      fcc_scan.miss
        ({ domain_name := connA.domain, controller := connA.controller,
           lookup_time := env.time s.trace, nt_status := S1 } :: s.failed_connection_cache)) ∧
    (∀ now : time_t, now - env.time s.trace ≤ 30 →
      cm_open_connection_scan now connA.domain connA.controller
        ({ domain_name := connA.domain, controller := connA.controller,
           lookup_time := env.time s.trace, nt_status := S1 } :: s.failed_connection_cache) =
      fcc_scan.cached S1) := by
  have hany : s.failed_connection_cache.any
      (fun fcc => strequal fcc.domain_name connA.domain) = false := by
    rw [List.any_eq_false]
    intro x hx
    simp [hnone x hx]
  refine ⟨?_, ?_, ?_, ?_⟩
  · simp [add_failed_connection_entry, hS1, hany, hmalloc, fstrcpy_of_fits hfitsD,
      fstrcpy_of_fits hfitsC]
  · intro tr
    have h1 : strequal connA.domain connB.domain = true := by
      rw [strequal_symm]; exact hdom
    simp [add_failed_connection_entry, hS2, h1]
  · intro now
    apply cm_open_connection_scan_none
    intro x hx
    rcases List.mem_cons.mp hx with h | h
    · subst h
      simp [hctrl]
    · have h2 := hnone x h
      rw [strequal_symm, ← strequal_congr_left x.domain_name hdom] at h2
      simp [h2]
  · intro now hnow
    have hnow2 : ¬ now - env.time s.trace > FAILED_CONNECTION_CACHE_TIMEOUT := by
      unfold FAILED_CONNECTION_CACHE_TIMEOUT
      exact not_lt.mpr hnow
    have h := cm_open_connection_scan_first now connA.domain connA.controller []
      s.failed_connection_cache
      { domain_name := connA.domain, controller := connA.controller,
        lookup_time := env.time s.trace, nt_status := S1 }
      (by simp) (by simp [strequal_refl])
    simp only [List.nil_append, if_neg hnow2] at h
    exact h

/-- Witness of C6: ("CORP", "DC1") then ("CORP", "DC2") on the empty state. -/
theorem record_failure_first_wins_witness :
    add_failed_connection_entry (demo_env 100 true demo_connected) demo_empty
      (demo_conn demo_DC1) NT_STATUS_UNSUCCESSFUL = some (demo_failed_state 100) ∧
    add_failed_connection_entry (demo_env 100 true demo_connected) (demo_failed_state 100)
      (demo_conn demo_DC2) NT_STATUS_PIPE_NOT_AVAILABLE = some (demo_failed_state 100) ∧
    cm_open_connection_scan 110 demo_CORP demo_DC2 [demo_failed 100] =
      fcc_scan.miss [demo_failed 100] ∧
    cm_open_connection_scan 110 demo_CORP demo_DC1 [demo_failed 100] =
      fcc_scan.cached NT_STATUS_UNSUCCESSFUL := by
  have h := record_failure_first_wins (demo_env 100 true demo_connected) demo_empty
    (demo_conn demo_DC1) (demo_conn demo_DC2) NT_STATUS_UNSUCCESSFUL
    NT_STATUS_PIPE_NOT_AVAILABLE (by decide) (by decide) (by decide) (by decide) (by decide)
    (by decide) (by decide) (by decide)
  exact ⟨h.1, h.2.1 [], h.2.2.1 110, h.2.2.2 110 (by decide)⟩

/-- C7, counterexample. At time 100 the only entry of the failed-connection
cache for "CORP" is 100 seconds old, yet `add_failed_connection_entry` for
("CORP", "DC2") with a failure status leaves the cache as it is: the new entry
is not stored. -/
theorem record_failure_expired_counterexample :
    (demo_failed_state 0).failed_connection_cache = [demo_failed 0] ∧
    (demo_env 100 true demo_connected).time (demo_failed_state 0).trace
      - (demo_failed 0).lookup_time > 30 ∧
    NT_STATUS_IS_OK NT_STATUS_PIPE_NOT_AVAILABLE = false ∧
    add_failed_connection_entry (demo_env 100 true demo_connected) (demo_failed_state 0)
      (demo_conn demo_DC2) NT_STATUS_PIPE_NOT_AVAILABLE = some (demo_failed_state 0) := by
  decide

/-- C7, amended. `add_failed_connection_entry` is blocked by any entry for the
domain, whatever its age: for a failure status, if the cache holds an entry
for the domain (up to case) the call changes nothing, and if it holds none
(and `malloc` succeeds) the call puts the entry (domain, controller, status),
stamped with the current time, at the head of the cache. Domain and controller
are the `fstring` fields of the connection record. -/
theorem record_failure_blocked_by_any_entry (env : Env) (s : State)
    (new_conn : winbindd_cm_conn) (result : NTSTATUS)
    (hres : NT_STATUS_IS_OK result = false)
    (hfitsD : new_conn.domain.length < FSTRING_LEN)
    (hfitsC : new_conn.controller.length < FSTRING_LEN) :
    ((∃ x ∈ s.failed_connection_cache, strequal x.domain_name new_conn.domain = true) →
      add_failed_connection_entry env s new_conn result = some s) ∧
    ((∀ x ∈ s.failed_connection_cache, strequal x.domain_name new_conn.domain = false) →
      env.malloc s.trace = true →
      add_failed_connection_entry env s new_conn result =
        some { s with failed_connection_cache :=
          { domain_name := new_conn.domain, controller := new_conn.controller,
            lookup_time := env.time s.trace, nt_status := result }
            :: s.failed_connection_cache }) := by
  constructor
  · rintro ⟨x, hx, hxd⟩
    have hany : s.failed_connection_cache.any
        (fun fcc => strequal fcc.domain_name new_conn.domain) = true :=
      List.any_eq_true.mpr ⟨x, hx, hxd⟩
    simp [add_failed_connection_entry, hres, hany]
  · intro hnone hmalloc
    have hany : s.failed_connection_cache.any
        (fun fcc => strequal fcc.domain_name new_conn.domain) = false := by
      rw [List.any_eq_false]
      intro x hx
      simp [hnone x hx]
    simp [add_failed_connection_entry, hres, hany, hmalloc, fstrcpy_of_fits hfitsD,
      fstrcpy_of_fits hfitsC]

/-- Witness of C7 (amended): a 100 seconds old entry for ("CORP", "DC1") blocks
the entry for ("CORP", "DC2"); on the empty cache the entry is stored. -/
theorem record_failure_blocked_by_any_entry_witness :
    add_failed_connection_entry (demo_env 100 true demo_connected) (demo_failed_state 0)
      (demo_conn demo_DC2) NT_STATUS_PIPE_NOT_AVAILABLE = some (demo_failed_state 0) ∧
    add_failed_connection_entry (demo_env 100 true demo_connected) demo_empty
      (demo_conn demo_DC1) NT_STATUS_UNSUCCESSFUL = some (demo_failed_state 100) := by
  have h1 := record_failure_blocked_by_any_entry (demo_env 100 true demo_connected)
    (demo_failed_state 0) (demo_conn demo_DC2) NT_STATUS_PIPE_NOT_AVAILABLE (by decide)
    (by decide) (by decide)
  have h2 := record_failure_blocked_by_any_entry (demo_env 100 true demo_connected)
    demo_empty (demo_conn demo_DC1) NT_STATUS_UNSUCCESSFUL (by decide) (by decide) (by decide)
  exact ⟨h1.1 ⟨demo_failed 0, by decide, by decide⟩, h2.2 (by decide) (by decide)⟩

/-! ## The connect loop -/

theorem cm_open_connection_loop_no_retry (env : Env) (dc_ip : in_addr)
    (u d p : Option CStr) (n : Nat) (st : connect_loop_state) (h : st.retry = false) :
    cm_open_connection_loop env dc_ip u d p n st = st := by
  cases n with
  | zero => rfl
  | succ n => simp [cm_open_connection_loop, h]

theorem cm_open_connection_loop_calls (env : Env) (dc_ip : in_addr) (u d p : Option CStr) :
    ∀ (n : Nat) (st : connect_loop_state),
      open_session_calls (cm_open_connection_loop env dc_ip u d p n st).trace
        ≤ open_session_calls st.trace + n
  | 0, st => by simp [cm_open_connection_loop]
  | n + 1, st => by
    rw [cm_open_connection_loop]
    cases hretry : st.retry
    · simp
    · simp only [Bool.not_true, Bool.false_eq_true, if_false, secrets_named_mutex,
        secrets_named_mutex_release]
      cases hlock : env.named_lock_acquire st.trace st.new_conn.controller
          st.new_conn.mutex_ref_count
      · simp only []
        refine le_trans (cm_open_connection_loop_calls env dc_ip u d p n _) ?_
        simp [open_session_calls, calls, Event.is_open_session]
      · simp only []
        split_ifs
        · simp [open_session_calls, calls, Event.is_open_session]
        · refine le_trans (cm_open_connection_loop_calls env dc_ip u d p n _) ?_
          simp [open_session_calls, calls, Event.is_open_session]
          omega

theorem add_failed_connection_entry_some (env : Env) (s : State) (new_conn : winbindd_cm_conn)
    (result : NTSTATUS) (h : NT_STATUS_IS_OK result = false) :
    ∃ s1, add_failed_connection_entry env s new_conn result = some s1 ∧
      s1.trace = s.trace ∧ s1.cm_conns = s.cm_conns ∧
      s1.get_dc_name_cache = s.get_dc_name_cache := by
  unfold add_failed_connection_entry
  simp only [h, Bool.false_eq_true, if_false]
  split_ifs <;> exact ⟨_, rfl, rfl, rfl, rfl⟩

theorem cm_get_ipc_userpass_trace (env : Env) (tr : List Event) :
    (cm_get_ipc_userpass env tr).2.2.2 =
      Event.secrets_fetch SecretKey.SECRETS_AUTH_PASSWORD ::
      Event.secrets_fetch SecretKey.SECRETS_AUTH_DOMAIN ::
      Event.secrets_fetch SecretKey.SECRETS_AUTH_USER :: tr := by
  unfold cm_get_ipc_userpass
  simp only []
  split_ifs <;> rfl

theorem open_session_calls_cons (ev : Event) (tr : List Event) :
    open_session_calls (ev :: tr) =
      open_session_calls tr + (if Event.is_open_session ev then 1 else 0) := by
  simp [open_session_calls, calls, List.countP_cons]

theorem cm_open_connection_connect_calls (env : Env) (s : State) (pipe_index : Int)
    (new_conn : winbindd_cm_conn) (keep_mutex : Bool) (dc_ip : in_addr) :
    ∃ r, cm_open_connection_connect env s pipe_index new_conn keep_mutex dc_ip = some r ∧
      open_session_calls r.2.2.trace ≤ open_session_calls s.trace + 3 := by
  unfold cm_open_connection_connect
  simp only []
  have htr := cm_get_ipc_userpass_trace env s.trace
  rcases hc : cm_get_ipc_userpass env s.trace with ⟨u, d, p, tr0⟩
  rw [hc] at htr
  simp only at htr
  simp only []
  have hloop := cm_open_connection_loop_calls env dc_ip u d p 3
    { retry := true, got_mutex := false, result := NT_STATUS_OK, new_conn := new_conn,
      trace := tr0 }
  have h0 : open_session_calls tr0 = open_session_calls s.trace := by
    rw [htr]; simp [open_session_calls_cons, Event.is_open_session]
  simp only [h0] at hloop
  generalize cm_open_connection_loop env dc_ip u d p 3
    { retry := true, got_mutex := false, result := NT_STATUS_OK, new_conn := new_conn,
      trace := tr0 } = st at hloop ⊢
  have hpipe : NT_STATUS_IS_OK NT_STATUS_PIPE_NOT_AVAILABLE = false := by decide
  cases hok : NT_STATUS_IS_OK st.result <;>
    simp only [add_failed_connection_entry, hok, hpipe, secrets_named_mutex_release,
      Bool.not_false, Bool.not_true, Bool.false_eq_true, if_true, if_false] <;>
    split_ifs <;>
    refine ⟨_, rfl, ?_⟩ <;>
    simp only [open_session_calls_cons, Event.is_open_session, Bool.false_eq_true, if_false,
      Nat.add_zero] <;>
    exact hloop

/-- `cm_get_dc_name` touches the lookup cache only, and its events are
discovery events. -/
theorem cm_get_dc_name_frame (env : Env) (s : State) (domain srv_name : CStr)
    (ip_out : in_addr) :
    (∃ evs, (cm_get_dc_name env s domain srv_name ip_out).2.2.2.trace = evs ++ s.trace ∧
      ∀ ev ∈ evs, Event.is_discovery ev = true) ∧
    (cm_get_dc_name env s domain srv_name ip_out).2.2.2.failed_connection_cache
      = s.failed_connection_cache ∧
    (cm_get_dc_name env s domain srv_name ip_out).2.2.2.cm_conns = s.cm_conns := by
  unfold cm_get_dc_name
  cases cm_get_dc_name_scan (env.time s.trace) domain s.get_dc_name_cache with
  | positive name => exact ⟨⟨[], rfl, by simp⟩, rfl, rfl⟩
  | negative => exact ⟨⟨[], rfl, by simp⟩, rfl, rfl⟩
  | miss cache =>
    simp only []
    cases env.malloc s.trace
    · exact ⟨⟨[], rfl, by simp⟩, rfl, rfl⟩
    · obtain ⟨evs, h1, h2, -⟩ := cm_get_dc_name_find_trace env s.trace domain srv_name
      simp only [Bool.not_true, Bool.false_eq_true, if_false]
      rcases hf : cm_get_dc_name_find env s.trace domain srv_name with ⟨r, srv1, ip1, tr1⟩
      rw [hf] at h1
      cases r <;> exact ⟨⟨evs, h1, h2⟩, rfl, rfl⟩

theorem calls_of_discovery (p : Event → Bool) (hp : ∀ ev, Event.is_discovery ev = true → p ev = false)
    (evs tr : List Event) (h : ∀ ev ∈ evs, Event.is_discovery ev = true) :
    calls p (evs ++ tr) = calls p tr := by
  rw [calls_append, calls_eq_zero p evs (fun ev hev => hp ev (h ev hev))]
  omega

theorem cm_open_connection_connect_calls_of_eq (env : Env) (s : State) (pipe_index : Int)
    (new_conn : winbindd_cm_conn) (keep_mutex : Bool) (dc_ip : in_addr)
    (r : NTSTATUS × winbindd_cm_conn × State)
    (h : cm_open_connection_connect env s pipe_index new_conn keep_mutex dc_ip = some r) :
    open_session_calls r.2.2.trace ≤ open_session_calls s.trace + 3 := by
  obtain ⟨r2, h5, h6⟩ := cm_open_connection_connect_calls env s pipe_index new_conn keep_mutex
    dc_ip
  rw [h5] at h
  simp only [Option.some.injEq] at h
  subst h
  exact h6

/-- `cm_open_connection` calls `cli_full_connection` at most three times. -/
theorem cm_open_connection_calls (env : Env) (s : State) (domain : CStr) (pipe_index : Int)
    (new_conn : winbindd_cm_conn) (keep_mutex : Bool)
    (r : NTSTATUS × winbindd_cm_conn × State)
    (h : cm_open_connection env s domain pipe_index new_conn keep_mutex = some r) :
    open_session_calls r.2.2.trace ≤ open_session_calls s.trace + 3 := by
  unfold cm_open_connection at h
  simp only [] at h
  obtain ⟨⟨evs, h1, h2⟩, -, -⟩ := cm_get_dc_name_frame env s domain new_conn.controller 0
  have hd : open_session_calls (cm_get_dc_name env s domain new_conn.controller 0).2.2.2.trace
      = open_session_calls s.trace := by
    rw [h1]
    exact calls_of_discovery _ (fun ev hev => by cases ev <;> simp_all [Event.is_discovery, Event.is_open_session]) _ _ h2
  rcases hg : cm_get_dc_name env s domain new_conn.controller 0 with ⟨ret, srv, ip, s1⟩
  rw [hg] at h hd
  simp only at hd
  cases ret
  · simp only [] at h
    have hnf : NT_STATUS_IS_OK NT_STATUS_DOMAIN_CONTROLLER_NOT_FOUND = false := by decide
    obtain ⟨s2, h3, h4, -, -⟩ := add_failed_connection_entry_some env s1
      { new_conn with domain := fstrcpy domain,
                      pipe_name := fstrcpy ((env.get_pipe_name_from_index pipe_index).getD []),
                      controller := srv } NT_STATUS_DOMAIN_CONTROLLER_NOT_FOUND hnf
    rw [h3] at h
    simp only [Option.map_some', Option.some.injEq] at h
    subst h
    simp only [h4, hd]
    omega
  · simp only [] at h
    split at h
    · split_ifs at h
      simp only [Option.some.injEq] at h
      subst h
      simp only [hd]
      omega
    · have h6 := cm_open_connection_connect_calls_of_eq _ _ _ _ _ _ _ h
      simp only [hd] at h6
      exact h6

theorem cm_open_connection_connect_once (env : Env) (s : State) (pipe_index : Int)
    (new_conn : winbindd_cm_conn) (keep_mutex : Bool) (dc_ip : in_addr)
    (hlock : env.named_lock_acquire (cm_get_ipc_userpass env s.trace).2.2.2
      new_conn.controller new_conn.mutex_ref_count = true)
    (hfail : NT_STATUS_IS_OK
      (cm_open_connection_first_attempt env s new_conn dc_ip).status = false)
    (hretry : (cm_open_connection_first_attempt env s new_conn dc_ip).retry = false) :
    ∃ r, cm_open_connection_connect env s pipe_index new_conn keep_mutex dc_ip = some r ∧
      r.1 = (cm_open_connection_first_attempt env s new_conn dc_ip).status ∧
      open_session_calls r.2.2.trace = open_session_calls s.trace + 1 := by
  unfold cm_open_connection_first_attempt at hfail hretry ⊢
  unfold cm_open_connection_connect
  have htr := cm_get_ipc_userpass_trace env s.trace
  rcases hc : cm_get_ipc_userpass env s.trace with ⟨u, d, p, tr0⟩
  rw [hc] at htr hlock hfail hretry
  simp only at htr hlock hfail hretry ⊢
  have h0 : open_session_calls tr0 = open_session_calls s.trace := by
    rw [htr]; simp [open_session_calls_cons, Event.is_open_session]
  have hl : cm_open_connection_loop env dc_ip u d p 3
      { retry := true, got_mutex := false, result := NT_STATUS_OK, new_conn := new_conn,
        trace := tr0 } =
      { retry := false, got_mutex := false,
        result := (env.cli_full_connection
          (Event.secrets_named_mutex new_conn.controller true :: tr0) new_conn.controller dc_ip
          u d p).status,
        new_conn := { new_conn with
          mutex_ref_count := new_conn.mutex_ref_count + 1 - 1,
          cli := (env.cli_full_connection
            (Event.secrets_named_mutex new_conn.controller true :: tr0) new_conn.controller
            dc_ip u d p).cli },
        trace := Event.secrets_named_mutex_release new_conn.controller ::
          Event.cli_full_connection new_conn.controller dc_ip ::
          Event.secrets_named_mutex new_conn.controller true :: tr0 } := by
    rw [cm_open_connection_loop]
    simp only [Bool.not_true, Bool.false_eq_true, if_false, secrets_named_mutex, hlock, if_true,
      hfail, secrets_named_mutex_release, hretry]
    rw [cm_open_connection_loop_no_retry _ _ _ _ _ _ _ rfl]
  rw [hl]
  simp only [hfail, Bool.not_false, if_true, Bool.false_eq_true, if_false,
    add_failed_connection_entry]
  split_ifs <;>
    refine ⟨_, rfl, rfl, ?_⟩ <;>
    simp [open_session_calls_cons, Event.is_open_session, h0]

/-- C2. Bounded retry with early exit. Every run of `cm_open_connection` that
returns has made at most 3 calls of `cli_full_connection`; the part of it from
the connect loop on always returns and makes at most 3 such calls, whatever the
collaborators answer; the loop does nothing more once `retry` is False; and
when the lock is granted in the first iteration and `cli_full_connection` then
fails leaving `retry` False, the run returns that status after exactly one
`cli_full_connection` call. -/
theorem bounded_retry (env : Env) :
    (∀ (s : State) (domain : CStr) (pipe_index : Int) (new_conn : winbindd_cm_conn)
        (keep_mutex : Bool) (r : NTSTATUS × winbindd_cm_conn × State),
      cm_open_connection env s domain pipe_index new_conn keep_mutex = some r →
      open_session_calls r.2.2.trace ≤ open_session_calls s.trace + 3) ∧
    (∀ (s : State) (pipe_index : Int) (new_conn : winbindd_cm_conn) (keep_mutex : Bool)
        (dc_ip : in_addr),
      ∃ r, cm_open_connection_connect env s pipe_index new_conn keep_mutex dc_ip = some r ∧
        open_session_calls r.2.2.trace ≤ open_session_calls s.trace + 3) ∧
    (∀ (dc_ip : in_addr) (u d p : Option CStr) (n : Nat) (st : connect_loop_state),
      st.retry = false → cm_open_connection_loop env dc_ip u d p n st = st) ∧
    (∀ (s : State) (pipe_index : Int) (new_conn : winbindd_cm_conn) (keep_mutex : Bool)
        (dc_ip : in_addr),
      env.named_lock_acquire (cm_get_ipc_userpass env s.trace).2.2.2
        new_conn.controller new_conn.mutex_ref_count = true →
      NT_STATUS_IS_OK (cm_open_connection_first_attempt env s new_conn dc_ip).status = false →
      (cm_open_connection_first_attempt env s new_conn dc_ip).retry = false →
      ∃ r, cm_open_connection_connect env s pipe_index new_conn keep_mutex dc_ip = some r ∧
        r.1 = (cm_open_connection_first_attempt env s new_conn dc_ip).status ∧
        open_session_calls r.2.2.trace = open_session_calls s.trace + 1) :=
  ⟨fun s domain pipe_index new_conn keep_mutex r h =>
      cm_open_connection_calls env s domain pipe_index new_conn keep_mutex r h,
    fun s pipe_index new_conn keep_mutex dc_ip =>
      cm_open_connection_connect_calls env s pipe_index new_conn keep_mutex dc_ip,
    fun dc_ip u d p n st h => cm_open_connection_loop_no_retry env dc_ip u d p n st h,
    fun s pipe_index new_conn keep_mutex dc_ip h1 h2 h3 =>
      cm_open_connection_connect_once env s pipe_index new_conn keep_mutex dc_ip h1 h2 h3⟩

/-- Witness of C2: a `cli_full_connection` that fails with `retry` False is
called once; one that fails with `retry` True is called three times. -/
theorem bounded_retry_witness :
    (cm_open_connection_connect (demo_env 100 true demo_refused) demo_empty 0
      (demo_conn demo_DC1) false demo_addr).map
        (fun r => (r.1, open_session_calls r.2.2.trace)) = some (NT_STATUS_UNSUCCESSFUL, 1) ∧
    (cm_open_connection (demo_env 100 true demo_dropped) demo_empty demo_CORP 0
      winbindd_cm_conn.zero false).map
        (fun r => open_session_calls r.2.2.trace) = some 3 := by
  obtain ⟨r, h1, h2, h3⟩ := (bounded_retry (demo_env 100 true demo_refused)).2.2.2 demo_empty 0
    (demo_conn demo_DC1) false demo_addr (by decide) (by decide) (by decide)
  refine ⟨?_, by decide⟩
  rw [h1, Option.map_some', h2, h3]
  rfl

/-! ## The connection establisher -/

theorem cm_ads_find_dc_false (env : Env) (tr : List Event) (domain srv_name : CStr)
    (ip : in_addr) (h : (cm_ads_find_dc env tr domain ip srv_name).1 = false) :
    (cm_ads_find_dc env tr domain ip srv_name).2.1 = srv_name := by
  revert h
  unfold cm_ads_find_dc
  simp only []
  cases env.ads_init tr (if strequal domain env.lp_workgroup = true then env.lp_realm else domain)
      domain with
  | none => intro _; rfl
  | some ads0 =>
    cases env.HAVE_ADS
    · simp only [Bool.false_eq_true, if_false]
      cases ads0.config_realm with
      | none => intro _; rfl
      | some r => intro h; simp at h
    · simp only [if_true]
      cases (env.ads_connect (Event.ads_init
          (if strequal domain env.lp_workgroup = true then env.lp_realm else domain) domain :: tr)
          ads0).config_realm with
      | none => intro _; rfl
      | some r => intro h; simp at h

theorem cm_get_dc_name_find_false (env : Env) (tr : List Event) (domain srv_name : CStr)
    (h : (cm_get_dc_name_find env tr domain srv_name).1 = false) :
    (cm_get_dc_name_find env tr domain srv_name).2.1 = srv_name := by
  revert h
  unfold cm_get_dc_name_find
  simp only []
  by_cases hsec : env.lp_security = SEC_ADS
  · simp only [hsec, if_true]
    cases hads : (cm_ads_find_dc env tr domain 0 srv_name).1
    · simp only [Bool.not_false, if_true]
      cases env.rpc_find_dc (cm_ads_find_dc env tr domain 0 srv_name).2.2.2 domain with
      | none => intro _; exact cm_ads_find_dc_false env tr domain srv_name 0 hads
      | some p => intro h; simp at h
    · simp only [Bool.not_true, Bool.false_eq_true, if_false]
      intro h
      exact Bool.noConfusion h
  · simp only [hsec, if_false, Bool.not_false, if_true]
    cases env.rpc_find_dc tr domain with
    | none => intro _; rfl
    | some p => intro h; simp at h

/-- A `cm_get_dc_name` that returns False leaves `srv_name` as it was. -/
theorem cm_get_dc_name_false (env : Env) (s : State) (domain srv_name : CStr)
    (ip_out : in_addr) (h : (cm_get_dc_name env s domain srv_name ip_out).1 = false) :
    (cm_get_dc_name env s domain srv_name ip_out).2.1 = srv_name := by
  revert h
  unfold cm_get_dc_name
  cases cm_get_dc_name_scan (env.time s.trace) domain s.get_dc_name_cache with
  | positive name => intro h; simp at h
  | negative => intro _; rfl
  | miss cache =>
    simp only []
    cases env.malloc s.trace
    · intro _; rfl
    · simp only [Bool.not_true, Bool.false_eq_true, if_false]
      have hf := cm_get_dc_name_find_false env s.trace domain srv_name
      rcases hfd : cm_get_dc_name_find env s.trace domain srv_name with ⟨r, srv1, ip1, tr1⟩
      rw [hfd] at hf
      cases r
      · intro _; exact hf rfl
      · intro h; simp at h

/-- An element of a list splits it at its first occurrence. -/
theorem mem_split_first {α : Type} [DecidableEq α] (a : α) :
    ∀ l : List α, a ∈ l → ∃ pre post, l = pre ++ a :: post ∧ a ∉ pre
  | [], h => by simp at h
  | x :: xs, h => by
    by_cases hx : x = a
    · exact ⟨[], xs, by simp [hx], by simp⟩
    · have h1 : a ∈ xs := by
        rcases List.mem_cons.mp h with h2 | h2
        · exact absurd h2.symm hx
        · exact h2
      obtain ⟨pre, post, h3, h4⟩ := mem_split_first a xs h1
      refine ⟨x :: pre, post, by simp [h3], ?_⟩
      simp only [List.mem_cons, not_or]
      exact ⟨fun h5 => hx h5.symm, h4⟩

/-- `cm_get_dc_name` asks for no lock, fetches no credentials and opens no
session and no pipe. -/
theorem cm_get_dc_name_quiet (env : Env) (s : State) (domain srv_name : CStr)
    (ip_out : in_addr) :
    lock_calls (cm_get_dc_name env s domain srv_name ip_out).2.2.2.trace = lock_calls s.trace ∧
    credential_calls (cm_get_dc_name env s domain srv_name ip_out).2.2.2.trace
      = credential_calls s.trace ∧
    open_session_calls (cm_get_dc_name env s domain srv_name ip_out).2.2.2.trace
      = open_session_calls s.trace ∧
    open_endpoint_calls (cm_get_dc_name env s domain srv_name ip_out).2.2.2.trace
      = open_endpoint_calls s.trace := by
  obtain ⟨⟨evs, h1, h2⟩, -, -⟩ := cm_get_dc_name_frame env s domain srv_name ip_out
  rw [h1]
  refine ⟨?_, ?_, ?_, ?_⟩
  · exact calls_of_discovery _ (fun ev hev => by
      cases ev <;> simp_all [Event.is_discovery, Event.is_mutex_request]) _ _ h2
  · exact calls_of_discovery _ (fun ev hev => by
      cases ev <;> simp_all [Event.is_discovery, Event.is_secrets_fetch]) _ _ h2
  · exact calls_of_discovery _ (fun ev hev => by
      cases ev <;> simp_all [Event.is_discovery, Event.is_open_session]) _ _ h2
  · exact calls_of_discovery _ (fun ev hev => by
      cases ev <;> simp_all [Event.is_discovery, Event.is_open_endpoint]) _ _ h2

/-- C9. Failed-connection short-circuit. Suppose `cm_get_dc_name` resolves the
domain to controller `C`, and the failed-connection cache holds an entry `e`
for (domain, C), the only one for that pair, at most 30 seconds old when the
cache is scanned, with a failure status. Then `cm_open_connection` returns
`e.nt_status` in the state `cm_get_dc_name` left: the failed-connection cache
is unchanged and no call of `secrets_named_mutex`, `secrets_fetch`,
`cli_full_connection` or `cli_nt_session_open` was made. -/
theorem failed_connection_short_circuit (env : Env) (s : State) (domain : CStr)
    (pipe_index : Int) (new_conn : winbindd_cm_conn) (keep_mutex : Bool)
    (C : CStr) (ip : in_addr) (s1 : State) (e : failed_connection_cache)
    (hresolve : cm_get_dc_name env s domain new_conn.controller 0 = (true, C, ip, s1))
    (hmem : e ∈ s.failed_connection_cache)
    (hkey : (strequal domain e.domain_name && strequal C e.controller) = true)
    (hlive : env.time s1.trace - e.lookup_time ≤ 30)
    (hstatus : NT_STATUS_IS_OK e.nt_status = false)
    (honly : ∀ x ∈ s.failed_connection_cache,
      (strequal domain x.domain_name && strequal C x.controller) = true → x = e) :
    cm_open_connection env s domain pipe_index new_conn keep_mutex =
      some (e.nt_status,
        { new_conn with
          domain := fstrcpy domain,
          pipe_name := fstrcpy ((env.get_pipe_name_from_index pipe_index).getD []),
          controller := C }, s1) ∧
    s1.failed_connection_cache = s.failed_connection_cache ∧
    lock_calls s1.trace = lock_calls s.trace ∧
    credential_calls s1.trace = credential_calls s.trace ∧
    open_session_calls s1.trace = open_session_calls s.trace ∧
    open_endpoint_calls s1.trace = open_endpoint_calls s.trace := by
  obtain ⟨-, hfcc, -⟩ := cm_get_dc_name_frame env s domain new_conn.controller 0
  obtain ⟨q1, q2, q3, q4⟩ := cm_get_dc_name_quiet env s domain new_conn.controller 0
  rw [hresolve] at hfcc q1 q2 q3 q4
  simp only at hfcc q1 q2 q3 q4
  refine ⟨?_, hfcc, q1, q2, q3, q4⟩
  obtain ⟨pre, post, hsplit, hpre⟩ := mem_split_first e s.failed_connection_cache hmem
  have hpre2 : ∀ x ∈ pre,
      (strequal domain x.domain_name && strequal C x.controller) = false := by
    intro x hx
    cases hm : (strequal domain x.domain_name && strequal C x.controller)
    · rfl
    · have hxe := honly x (by rw [hsplit]; exact List.mem_append_left _ hx) hm
      rw [hxe] at hx
      exact absurd hx hpre
  have hlive2 : ¬ env.time s1.trace - e.lookup_time > FAILED_CONNECTION_CACHE_TIMEOUT := by
    unfold FAILED_CONNECTION_CACHE_TIMEOUT
    exact not_lt.mpr hlive
  have hscan := cm_open_connection_scan_first (env.time s1.trace) domain C pre post e hpre2 hkey
  rw [if_neg hlive2, ← hsplit, ← hfcc] at hscan
  unfold cm_open_connection
  simp only [hresolve, hscan, hstatus, Bool.false_eq_true, if_false]

/-- Witness of C9: "CORP" resolves to "DC1" and the cache holds a 10 seconds
old failure for ("CORP", "DC1"). -/
theorem failed_connection_short_circuit_witness :
    (cm_open_connection (demo_env 100 true demo_connected) (demo_failed_state 90) demo_CORP 0
      winbindd_cm_conn.zero false).map
        (fun r => (r.1, r.2.2.failed_connection_cache, lock_calls r.2.2.trace,
          credential_calls r.2.2.trace, open_session_calls r.2.2.trace,
          open_endpoint_calls r.2.2.trace)) =
      some (NT_STATUS_UNSUCCESSFUL, [demo_failed 90], 0, 0, 0, 0) := by
  have h := failed_connection_short_circuit (demo_env 100 true demo_connected)
    (demo_failed_state 90) demo_CORP 0 winbindd_cm_conn.zero false demo_DC1 demo_addr
    (cm_get_dc_name (demo_env 100 true demo_connected) (demo_failed_state 90) demo_CORP [] 0
      ).2.2.2 (demo_failed 90) (by decide) (by decide) (by decide) (by decide) (by decide)
    (by decide)
  rw [h.1, Option.map_some']
  simp only [h.2.1, h.2.2.1, h.2.2.2.1, h.2.2.2.2.1, h.2.2.2.2.2]
  decide

/-- C10. Discovery failure is terminal. When `cm_get_dc_name` returns False for
the domain, `cm_open_connection`, called as its callers do with a zeroed
controller name, returns `NT_STATUS_DOMAIN_CONTROLLER_NOT_FOUND` without any
call of `secrets_named_mutex`, `secrets_fetch`, `cli_full_connection` or
`cli_nt_session_open`; the failed-connection cache is either unchanged or has
gained one entry, for the domain, with an empty controller name and that
status. -/
theorem discovery_failure_terminal (env : Env) (s : State) (domain : CStr)
    (pipe_index : Int) (new_conn : winbindd_cm_conn) (keep_mutex : Bool)
    (hzero : new_conn.controller = [])
    (hnotfound : (cm_get_dc_name env s domain new_conn.controller 0).1 = false) :
    ∃ s2, cm_open_connection env s domain pipe_index new_conn keep_mutex =
        some (NT_STATUS_DOMAIN_CONTROLLER_NOT_FOUND,
          { new_conn with
            domain := fstrcpy domain,
            pipe_name := fstrcpy ((env.get_pipe_name_from_index pipe_index).getD []) }, s2) ∧
      lock_calls s2.trace = lock_calls s.trace ∧
      credential_calls s2.trace = credential_calls s.trace ∧
      open_session_calls s2.trace = open_session_calls s.trace ∧
      open_endpoint_calls s2.trace = open_endpoint_calls s.trace ∧
      (s2.failed_connection_cache = s.failed_connection_cache ∨
        s2.failed_connection_cache =
          { domain_name := fstrcpy domain, controller := [], lookup_time := env.time s2.trace,
            nt_status := NT_STATUS_DOMAIN_CONTROLLER_NOT_FOUND } ::
            s.failed_connection_cache) := by
  obtain ⟨-, hfcc, -⟩ := cm_get_dc_name_frame env s domain new_conn.controller 0
  obtain ⟨q1, q2, q3, q4⟩ := cm_get_dc_name_quiet env s domain new_conn.controller 0
  have hsrv := cm_get_dc_name_false env s domain new_conn.controller 0 hnotfound
  rcases hg : cm_get_dc_name env s domain new_conn.controller 0 with ⟨ret, srv, ip, s1⟩
  rw [hg] at hnotfound hfcc q1 q2 q3 q4 hsrv
  simp only at hnotfound hfcc q1 q2 q3 q4 hsrv
  subst hnotfound
  subst hsrv
  have hnf : NT_STATUS_IS_OK NT_STATUS_DOMAIN_CONTROLLER_NOT_FOUND = false := by decide
  have hf : fstrcpy ([] : CStr) = [] := rfl
  have hidem : fstrcpy (fstrcpy domain) = fstrcpy domain := fstrcpy_of_fits (fstrcpy_length domain)
  rw [hzero] at hg
  unfold cm_open_connection
  simp only [hzero, hg, add_failed_connection_entry, hnf, Bool.false_eq_true, if_false, hf, hidem]
  split_ifs
  · exact ⟨s1, by simp [hzero], q1, q2, q3, q4, Or.inl hfcc⟩
  · exact ⟨s1, by simp [hzero], q1, q2, q3, q4, Or.inl hfcc⟩
  · exact ⟨{ s1 with failed_connection_cache :=
        { domain_name := fstrcpy domain, controller := [], lookup_time := env.time s1.trace,
          nt_status := NT_STATUS_DOMAIN_CONTROLLER_NOT_FOUND } :: s1.failed_connection_cache },
      by simp [hzero], q1, q2, q3, q4, Or.inr (by simp [hfcc])⟩

/-- Witness of C10: discovery fails for "CORP" on the empty state. -/
theorem discovery_failure_terminal_witness :
    (cm_open_connection (demo_env 100 false demo_connected) demo_empty demo_CORP 0
      winbindd_cm_conn.zero false).map
        (fun r => (r.1, lock_calls r.2.2.trace, credential_calls r.2.2.trace,
          open_session_calls r.2.2.trace, open_endpoint_calls r.2.2.trace)) =
      some (NT_STATUS_DOMAIN_CONTROLLER_NOT_FOUND, 0, 0, 0, 0) := by
  obtain ⟨s2, h1, h2, h3, h4, h5, -⟩ := discovery_failure_terminal
    (demo_env 100 false demo_connected) demo_empty demo_CORP 0 winbindd_cm_conn.zero false
    (by decide) (by decide)
  rw [h1, Option.map_some']
  simp only [h2, h3, h4, h5]
  decide

/-! ## The connection pool -/

/-- The scan of the pool leaves a list without an entry for (domain, pipe) as
it is and ends with `conn` NULL. -/
theorem get_connection_from_cache_scan_none (env : Env) (domain pipe_name : CStr)
    (keep_mutex : Bool) (tr : List Event) :
    ∀ l : List winbindd_cm_conn,
      (∀ x ∈ l, (strequal x.domain domain && strequal x.pipe_name pipe_name) = false) →
      get_connection_from_cache_scan env domain pipe_name keep_mutex l tr = some (none, l, tr)
  | [], _ => rfl
  | x :: xs, h => by
    have hx := h x (List.mem_cons_self _ _)
    have ih := get_connection_from_cache_scan_none env domain pipe_name keep_mutex tr xs
      (fun y hy => h y (List.mem_cons_of_mem _ hy))
    rw [get_connection_from_cache_scan]
    simp [hx, ih]

/-- The scan of the pool unlinks a dead entry for (domain, pipe), shuts its
client state down and goes on with the rest of the list. -/
theorem get_connection_from_cache_scan_dead (env : Env) (domain pipe_name : CStr)
    (keep_mutex : Bool) (tr : List Event) (e : winbindd_cm_conn) (cli : cli_state)
    (post : List winbindd_cm_conn)
    (hkey : (strequal e.domain domain && strequal e.pipe_name pipe_name) = true)
    (hcli : e.cli = some cli) (hinit : cli.initialised ≠ 0) (hfd : cli.fd = -1) :
    ∀ pre : List winbindd_cm_conn,
      (∀ x ∈ pre, (strequal x.domain domain && strequal x.pipe_name pipe_name) = false) →
      get_connection_from_cache_scan env domain pipe_name keep_mutex (pre ++ e :: post) tr =
        (get_connection_from_cache_scan env domain pipe_name keep_mutex post
          (Event.cli_shutdown (some cli) :: tr)).map
          (fun r => (r.1.map (· + pre.length), pre ++ r.2.1, r.2.2))
  | [], _ => by
    rw [List.nil_append, get_connection_from_cache_scan]
    simp only [hkey, if_true, connection_ok, hcli, hinit, if_false, hfd, Option.isSome_some]
    cases get_connection_from_cache_scan env domain pipe_name keep_mutex post
      (Event.cli_shutdown (some cli) :: tr) with
    | none => rfl
    | some r =>
      obtain ⟨f, l, t⟩ := r
      cases f <;> simp
  | x :: xs, h => by
    have hx := h x (List.mem_cons_self _ _)
    have ih := get_connection_from_cache_scan_dead env domain pipe_name keep_mutex tr e cli post
      hkey hcli hinit hfd xs (fun y hy => h y (List.mem_cons_of_mem _ hy))
    rw [List.cons_append, get_connection_from_cache_scan]
    simp only [hx, Bool.false_eq_true, if_false, ih]
    cases get_connection_from_cache_scan env domain pipe_name keep_mutex post
      (Event.cli_shutdown (some cli) :: tr) with
    | none => rfl
    | some r =>
      obtain ⟨f, l, t⟩ := r
      cases f <;> simp [Nat.add_assoc]

/-- The connect loop leaves the names of the connection record as they are. -/
theorem cm_open_connection_loop_names (env : Env) (dc_ip : in_addr) (u d p : Option CStr) :
    ∀ (n : Nat) (st : connect_loop_state),
      (cm_open_connection_loop env dc_ip u d p n st).new_conn.domain = st.new_conn.domain ∧
      (cm_open_connection_loop env dc_ip u d p n st).new_conn.pipe_name = st.new_conn.pipe_name ∧
      (cm_open_connection_loop env dc_ip u d p n st).new_conn.controller
        = st.new_conn.controller
  | 0, st => by simp [cm_open_connection_loop]
  | n + 1, st => by
    rw [cm_open_connection_loop]
    cases hretry : st.retry
    · simp
    · simp only [Bool.not_true, Bool.false_eq_true, if_false, secrets_named_mutex,
        secrets_named_mutex_release]
      cases hlock : env.named_lock_acquire st.trace st.new_conn.controller
          st.new_conn.mutex_ref_count
      · exact cm_open_connection_loop_names env dc_ip u d p n _
      · simp only []
        split_ifs
        · simp
        · exact cm_open_connection_loop_names env dc_ip u d p n _

/-- The part of `cm_open_connection` from the connect loop on always returns;
it leaves the pool and the names of the connection record as they are. -/
theorem cm_open_connection_connect_frame (env : Env) (s : State) (pipe_index : Int)
    (new_conn : winbindd_cm_conn) (keep_mutex : Bool) (dc_ip : in_addr) :
    ∃ r, cm_open_connection_connect env s pipe_index new_conn keep_mutex dc_ip = some r ∧
      r.2.2.cm_conns = s.cm_conns ∧ r.2.1.domain = new_conn.domain ∧
      r.2.1.pipe_name = new_conn.pipe_name := by
  unfold cm_open_connection_connect
  simp only []
  rcases cm_get_ipc_userpass env s.trace with ⟨u, d, p, tr0⟩
  simp only []
  obtain ⟨hn1, hn2, -⟩ := cm_open_connection_loop_names env dc_ip u d p 3
    { retry := true, got_mutex := false, result := NT_STATUS_OK, new_conn := new_conn,
      trace := tr0 }
  simp only at hn1 hn2
  generalize cm_open_connection_loop env dc_ip u d p 3
    { retry := true, got_mutex := false, result := NT_STATUS_OK, new_conn := new_conn,
      trace := tr0 } = st at hn1 hn2 ⊢
  have hpipe : NT_STATUS_IS_OK NT_STATUS_PIPE_NOT_AVAILABLE = false := by decide
  cases hok : NT_STATUS_IS_OK st.result <;>
    simp only [add_failed_connection_entry, hok, hpipe, secrets_named_mutex_release,
      Bool.not_false, Bool.not_true, Bool.false_eq_true, if_true, if_false] <;>
    split_ifs <;>
    exact ⟨_, rfl, rfl, hn1, hn2⟩

/-- A `cm_open_connection` that returns leaves the pool as it is and names the
connection record after the domain and the pipe of the index. -/
theorem cm_open_connection_frame (env : Env) (s : State) (domain : CStr) (pipe_index : Int)
    (new_conn : winbindd_cm_conn) (keep_mutex : Bool)
    (r : NTSTATUS × winbindd_cm_conn × State)
    (h : cm_open_connection env s domain pipe_index new_conn keep_mutex = some r) :
    r.2.2.cm_conns = s.cm_conns ∧ r.2.1.domain = fstrcpy domain ∧
    r.2.1.pipe_name = fstrcpy ((env.get_pipe_name_from_index pipe_index).getD []) := by
  unfold cm_open_connection at h
  simp only [] at h
  obtain ⟨-, -, hconns⟩ := cm_get_dc_name_frame env s domain new_conn.controller 0
  rcases hg : cm_get_dc_name env s domain new_conn.controller 0 with ⟨ret, srv, ip, s1⟩
  rw [hg] at h hconns
  simp only at hconns
  cases ret
  · simp only [] at h
    have hnf : NT_STATUS_IS_OK NT_STATUS_DOMAIN_CONTROLLER_NOT_FOUND = false := by decide
    simp only [add_failed_connection_entry, hnf, Bool.false_eq_true, if_false] at h
    split_ifs at h <;>
      simp only [Option.map_some', Option.some.injEq] at h <;>
      subst h <;>
      exact ⟨hconns, rfl, rfl⟩
  · simp only [] at h
    split at h
    · split_ifs at h
      simp only [Option.some.injEq] at h
      subst h
      exact ⟨hconns, rfl, rfl⟩
    · obtain ⟨r2, h5, h6, h7, h8⟩ := cm_open_connection_connect_frame env
        _ pipe_index _ keep_mutex ip
      rw [h5] at h
      simp only [Option.some.injEq] at h
      subst h
      exact ⟨h6.trans hconns, h7, h8⟩

/-- C1. Liveness eviction. Let `e` be the only entry of the pool for
(domain, pipe), with a client state that is non-NULL and initialised but has
`fd == -1`, and let `malloc` succeed. Then `get_connection_from_cache` shuts
that client state down and unlinks `e` (one `cli_shutdown`, the pool becomes
`pre ++ post`), calls `cm_open_connection` once, on that state and a zeroed
record, and returns what it returns: on success the new record, put at the
head of the pool, on failure its status, on abort the abort. The establisher
leaves the pool as it is, and `e` is no longer in it. -/
theorem liveness_eviction (env : Env) (s : State) (domain pipe_name : CStr)
    (keep_mutex : Bool) (pre post : List winbindd_cm_conn) (e : winbindd_cm_conn)
    (cli : cli_state)
    (hpool : s.cm_conns = pre ++ e :: post)
    (hkey : (strequal e.domain domain && strequal e.pipe_name pipe_name) = true)
    (hpre : ∀ x ∈ pre, (strequal x.domain domain && strequal x.pipe_name pipe_name) = false)
    (hpost : ∀ x ∈ post, (strequal x.domain domain && strequal x.pipe_name pipe_name) = false)
    (hcli : e.cli = some cli) (hinit : cli.initialised ≠ 0) (hfd : cli.fd = -1)
    (hmalloc : env.malloc (Event.cli_shutdown (some cli) :: s.trace) = true) :
    get_connection_from_cache env s domain pipe_name keep_mutex =
      (cm_open_connection env
        { s with cm_conns := pre ++ post, trace := Event.cli_shutdown (some cli) :: s.trace }
        domain (env.get_pipe_index pipe_name) winbindd_cm_conn.zero keep_mutex).map
        (fun r =>
          if NT_STATUS_IS_OK r.1 then
            (NT_STATUS_OK, some 0, { r.2.2 with cm_conns := r.2.1 :: (pre ++ post) })
          else (r.1, none, r.2.2)) ∧
    (∀ r, cm_open_connection env
        { s with cm_conns := pre ++ post, trace := Event.cli_shutdown (some cli) :: s.trace }
        domain (env.get_pipe_index pipe_name) winbindd_cm_conn.zero keep_mutex = some r →
      r.2.2.cm_conns = pre ++ post) ∧
    e ∉ pre ++ post := by
  have hscan := get_connection_from_cache_scan_dead env domain pipe_name keep_mutex s.trace e
    cli post hkey hcli hinit hfd pre hpre
  rw [get_connection_from_cache_scan_none env domain pipe_name keep_mutex _ post hpost] at hscan
  simp only [Option.map_some', Option.map_none'] at hscan
  have hframe : ∀ r, cm_open_connection env
        { s with cm_conns := pre ++ post, trace := Event.cli_shutdown (some cli) :: s.trace }
        domain (env.get_pipe_index pipe_name) winbindd_cm_conn.zero keep_mutex = some r →
      r.2.2.cm_conns = pre ++ post :=
    fun r hr => (cm_open_connection_frame _ _ _ _ _ _ r hr).1
  refine ⟨?_, hframe, ?_⟩
  · unfold get_connection_from_cache
    rw [hpool, hscan]
    simp only [hmalloc, Bool.not_true, Bool.false_eq_true, if_false]
    cases hopen : cm_open_connection env
        { s with cm_conns := pre ++ post, trace := Event.cli_shutdown (some cli) :: s.trace }
        domain (env.get_pipe_index pipe_name) winbindd_cm_conn.zero keep_mutex with
    | none => rfl
    | some r =>
      have hc := hframe r hopen
      obtain ⟨st, conn, s2⟩ := r
      simp only at hc
      cases hok : NT_STATUS_IS_OK st <;> simp [hok, hc]
  · intro hmem
    rcases List.mem_append.mp hmem with h | h
    · have := hpre e h
      rw [hkey] at this
      exact Bool.noConfusion this
    · have := hpost e h
      rw [hkey] at this
      exact Bool.noConfusion this

/-- Witness of C1: the pool holds one dead connection for ("CORP", lsarpc);
it is shut down and replaced by a fresh one. -/
theorem liveness_eviction_witness :
    (get_connection_from_cache (demo_env 100 true demo_connected) demo_stale_pool demo_CORP
      PIPE_LSARPC false).map
        (fun r => (r.1, r.2.1, r.2.2.cm_conns, calls Event.is_shutdown r.2.2.trace)) =
      some (NT_STATUS_OK, some 0,
        [{ domain := demo_CORP, controller := demo_DC1, pipe_name := PIPE_LSARPC,
           mutex_ref_count := 0, cli := some demo_cli, pol := 0 }], 1) := by
  have h := liveness_eviction (demo_env 100 true demo_connected) demo_stale_pool demo_CORP
    PIPE_LSARPC false [] [] demo_dead_conn { initialised := 1, fd := -1 } rfl (by decide)
    (by decide) (by decide) rfl (by decide) rfl (by decide)
  rw [h.1]
  decide

/-- The entry at which the scan of the pool stops is an entry for
(domain, pipe). -/
theorem get_connection_from_cache_scan_found (env : Env) (domain pipe_name : CStr)
    (keep_mutex : Bool) :
    ∀ (l : List winbindd_cm_conn) (tr : List Event) (k : Nat) (conns : List winbindd_cm_conn)
      (tr1 : List Event),
      get_connection_from_cache_scan env domain pipe_name keep_mutex l tr
        = some (some k, conns, tr1) →
      ∃ c, conns[k]? = some c ∧ strequal c.domain domain = true ∧
        strequal c.pipe_name pipe_name = true
  | [], tr, k, conns, tr1, h => by simp [get_connection_from_cache_scan] at h
  | x :: xs, tr, k, conns, tr1, h => by
    rw [get_connection_from_cache_scan] at h
    cases hx : (strequal x.domain domain && strequal x.pipe_name pipe_name)
    · simp only [hx, Bool.false_eq_true, if_false] at h
      cases hrec : get_connection_from_cache_scan env domain pipe_name keep_mutex xs tr with
      | none => simp [hrec] at h
      | some r =>
        obtain ⟨f, l, t⟩ := r
        simp only [hrec, Option.some.injEq, Prod.mk.injEq] at h
        obtain ⟨h1, h2, h3⟩ := h
        cases f with
        | none => simp at h1
        | some j =>
          simp only [Option.map_some', Option.some.injEq] at h1
          obtain ⟨c, hc1, hc2, hc3⟩ := get_connection_from_cache_scan_found env domain
            pipe_name keep_mutex xs tr j l t hrec
          refine ⟨c, ?_, hc2, hc3⟩
          rw [← h2, ← h1]
          simpa using hc1
    · simp only [hx, if_true] at h
      have hx2 := hx
      simp only [Bool.and_eq_true] at hx2
      cases hok : connection_ok x with
      | none => simp [hok] at h
      | some b =>
        cases b
        · simp only [hok] at h
          exact get_connection_from_cache_scan_found env domain pipe_name keep_mutex xs _ k
            conns tr1 h
        · simp only [hok] at h
          cases keep_mutex
          · simp only [Bool.false_eq_true, if_false, Option.some.injEq, Prod.mk.injEq] at h
            obtain ⟨h1, h2, h3⟩ := h
            refine ⟨x, ?_, hx2.1, hx2.2⟩
            rw [← h2, ← h1]
            simp
          · simp only [if_true, secrets_named_mutex, Option.some.injEq, Prod.mk.injEq] at h
            obtain ⟨h1, h2, h3⟩ := h
            refine ⟨{ x with mutex_ref_count :=
              if env.named_lock_acquire tr x.controller x.mutex_ref_count = true then
                x.mutex_ref_count + 1
              else x.mutex_ref_count }, ?_, hx2.1, hx2.2⟩
            rw [← h2, ← h1]
            simp

/-- A successful `get_connection_from_cache` sets `*conn_out` to an entry of
the pool for the requested domain and pipe. -/
theorem get_connection_from_cache_entry (env : Env) (s : State) (domain pipe_name : CStr)
    (keep_mutex : Bool) (st : NTSTATUS) (ko : Option Nat) (t : State)
    (hfits : domain.length < FSTRING_LEN)
    (hpipe : strequal
      (fstrcpy ((env.get_pipe_name_from_index (env.get_pipe_index pipe_name)).getD []))
      pipe_name = true)
    (h : get_connection_from_cache env s domain pipe_name keep_mutex = some (st, ko, t))
    (hok : NT_STATUS_IS_OK st = true) :
    ∃ k c, ko = some k ∧ t.cm_conns[k]? = some c ∧ strequal c.domain domain = true ∧
      strequal c.pipe_name pipe_name = true := by
  unfold get_connection_from_cache at h
  cases hscan : get_connection_from_cache_scan env domain pipe_name keep_mutex s.cm_conns
      s.trace with
  | none => simp [hscan] at h
  | some r =>
    obtain ⟨f, conns, tr⟩ := r
    cases f with
    | some k =>
      simp only [hscan, Option.some.injEq, Prod.mk.injEq] at h
      obtain ⟨-, h2, h3⟩ := h
      obtain ⟨c, hc1, hc2, hc3⟩ := get_connection_from_cache_scan_found env domain pipe_name
        keep_mutex s.cm_conns s.trace k conns tr hscan
      refine ⟨k, c, h2.symm, ?_, hc2, hc3⟩
      rw [← h3]
      exact hc1
    | none =>
      simp only [hscan] at h
      cases hm : env.malloc tr
      · simp only [hm, Bool.not_false, if_true, Option.some.injEq, Prod.mk.injEq] at h
        rw [← h.1] at hok
        exact absurd hok (by decide)
      · simp only [hm, Bool.not_true, Bool.false_eq_true, if_false] at h
        cases hopen : cm_open_connection env { s with cm_conns := conns, trace := tr } domain
            (env.get_pipe_index pipe_name) winbindd_cm_conn.zero keep_mutex with
        | none => simp [hopen] at h
        | some r =>
          obtain ⟨-, hd, hp⟩ := cm_open_connection_frame _ _ _ _ _ _ r hopen
          obtain ⟨result, conn, s2⟩ := r
          simp only at hd hp
          simp only [hopen] at h
          cases hres : NT_STATUS_IS_OK result
          · simp only [hres, Bool.not_false, if_true, Option.some.injEq, Prod.mk.injEq] at h
            rw [← h.1, hres] at hok
            exact Bool.noConfusion hok
          · simp only [hres, Bool.not_true, Bool.false_eq_true, if_false, Option.some.injEq,
              Prod.mk.injEq] at h
            obtain ⟨-, h2, h3⟩ := h
            refine ⟨0, conn, h2.symm, by rw [← h3]; simp, ?_, ?_⟩
            · rw [hd, fstrcpy_of_fits hfits]
              exact strequal_refl domain
            · rw [hp]
              exact hpipe

/-- A successful `get_connection_from_cache` sets `*conn_out` to an entry of
the pool for the requested pipe; its domain is the requested one up to case
(an entry found in the pool) or the `fstrcpy` of the requested one (a new
entry). -/
theorem get_connection_from_cache_entry_pipe (env : Env) (s : State) (domain pipe_name : CStr)
    (keep_mutex : Bool) (st : NTSTATUS) (ko : Option Nat) (t : State)
    (hpipe : strequal
      (fstrcpy ((env.get_pipe_name_from_index (env.get_pipe_index pipe_name)).getD []))
      pipe_name = true)
    (h : get_connection_from_cache env s domain pipe_name keep_mutex = some (st, ko, t))
    (hok : NT_STATUS_IS_OK st = true) :
    ∃ k c, ko = some k ∧ t.cm_conns[k]? = some c ∧ strequal c.pipe_name pipe_name = true ∧
      (strequal c.domain domain = true ∨ c.domain = fstrcpy domain) := by
  unfold get_connection_from_cache at h
  cases hscan : get_connection_from_cache_scan env domain pipe_name keep_mutex s.cm_conns
      s.trace with
  | none => simp [hscan] at h
  | some r =>
    obtain ⟨f, conns, tr⟩ := r
    cases f with
    | some k =>
      simp only [hscan, Option.some.injEq, Prod.mk.injEq] at h
      obtain ⟨-, h2, h3⟩ := h
      obtain ⟨c, hc1, hc2, hc3⟩ := get_connection_from_cache_scan_found env domain pipe_name
        keep_mutex s.cm_conns s.trace k conns tr hscan
      refine ⟨k, c, h2.symm, ?_, hc3, Or.inl hc2⟩
      rw [← h3]
      exact hc1
    | none =>
      simp only [hscan] at h
      cases hm : env.malloc tr
      · simp only [hm, Bool.not_false, if_true, Option.some.injEq, Prod.mk.injEq] at h
        rw [← h.1] at hok
        exact absurd hok (by decide)
      · simp only [hm, Bool.not_true, Bool.false_eq_true, if_false] at h
        cases hopen : cm_open_connection env { s with cm_conns := conns, trace := tr } domain
            (env.get_pipe_index pipe_name) winbindd_cm_conn.zero keep_mutex with
        | none => simp [hopen] at h
        | some r =>
          obtain ⟨-, hd, hp⟩ := cm_open_connection_frame _ _ _ _ _ _ r hopen
          obtain ⟨result, conn, s2⟩ := r
          simp only at hd hp
          simp only [hopen] at h
          cases hres : NT_STATUS_IS_OK result
          · simp only [hres, Bool.not_false, if_true, Option.some.injEq, Prod.mk.injEq] at h
            rw [← h.1, hres] at hok
            exact Bool.noConfusion hok
          · simp only [hres, Bool.not_true, Bool.false_eq_true, if_false, Option.some.injEq,
              Prod.mk.injEq] at h
            obtain ⟨-, h2, h3⟩ := h
            refine ⟨0, conn, h2.symm, by rw [← h3]; simp, ?_, Or.inr hd⟩
            rw [hp]
            exact hpipe

set_option maxRecDepth 8000 in
/-- C8, counterexample. A domain name of 300 bytes and an empty pool:
`get_connection_from_cache` for (that name, lsarpc) succeeds and sets
`*conn_out` to the new entry, whose domain field holds the first 255 bytes of
the name, which is what `fstrcpy` copied: the domain of the returned entry is
not the requested one. -/
theorem pool_entry_long_name_counterexample :
    demo_long_domain.length = 300 ∧
    (get_connection_from_cache (demo_env 100 true demo_connected) demo_empty demo_long_domain
      PIPE_LSARPC false).map
      (fun r => (NT_STATUS_IS_OK r.1, r.2.1,
        r.2.2.cm_conns.map (fun c => (c.domain, strequal c.domain demo_long_domain)))) =
      some (true, some 0, [(List.replicate 255 65, false)]) := by
  decide

/-- C8, amended. Pool key independence. For every domain name and two pipe
names `A`, `B` of the pipe table (the table gives back, up to case, the name
whose index it gave) that differ up to case: whenever
`get_connection_from_cache` succeeds for (domain, A) in some state and for
(domain, B) in some state, each sets `*conn_out` to a pool entry whose pipe
name equals the requested one up to case, and the two entries have different
pipe names, so they are different entries, whatever their controllers. When
the domain name is shorter than the 256 bytes of an `fstring`, the domain of
each entry equals the requested one up to case. -/
theorem pool_key_independence (env : Env) (domain A B : CStr)
    (s1 s2 : State) (keep1 keep2 : Bool) (st1 st2 : NTSTATUS) (ko1 ko2 : Option Nat)
    (t1 t2 : State)
    (hAB : strequal A B = false)
    (hA : strequal
      (fstrcpy ((env.get_pipe_name_from_index (env.get_pipe_index A)).getD [])) A = true)
    (hB : strequal
      (fstrcpy ((env.get_pipe_name_from_index (env.get_pipe_index B)).getD [])) B = true)
    (h1 : get_connection_from_cache env s1 domain A keep1 = some (st1, ko1, t1))
    (h2 : get_connection_from_cache env s2 domain B keep2 = some (st2, ko2, t2))
    (hok1 : NT_STATUS_IS_OK st1 = true) (hok2 : NT_STATUS_IS_OK st2 = true) :
    ∃ k1 k2 c1 c2, ko1 = some k1 ∧ ko2 = some k2 ∧
      t1.cm_conns[k1]? = some c1 ∧ t2.cm_conns[k2]? = some c2 ∧
      strequal c1.pipe_name A = true ∧ strequal c2.pipe_name B = true ∧
      strequal c1.pipe_name c2.pipe_name = false ∧ c1 ≠ c2 ∧
      (domain.length < FSTRING_LEN →
        strequal c1.domain domain = true ∧ strequal c2.domain domain = true) := by
  obtain ⟨k1, c1, e1, e2, e4, e3⟩ := get_connection_from_cache_entry_pipe env s1 domain A keep1
    st1 ko1 t1 hA h1 hok1
  obtain ⟨k2, c2, f1, f2, f4, f3⟩ := get_connection_from_cache_entry_pipe env s2 domain B keep2
    st2 ko2 t2 hB h2 hok2
  have hne : strequal c1.pipe_name c2.pipe_name = false := by
    rw [strequal_congr_left c2.pipe_name e4, strequal_symm,
      strequal_congr_left A f4, strequal_symm]
    exact hAB
  refine ⟨k1, k2, c1, c2, e1, f1, e2, f2, e4, f4, hne, ?_, ?_⟩
  · intro heq
    rw [heq, strequal_refl] at hne
    exact Bool.noConfusion hne
  · intro hfits
    constructor
    · rcases e3 with e3 | e3
      · exact e3
      · rw [e3, fstrcpy_of_fits hfits]; exact strequal_refl domain
    · rcases f3 with f3 | f3
      · exact f3
      · rw [f3, fstrcpy_of_fits hfits]; exact strequal_refl domain

/-- Witness of C8 (amended): a connection for ("CORP", lsarpc), then one for
("CORP", samr), both to "DC1". -/
theorem pool_key_independence_witness :
    demo_CORP.length < FSTRING_LEN ∧
    ∃ k1 k2 c1 c2, some 0 = some k1 ∧ some 0 = some k2 ∧
      demo_pool_lsa.cm_conns[k1]? = some c1 ∧ demo_pool_lsa_samr.cm_conns[k2]? = some c2 ∧
      strequal c1.pipe_name PIPE_LSARPC = true ∧ strequal c2.pipe_name PIPE_SAMR = true ∧
      strequal c1.pipe_name c2.pipe_name = false ∧ c1 ≠ c2 ∧
      strequal c1.domain demo_CORP = true ∧ strequal c2.domain demo_CORP = true := by
  obtain ⟨k1, k2, c1, c2, a1, a2, a3, a4, a5, a6, a7, a8, a9⟩ :=
    pool_key_independence (demo_env 100 true demo_connected) demo_CORP PIPE_LSARPC PIPE_SAMR
      demo_empty demo_pool_lsa false false NT_STATUS_OK NT_STATUS_OK (some 0) (some 0)
      demo_pool_lsa demo_pool_lsa_samr (by decide) (by decide) (by decide) (by decide)
      (by decide) (by decide) (by decide)
  exact ⟨by decide, k1, k2, c1, c2, a1, a2, a3, a4, a5, a6, a7, a8, (a9 (by decide)).1,
    (a9 (by decide)).2⟩

/-! ## The connect loop, iteration by iteration -/

/-- One iteration of the connect loop, by cases on the lock and on
`cli_full_connection`. -/
theorem cm_open_connection_loop_step (env : Env) (dc_ip : in_addr) (u d p : Option CStr)
    (n : Nat) (st : connect_loop_state) (hretry : st.retry = true) :
    cm_open_connection_loop env dc_ip u d p (n + 1) st =
      if env.named_lock_acquire st.trace st.new_conn.controller st.new_conn.mutex_ref_count
          = true then
        if NT_STATUS_IS_OK (cm_open_connection_attempt env dc_ip u d p st).status = true then
          cm_open_connection_connected env dc_ip u d p st
        else
          cm_open_connection_loop env dc_ip u d p n (cm_open_connection_failed env dc_ip u d p st)
      else cm_open_connection_loop env dc_ip u d p n (cm_open_connection_deadlock st) := by
  rw [cm_open_connection_loop]
  simp only [hretry, Bool.not_true, Bool.false_eq_true, if_false, secrets_named_mutex,
    secrets_named_mutex_release]
  cases hlock : env.named_lock_acquire st.trace st.new_conn.controller
      st.new_conn.mutex_ref_count
  · simp [cm_open_connection_deadlock, hretry]
  · simp only [if_true, cm_open_connection_attempt, cm_open_connection_connected,
      cm_open_connection_failed]

/-! ## Credentials -/

/-- C17, counterexample. The secrets store holds the user name "admin" and no
domain; `cm_get_ipc_userpass` returns as domain the workgroup "WG", not the
empty string. -/
theorem credential_domain_counterexample :
    demo_env_user.secrets_fetch [Event.secrets_fetch SecretKey.SECRETS_AUTH_USER]
      SecretKey.SECRETS_AUTH_DOMAIN = none ∧
    (cm_get_ipc_userpass demo_env_user []).2.1 = some [87, 71] ∧
    (some [87, 71] : Option CStr) ≠ some [] := by
  decide

/-- C17, amended. `cm_get_ipc_userpass` always returns three non-NULL strings.
When the store holds no user name, or an empty one, all three are empty. When
it holds a non-empty user name, that name is returned; the domain is the
stored one, or the configured workgroup when it is absent or empty; the
password is the stored one, or the empty string when it is absent or empty.
(`smb_xstrdup` is taken to return its copy.) -/
theorem credential_defaults (env : Env) (tr : List Event)
    (username domain password : Option CStr)
    (hu : env.secrets_fetch tr SecretKey.SECRETS_AUTH_USER = username)
    (hd : env.secrets_fetch (Event.secrets_fetch SecretKey.SECRETS_AUTH_USER :: tr)
      SecretKey.SECRETS_AUTH_DOMAIN = domain)
    (hp : env.secrets_fetch (Event.secrets_fetch SecretKey.SECRETS_AUTH_DOMAIN ::
      Event.secrets_fetch SecretKey.SECRETS_AUTH_USER :: tr)
      SecretKey.SECRETS_AUTH_PASSWORD = password) :
    ((cm_get_ipc_userpass env tr).1.isSome = true ∧
      (cm_get_ipc_userpass env tr).2.1.isSome = true ∧
      (cm_get_ipc_userpass env tr).2.2.1.isSome = true) ∧
    (username = none ∨ username = some [] →
      (cm_get_ipc_userpass env tr).1 = some [] ∧
      (cm_get_ipc_userpass env tr).2.1 = some [] ∧
      (cm_get_ipc_userpass env tr).2.2.1 = some []) ∧
    (∀ name : CStr, username = some name → name ≠ [] →
      (cm_get_ipc_userpass env tr).1 = some name ∧
      (cm_get_ipc_userpass env tr).2.1 =
        (if domain = none ∨ domain = some [] then some env.lp_workgroup else domain) ∧
      (cm_get_ipc_userpass env tr).2.2.1 =
        (if password = none ∨ password = some [] then some [] else password)) := by
  unfold cm_get_ipc_userpass
  simp only [hu, hd, hp]
  rcases username with _ | name
  · simp
  · rcases name with _ | ⟨c, cs⟩
    · simp
    · rcases domain with _ | dom <;> rcases password with _ | pw
      · simp
      · rcases pw with _ | ⟨x, xs⟩ <;> simp
      · rcases dom with _ | ⟨y, ys⟩ <;> simp
      · rcases dom with _ | ⟨y, ys⟩ <;> rcases pw with _ | ⟨x, xs⟩ <;> simp

/-- Witness of C17 (amended): a store holding only the user name "admin", and
an empty store. -/
theorem credential_defaults_witness :
    ((cm_get_ipc_userpass demo_env_user []).1 = some demo_admin ∧
      (cm_get_ipc_userpass demo_env_user []).2.1 = some [87, 71] ∧
      (cm_get_ipc_userpass demo_env_user []).2.2.1 = some []) ∧
    ((cm_get_ipc_userpass (demo_env 100 true demo_connected) []).1 = some [] ∧
      (cm_get_ipc_userpass (demo_env 100 true demo_connected) []).2.1 = some [] ∧
      (cm_get_ipc_userpass (demo_env 100 true demo_connected) []).2.2.1 = some []) :=
  ⟨(credential_defaults demo_env_user [] (some demo_admin) none none rfl rfl rfl).2.2
      demo_admin rfl (by decide),
    (credential_defaults (demo_env 100 true demo_connected) [] none none none rfl rfl rfl).2.1
      (Or.inl rfl)⟩

theorem lock_calls_cons (ev : Event) (tr : List Event) :
    lock_calls (ev :: tr) = lock_calls tr + (if Event.is_mutex_request ev then 1 else 0) := by
  simp [lock_calls, calls, List.countP_cons]

/-- The connect loop only adds events. -/
theorem cm_open_connection_loop_lock_calls_mono (env : Env) (dc_ip : in_addr)
    (u d p : Option CStr) :
    ∀ (n : Nat) (st : connect_loop_state),
      lock_calls st.trace ≤ lock_calls (cm_open_connection_loop env dc_ip u d p n st).trace
  | 0, st => by simp [cm_open_connection_loop]
  | n + 1, st => by
    cases hretry : st.retry
    · rw [cm_open_connection_loop_no_retry _ _ _ _ _ _ _ hretry]
    · rw [cm_open_connection_loop_step _ _ _ _ _ _ _ hretry]
      split_ifs
      · simp [cm_open_connection_connected, lock_calls_cons, Event.is_mutex_request]
      · refine le_trans ?_ (cm_open_connection_loop_lock_calls_mono env dc_ip u d p n _)
        simp [cm_open_connection_failed, lock_calls_cons, Event.is_mutex_request]
      · refine le_trans ?_ (cm_open_connection_loop_lock_calls_mono env dc_ip u d p n _)
        simp [cm_open_connection_deadlock, lock_calls_cons, Event.is_mutex_request]

/-- An iteration that is started asks for the lock. -/
theorem cm_open_connection_loop_lock_calls_started (env : Env) (dc_ip : in_addr)
    (u d p : Option CStr) (n : Nat) (st : connect_loop_state) (hretry : st.retry = true) :
    lock_calls st.trace + 1
      ≤ lock_calls (cm_open_connection_loop env dc_ip u d p (n + 1) st).trace := by
  rw [cm_open_connection_loop_step _ _ _ _ _ _ _ hretry]
  split_ifs
  · simp [cm_open_connection_connected, lock_calls_cons, Event.is_mutex_request]
  · refine le_trans ?_ (cm_open_connection_loop_lock_calls_mono env dc_ip u d p n _)
    simp [cm_open_connection_failed, lock_calls_cons, Event.is_mutex_request]
  · refine le_trans ?_ (cm_open_connection_loop_lock_calls_mono env dc_ip u d p n _)
    simp [cm_open_connection_deadlock, lock_calls_cons, Event.is_mutex_request]

/-- C18, counterexample. The first `cli_full_connection` returns
`NT_STATUS_OK` and leaves `retry` True: the loop stops there (`break`) and
`cm_open_connection` goes on as after a success, with one
`cli_full_connection` call in all. -/
theorem retry_flag_success_counterexample :
    (cm_open_connection_attempt (demo_env 100 true demo_connected_retry) demo_addr none none
      none demo_loop_entry).retry = true ∧
    cm_open_connection_loop (demo_env 100 true demo_connected_retry) demo_addr none none none 3
      demo_loop_entry =
      cm_open_connection_connected (demo_env 100 true demo_connected_retry) demo_addr none none
        none demo_loop_entry ∧
    (cm_open_connection_connect (demo_env 100 true demo_connected_retry) demo_empty 0
      (demo_conn demo_DC1) false demo_addr).map
        (fun r => (r.1, open_session_calls r.2.2.trace)) = some (NT_STATUS_OK, 1) := by
  decide

/-- C18, amended. In an iteration of the connect loop before the third
(at least one more value of `i` to come) in which the lock is granted: if
`cli_full_connection` fails and leaves `retry` True, the loop goes on with the
next iteration, which asks for the lock again; if `cli_full_connection`
returns `NT_STATUS_OK`, the loop stops with that success, whatever it left in
`retry`. -/
theorem retry_flag_honoured (env : Env) (dc_ip : in_addr) (u d p : Option CStr) (n : Nat)
    (st : connect_loop_state) (hretry : st.retry = true)
    (hlock : env.named_lock_acquire st.trace st.new_conn.controller
      st.new_conn.mutex_ref_count = true) :
    (NT_STATUS_IS_OK (cm_open_connection_attempt env dc_ip u d p st).status = false →
      (cm_open_connection_attempt env dc_ip u d p st).retry = true →
      cm_open_connection_loop env dc_ip u d p (n + 2) st =
        cm_open_connection_loop env dc_ip u d p (n + 1)
          (cm_open_connection_failed env dc_ip u d p st) ∧
      lock_calls st.trace + 2
        ≤ lock_calls (cm_open_connection_loop env dc_ip u d p (n + 2) st).trace) ∧
    (NT_STATUS_IS_OK (cm_open_connection_attempt env dc_ip u d p st).status = true →
      cm_open_connection_loop env dc_ip u d p (n + 2) st =
        cm_open_connection_connected env dc_ip u d p st) := by
  constructor
  · intro hfail hflag
    have hstep : cm_open_connection_loop env dc_ip u d p (n + 2) st =
        cm_open_connection_loop env dc_ip u d p (n + 1)
          (cm_open_connection_failed env dc_ip u d p st) := by
      rw [cm_open_connection_loop_step _ _ _ _ _ _ _ hretry]
      simp [hlock, hfail]
    refine ⟨hstep, ?_⟩
    rw [hstep]
    have h := cm_open_connection_loop_lock_calls_started env dc_ip u d p n
      (cm_open_connection_failed env dc_ip u d p st) hflag
    refine le_trans ?_ h
    simp [cm_open_connection_failed, lock_calls_cons, Event.is_mutex_request]
  · intro hok
    rw [cm_open_connection_loop_step _ _ _ _ _ _ _ hretry]
    simp [hlock, hok]

/-- Witness of C18 (amended): `cli_full_connection` fails and leaves `retry`
True in the first iteration. -/
theorem retry_flag_honoured_witness :
    cm_open_connection_loop (demo_env 100 true demo_dropped) demo_addr none none none 3
      demo_loop_entry =
      cm_open_connection_loop (demo_env 100 true demo_dropped) demo_addr none none none 2
        (cm_open_connection_failed (demo_env 100 true demo_dropped) demo_addr none none none
          demo_loop_entry) ∧
    lock_calls demo_loop_entry.trace + 2 ≤
      lock_calls (cm_open_connection_loop (demo_env 100 true demo_dropped) demo_addr none none
        none 3 demo_loop_entry).trace :=
  (retry_flag_honoured (demo_env 100 true demo_dropped) demo_addr none none none 1
    demo_loop_entry rfl (by decide)).1 (by decide) (by decide)

/-! ## The named lock -/

theorem grant_calls_cons (nm : CStr) (ev : Event) (tr : List Event) :
    grant_calls nm (ev :: tr) = grant_calls nm tr + (if Event.is_grant_of nm ev then 1 else 0) := by
  simp [grant_calls, calls, List.countP_cons]

theorem release_calls_cons (nm : CStr) (ev : Event) (tr : List Event) :
    release_calls nm (ev :: tr)
      = release_calls nm tr + (if Event.is_release_of nm ev then 1 else 0) := by
  simp [release_calls, calls, List.countP_cons]

theorem cm_open_connection_failed_trace (env : Env) (dc_ip : in_addr) (u d p : Option CStr)
    (st : connect_loop_state) :
    (cm_open_connection_failed env dc_ip u d p st).trace =
      Event.secrets_named_mutex_release st.new_conn.controller ::
      Event.cli_full_connection st.new_conn.controller dc_ip ::
      Event.secrets_named_mutex st.new_conn.controller true :: st.trace := rfl

theorem cm_open_connection_failed_conn (env : Env) (dc_ip : in_addr) (u d p : Option CStr)
    (st : connect_loop_state) :
    (cm_open_connection_failed env dc_ip u d p st).new_conn.controller
      = st.new_conn.controller ∧
    (cm_open_connection_failed env dc_ip u d p st).new_conn.mutex_ref_count
      = st.new_conn.mutex_ref_count ∧
    (cm_open_connection_failed env dc_ip u d p st).new_conn.domain = st.new_conn.domain ∧
    (cm_open_connection_failed env dc_ip u d p st).new_conn.pipe_name
      = st.new_conn.pipe_name ∧
    (cm_open_connection_failed env dc_ip u d p st).got_mutex = false :=
  ⟨rfl, by simp [cm_open_connection_failed], rfl, rfl, rfl⟩

theorem cm_open_connection_deadlock_trace (st : connect_loop_state) :
    (cm_open_connection_deadlock st).trace =
      Event.secrets_named_mutex st.new_conn.controller false :: st.trace := rfl

theorem cm_open_connection_connected_trace (env : Env) (dc_ip : in_addr) (u d p : Option CStr)
    (st : connect_loop_state) :
    (cm_open_connection_connected env dc_ip u d p st).trace =
      Event.cli_full_connection st.new_conn.controller dc_ip ::
      Event.secrets_named_mutex st.new_conn.controller true :: st.trace := rfl

/-- The three ways an iteration of the connect loop can go. -/
theorem cm_open_connection_loop_cases (env : Env) (dc_ip : in_addr) (u d p : Option CStr)
    (n : Nat) (st : connect_loop_state) (hretry : st.retry = true) :
    (NT_STATUS_IS_OK (cm_open_connection_attempt env dc_ip u d p st).status = true ∧
      cm_open_connection_loop env dc_ip u d p (n + 1) st =
        cm_open_connection_connected env dc_ip u d p st) ∨
    (NT_STATUS_IS_OK (cm_open_connection_attempt env dc_ip u d p st).status = false ∧
      cm_open_connection_loop env dc_ip u d p (n + 1) st =
        cm_open_connection_loop env dc_ip u d p n
          (cm_open_connection_failed env dc_ip u d p st)) ∨
    (cm_open_connection_loop env dc_ip u d p (n + 1) st =
      cm_open_connection_loop env dc_ip u d p n (cm_open_connection_deadlock st)) := by
  rw [cm_open_connection_loop_step _ _ _ _ _ _ _ hretry]
  cases env.named_lock_acquire st.trace st.new_conn.controller st.new_conn.mutex_ref_count
  · exact Or.inr (Or.inr (by simp))
  · cases hok : NT_STATUS_IS_OK (cm_open_connection_attempt env dc_ip u d p st).status
    · exact Or.inr (Or.inl ⟨rfl, by simp⟩)
    · exact Or.inl ⟨rfl, by simp⟩

/-- The connect loop, entered without the mutex, releases every lock it was
granted, except the one it holds when it stops with `got_mutex` True. -/
theorem cm_open_connection_loop_balance (env : Env) (dc_ip : in_addr) (u d p : Option CStr)
    (nm : CStr) :
    ∀ (n : Nat) (st : connect_loop_state), st.got_mutex = false →
      grant_calls nm (cm_open_connection_loop env dc_ip u d p n st).trace
          + release_calls nm st.trace =
        release_calls nm (cm_open_connection_loop env dc_ip u d p n st).trace
          + grant_calls nm st.trace +
          (if (cm_open_connection_loop env dc_ip u d p n st).got_mutex = true ∧
              st.new_conn.controller = nm then 1 else 0) ∧
      (cm_open_connection_loop env dc_ip u d p n st).new_conn.mutex_ref_count =
        st.new_conn.mutex_ref_count +
          (if (cm_open_connection_loop env dc_ip u d p n st).got_mutex = true then 1 else 0)
  | 0, st, hgot => by
    simp only [cm_open_connection_loop, hgot, Bool.false_eq_true, false_and, if_false]
    omega
  | n + 1, st, hgot => by
    cases hretry : st.retry
    · rw [cm_open_connection_loop_no_retry _ _ _ _ _ _ _ hretry]
      simp only [hgot, Bool.false_eq_true, false_and, if_false]
      omega
    · rcases cm_open_connection_loop_cases env dc_ip u d p n st hretry with
        ⟨-, hstep⟩ | ⟨-, hstep⟩ | hstep
      · rw [hstep]
        by_cases hnm : st.new_conn.controller = nm <;>
          simp [cm_open_connection_connected, grant_calls_cons, release_calls_cons,
            Event.is_grant_of, Event.is_release_of, hnm] <;> omega
      · rw [hstep]
        have ih := cm_open_connection_loop_balance env dc_ip u d p nm n
          (cm_open_connection_failed env dc_ip u d p st) rfl
        obtain ⟨c1, c2, -, -, -⟩ := cm_open_connection_failed_conn env dc_ip u d p st
        rw [cm_open_connection_failed_trace, c1, c2] at ih
        generalize cm_open_connection_loop env dc_ip u d p n
          (cm_open_connection_failed env dc_ip u d p st) = st1 at ih ⊢
        by_cases hnm : st.new_conn.controller = nm <;>
          simp only [grant_calls_cons, release_calls_cons, Event.is_grant_of,
            Event.is_release_of, hnm, decide_True, decide_False, Bool.and_true, Bool.and_false,
            if_true, if_false, Bool.false_eq_true, and_true, and_false] at ih ⊢ <;>
          omega
      · rw [hstep]
        have ih := cm_open_connection_loop_balance env dc_ip u d p nm n
          (cm_open_connection_deadlock st) hgot
        rw [cm_open_connection_deadlock_trace] at ih
        have c1 : (cm_open_connection_deadlock st).new_conn = st.new_conn := rfl
        rw [c1] at ih
        generalize cm_open_connection_loop env dc_ip u d p n
          (cm_open_connection_deadlock st) = st1 at ih ⊢
        by_cases hnm : st.new_conn.controller = nm <;>
          simp only [grant_calls_cons, release_calls_cons, Event.is_grant_of,
            Event.is_release_of, hnm, decide_True, decide_False, Bool.and_true, Bool.and_false,
            if_true, if_false, Bool.false_eq_true, and_true, and_false] at ih ⊢ <;>
          omega

/-- The connect loop, entered without the mutex, stops with `NT_STATUS_OK`
only through its `break`, holding the mutex. -/
theorem cm_open_connection_loop_ok (env : Env) (dc_ip : in_addr) (u d p : Option CStr) :
    ∀ (n : Nat) (st : connect_loop_state), st.got_mutex = false →
      (NT_STATUS_IS_OK st.result = false ∨ (st.retry = true ∧ 0 < n)) →
      NT_STATUS_IS_OK (cm_open_connection_loop env dc_ip u d p n st).result = true →
      (cm_open_connection_loop env dc_ip u d p n st).got_mutex = true
  | 0, st, _, hres, hok => by
    rcases hres with h | h
    · simp [cm_open_connection_loop, h] at hok
    · exact absurd h.2 (by decide)
  | n + 1, st, hgot, hres, hok => by
    cases hretry : st.retry
    · rw [cm_open_connection_loop_no_retry _ _ _ _ _ _ _ hretry] at hok ⊢
      rcases hres with h | h
      · rw [h] at hok; exact Bool.noConfusion hok
      · rw [hretry] at h; exact Bool.noConfusion h.1
    · rcases cm_open_connection_loop_cases env dc_ip u d p n st hretry with
        ⟨-, hstep⟩ | ⟨hfail, hstep⟩ | hstep
      · rw [hstep]; rfl
      · rw [hstep] at hok ⊢
        exact cm_open_connection_loop_ok env dc_ip u d p n _ rfl (Or.inl hfail) hok
      · rw [hstep] at hok ⊢
        exact cm_open_connection_loop_ok env dc_ip u d p n _ hgot (Or.inl rfl) hok

/-- The part of `cm_open_connection` from the connect loop on: what it holds
of the named lock when it returns. -/
theorem cm_open_connection_connect_balance (env : Env) (s : State) (pipe_index : Int)
    (new_conn : winbindd_cm_conn) (keep_mutex : Bool) (dc_ip : in_addr) (nm : CStr) :
    ∃ r, cm_open_connection_connect env s pipe_index new_conn keep_mutex dc_ip = some r ∧
      r.2.1.controller = new_conn.controller ∧
      grant_calls nm r.2.2.trace + release_calls nm s.trace =
        release_calls nm r.2.2.trace + grant_calls nm s.trace +
          (if (NT_STATUS_IS_OK r.1 = true ∧ keep_mutex = true) ∧ new_conn.controller = nm
            then 1 else 0) ∧
      r.2.1.mutex_ref_count = new_conn.mutex_ref_count +
        (if NT_STATUS_IS_OK r.1 = true ∧ keep_mutex = true then 1 else 0) := by
  unfold cm_open_connection_connect
  simp only []
  have htr := cm_get_ipc_userpass_trace env s.trace
  rcases hc : cm_get_ipc_userpass env s.trace with ⟨u, d, p, tr0⟩
  rw [hc] at htr
  simp only at htr
  simp only []
  obtain ⟨hbal, href⟩ := cm_open_connection_loop_balance env dc_ip u d p nm 3
    { retry := true, got_mutex := false, result := NT_STATUS_OK, new_conn := new_conn,
      trace := tr0 } rfl
  have hok := cm_open_connection_loop_ok env dc_ip u d p 3
    { retry := true, got_mutex := false, result := NT_STATUS_OK, new_conn := new_conn,
      trace := tr0 } rfl (Or.inr ⟨rfl, by decide⟩)
  obtain ⟨-, -, hctrl⟩ := cm_open_connection_loop_names env dc_ip u d p 3
    { retry := true, got_mutex := false, result := NT_STATUS_OK, new_conn := new_conn,
      trace := tr0 }
  have hg0 : grant_calls nm tr0 = grant_calls nm s.trace := by
    rw [htr]; simp [grant_calls_cons, Event.is_grant_of]
  have hr0 : release_calls nm tr0 = release_calls nm s.trace := by
    rw [htr]; simp [release_calls_cons, Event.is_release_of]
  simp only [hg0, hr0] at hbal href hok hctrl
  generalize cm_open_connection_loop env dc_ip u d p 3
    { retry := true, got_mutex := false, result := NT_STATUS_OK, new_conn := new_conn,
      trace := tr0 } = st at hbal href hok hctrl ⊢
  have hpipe : NT_STATUS_IS_OK NT_STATUS_PIPE_NOT_AVAILABLE = false := by decide
  have hokok : NT_STATUS_IS_OK NT_STATUS_OK = true := by decide
  cases hres : NT_STATUS_IS_OK st.result
  · cases hgot : st.got_mutex <;> cases keep_mutex <;>
      by_cases hnm : new_conn.controller = nm <;>
      simp only [add_failed_connection_entry, hres, hpipe, secrets_named_mutex_release,
        Bool.not_false, Bool.false_eq_true, if_true, if_false, hgot] <;>
      split_ifs <;>
      refine ⟨_, rfl, hctrl, ?_, ?_⟩ <;>
      simp only [grant_calls_cons, release_calls_cons, Event.is_grant_of, Event.is_release_of,
        hres, hnm, hctrl, hgot, Bool.false_eq_true, false_and, and_false, and_true, if_false,
        if_true, decide_True, decide_False, and_self, true_and] at hbal href ⊢ <;>
      omega
  · have hgot := hok hres
    cases keep_mutex <;> by_cases hnm : new_conn.controller = nm <;>
      cases hop : (env.cli_nt_session_open st.trace st.new_conn.cli pipe_index).1 <;>
      simp only [add_failed_connection_entry, hres, hpipe, hop, secrets_named_mutex_release,
        Bool.not_false, Bool.not_true, Bool.false_eq_true, if_true, if_false, hgot,
        Bool.and_true, Bool.and_false, Bool.true_and] <;>
      (try split_ifs) <;>
      refine ⟨_, rfl, hctrl, ?_, ?_⟩ <;>
      simp only [grant_calls_cons, release_calls_cons, Event.is_grant_of, Event.is_release_of,
        hpipe, hokok, hnm, hctrl, hgot, Bool.false_eq_true, false_and, and_false, and_true,
        if_false, if_true, decide_True, decide_False, and_self, true_and] at hbal href ⊢ <;>
      omega

/-- `cm_get_dc_name` neither takes nor releases a named lock. -/
theorem cm_get_dc_name_no_lock (env : Env) (s : State) (domain srv_name : CStr)
    (ip_out : in_addr) (nm : CStr) :
    grant_calls nm (cm_get_dc_name env s domain srv_name ip_out).2.2.2.trace
      = grant_calls nm s.trace ∧
    release_calls nm (cm_get_dc_name env s domain srv_name ip_out).2.2.2.trace
      = release_calls nm s.trace := by
  obtain ⟨⟨evs, h1, h2⟩, -, -⟩ := cm_get_dc_name_frame env s domain srv_name ip_out
  rw [h1]
  constructor
  · exact calls_of_discovery _ (fun ev hev => by
      cases ev <;> simp_all [Event.is_discovery, Event.is_grant_of]) _ _ h2
  · exact calls_of_discovery _ (fun ev hev => by
      cases ev <;> simp_all [Event.is_discovery, Event.is_release_of]) _ _ h2

/-- What a returning `cm_open_connection` holds of the named lock `nm`. -/
theorem cm_open_connection_balance (env : Env) (s : State) (domain : CStr) (pipe_index : Int)
    (new_conn : winbindd_cm_conn) (keep_mutex : Bool)
    (r : NTSTATUS × winbindd_cm_conn × State)
    (h : cm_open_connection env s domain pipe_index new_conn keep_mutex = some r) (nm : CStr) :
    grant_calls nm r.2.2.trace + release_calls nm s.trace =
      release_calls nm r.2.2.trace + grant_calls nm s.trace +
        (if (NT_STATUS_IS_OK r.1 = true ∧ keep_mutex = true) ∧ r.2.1.controller = nm
          then 1 else 0) ∧
    r.2.1.mutex_ref_count = new_conn.mutex_ref_count +
      (if NT_STATUS_IS_OK r.1 = true ∧ keep_mutex = true then 1 else 0) := by
  unfold cm_open_connection at h
  simp only [] at h
  obtain ⟨hg, hr⟩ := cm_get_dc_name_no_lock env s domain new_conn.controller 0 nm
  rcases hd : cm_get_dc_name env s domain new_conn.controller 0 with ⟨ret, srv, ip, s1⟩
  rw [hd] at h hg hr
  simp only at hg hr
  cases ret
  · simp only [] at h
    have hnf : NT_STATUS_IS_OK NT_STATUS_DOMAIN_CONTROLLER_NOT_FOUND = false := by decide
    simp only [add_failed_connection_entry, hnf, Bool.false_eq_true, if_false] at h
    split_ifs at h <;>
      simp only [Option.map_some', Option.some.injEq] at h <;>
      subst h <;>
      simp only [hnf, hg, hr, Bool.false_eq_true, false_and, if_false] <;>
      omega
  · simp only [] at h
    split at h
    · split_ifs at h with hres
      simp only [Option.some.injEq] at h
      subst h
      simp only [hres, hg, hr, Bool.false_eq_true, false_and, if_false]
      omega
    · obtain ⟨r2, h5, h6, h7, h8⟩ := cm_open_connection_connect_balance env
        _ pipe_index _ keep_mutex ip nm
      rw [h5] at h
      simp only [Option.some.injEq] at h
      subst h
      simp only [hg, hr] at h7
      simp only [h6]
      exact ⟨h7, h8⟩

/-- C20. Named-lock balance. For every run of `cm_open_connection` that
returns, whatever the collaborators answered: when it returns a failure, or a
success with `keep_mutex` False, the granted `secrets_named_mutex` calls it
made equal the `secrets_named_mutex_release` calls it made, for every lock
name, and the reference count of the record is as on entry; when it returns a
success with `keep_mutex` True, it made exactly one more granted call than
releases for the lock of the controller, none more for any other name, and
the reference count is one higher. -/
theorem named_lock_balance (env : Env) (s : State) (domain : CStr) (pipe_index : Int)
    (new_conn : winbindd_cm_conn) (keep_mutex : Bool)
    (r : NTSTATUS × winbindd_cm_conn × State)
    (h : cm_open_connection env s domain pipe_index new_conn keep_mutex = some r) :
    (NT_STATUS_IS_OK r.1 = false ∨ keep_mutex = false →
      (∀ nm : CStr, grant_calls nm r.2.2.trace + release_calls nm s.trace =
        release_calls nm r.2.2.trace + grant_calls nm s.trace) ∧
      r.2.1.mutex_ref_count = new_conn.mutex_ref_count) ∧
    (NT_STATUS_IS_OK r.1 = true → keep_mutex = true →
      grant_calls r.2.1.controller r.2.2.trace + release_calls r.2.1.controller s.trace =
        release_calls r.2.1.controller r.2.2.trace + grant_calls r.2.1.controller s.trace + 1 ∧
      (∀ nm : CStr, nm ≠ r.2.1.controller →
        grant_calls nm r.2.2.trace + release_calls nm s.trace =
          release_calls nm r.2.2.trace + grant_calls nm s.trace) ∧
      r.2.1.mutex_ref_count = new_conn.mutex_ref_count + 1) := by
  have hb := cm_open_connection_balance env s domain pipe_index new_conn keep_mutex r h
  constructor
  · intro hcase
    have hno : ¬ (NT_STATUS_IS_OK r.1 = true ∧ keep_mutex = true) := by
      rintro ⟨h1, h2⟩
      rcases hcase with h3 | h3
      · rw [h1] at h3; exact Bool.noConfusion h3
      · rw [h2] at h3; exact Bool.noConfusion h3
    refine ⟨fun nm => ?_, ?_⟩
    · have := (hb nm).1
      simp only [hno, false_and, if_false] at this
      omega
    · have := (hb []).2
      simp only [hno, if_false] at this
      omega
  · intro hok hkeep
    refine ⟨?_, fun nm hnm => ?_, ?_⟩
    · have := (hb r.2.1.controller).1
      simp only [hok, hkeep, and_self, if_true] at this
      exact this
    · have := (hb nm).1
      have hne : ¬ r.2.1.controller = nm := fun h => hnm h.symm
      simp only [hok, hkeep, and_self, true_and, hne, if_false] at this
      omega
    · have := (hb []).2
      simp only [hok, hkeep, and_self, if_true] at this
      exact this

/-- Witness of C20: a successful run with `keep_mutex` True keeps one grant of
the lock of "DC1"; a run whose three connection attempts fail keeps none. -/
theorem named_lock_balance_witness :
    (cm_open_connection (demo_env 100 true demo_connected) demo_empty demo_CORP 0
      winbindd_cm_conn.zero true).map
        (fun r => (r.1, r.2.1.controller,
          decide (grant_calls demo_DC1 r.2.2.trace + release_calls demo_DC1 demo_empty.trace =
            release_calls demo_DC1 r.2.2.trace + grant_calls demo_DC1 demo_empty.trace + 1),
          r.2.1.mutex_ref_count)) =
      some (NT_STATUS_OK, demo_DC1, true, 1) ∧
    (cm_open_connection (demo_env 100 true demo_dropped) demo_empty demo_CORP 0
      winbindd_cm_conn.zero true).map
        (fun r => (NT_STATUS_IS_OK r.1,
          decide (grant_calls demo_DC1 r.2.2.trace + release_calls demo_DC1 demo_empty.trace =
            release_calls demo_DC1 r.2.2.trace + grant_calls demo_DC1 demo_empty.trace),
          r.2.1.mutex_ref_count)) =
      some (false, true, 0) := by
  constructor
  · cases hr : cm_open_connection (demo_env 100 true demo_connected) demo_empty demo_CORP 0
        winbindd_cm_conn.zero true with
    | none => exact absurd hr (by decide)
    | some r =>
      have h1 : (cm_open_connection (demo_env 100 true demo_connected) demo_empty demo_CORP 0
          winbindd_cm_conn.zero true).map (fun r => (r.1, r.2.1.controller))
          = some (NT_STATUS_OK, demo_DC1) := by decide
      rw [hr] at h1
      simp only [Option.map_some', Option.some.injEq, Prod.mk.injEq] at h1
      have h := (named_lock_balance _ _ _ _ _ _ r hr).2 (by rw [h1.1]; rfl) rfl
      rw [h1.2] at h
      simp only [Option.map_some', h1.1, h1.2, h.1, h.2.2, decide_True]
      rfl
  · cases hr : cm_open_connection (demo_env 100 true demo_dropped) demo_empty demo_CORP 0
        winbindd_cm_conn.zero true with
    | none => exact absurd hr (by decide)
    | some r =>
      have h1 : (cm_open_connection (demo_env 100 true demo_dropped) demo_empty demo_CORP 0
          winbindd_cm_conn.zero true).map (fun r => NT_STATUS_IS_OK r.1) = some false := by
        decide
      rw [hr] at h1
      simp only [Option.map_some', Option.some.injEq] at h1
      have h := (named_lock_balance _ _ _ _ _ _ r hr).1 (Or.inl h1)
      simp only [Option.map_some', h1, h.1 demo_DC1, h.2, decide_True]
      rfl

/-! ## Outcomes of the connection establisher -/

/-- `add_failed_connection_entry` records a failure for a domain that has no
entry, when `malloc` succeeds. -/
theorem add_failed_connection_entry_records (env : Env) (s : State)
    (new_conn : winbindd_cm_conn) (result : NTSTATUS)
    (hres : NT_STATUS_IS_OK result = false)
    (hnone : ∀ x ∈ s.failed_connection_cache, strequal x.domain_name new_conn.domain = false)
    (hmalloc : env.malloc s.trace = true) :
    add_failed_connection_entry env s new_conn result =
      some { s with failed_connection_cache :=
        { domain_name := fstrcpy new_conn.domain, controller := fstrcpy new_conn.controller,
          lookup_time := env.time s.trace, nt_status := result }
          :: s.failed_connection_cache } := by
  have hany : s.failed_connection_cache.any
      (fun fcc => strequal fcc.domain_name new_conn.domain) = false := by
    rw [List.any_eq_false]
    intro x hx
    simp [hnone x hx]
  simp [add_failed_connection_entry, hres, hany, hmalloc]

/-- The part of `cm_open_connection` from the connect loop on, when the loop
ends with a failure and without the mutex: the failure is handed to
`add_failed_connection_entry` and returned. -/
theorem cm_open_connection_connect_of_failure (env : Env) (s : State) (pipe_index : Int)
    (new_conn : winbindd_cm_conn) (keep_mutex : Bool) (dc_ip : in_addr)
    (u d p : Option CStr) (tr0 : List Event) (st : connect_loop_state)
    (hcreds : cm_get_ipc_userpass env s.trace = (u, d, p, tr0))
    (hst : cm_open_connection_loop env dc_ip u d p 3
      { retry := true, got_mutex := false, result := NT_STATUS_OK, new_conn := new_conn,
        trace := tr0 } = st)
    (hres : NT_STATUS_IS_OK st.result = false) (hgot : st.got_mutex = false) :
    cm_open_connection_connect env s pipe_index new_conn keep_mutex dc_ip =
      (add_failed_connection_entry env { s with trace := st.trace } st.new_conn st.result).map
        (fun s1 => (st.result, st.new_conn, s1)) := by
  unfold cm_open_connection_connect
  simp only [hcreds, hst, hres, hgot, Bool.not_false, if_true, Bool.false_eq_true, if_false]

/-- The part of `cm_open_connection` from the connect loop on, when the loop
ends with a success and `cli_nt_session_open` fails. -/
theorem cm_open_connection_connect_of_pipe_failure (env : Env) (s : State) (pipe_index : Int)
    (new_conn : winbindd_cm_conn) (keep_mutex : Bool) (dc_ip : in_addr)
    (u d p : Option CStr) (tr0 : List Event) (st : connect_loop_state)
    (hcreds : cm_get_ipc_userpass env s.trace = (u, d, p, tr0))
    (hst : cm_open_connection_loop env dc_ip u d p 3
      { retry := true, got_mutex := false, result := NT_STATUS_OK, new_conn := new_conn,
        trace := tr0 } = st)
    (hres : NT_STATUS_IS_OK st.result = true)
    (hpipe : (env.cli_nt_session_open st.trace st.new_conn.cli pipe_index).1 = false) :
    cm_open_connection_connect env s pipe_index new_conn keep_mutex dc_ip =
      (if env.is_win2k_pipe pipe_index = true then
          some { s with
            trace := Event.secrets_named_mutex_release st.new_conn.controller ::
              Event.cli_nt_session_open pipe_index :: st.trace }
        else
          add_failed_connection_entry env
            { s with
              trace := Event.secrets_named_mutex_release st.new_conn.controller ::
                Event.cli_nt_session_open pipe_index :: st.trace }
            { st.new_conn with
              cli := (env.cli_nt_session_open st.trace st.new_conn.cli pipe_index).2,
              mutex_ref_count := st.new_conn.mutex_ref_count - 1 }
            NT_STATUS_PIPE_NOT_AVAILABLE).map
        (fun s3 => (NT_STATUS_PIPE_NOT_AVAILABLE,
          { st.new_conn with
            cli := (env.cli_nt_session_open st.trace st.new_conn.cli pipe_index).2,
            mutex_ref_count := st.new_conn.mutex_ref_count - 1 },
          { s3 with
            trace :=
              Event.cli_shutdown (env.cli_nt_session_open st.trace st.new_conn.cli pipe_index).2
                :: s3.trace })) := by
  have hgot : st.got_mutex = true := by
    rw [← hst] at hres ⊢
    exact cm_open_connection_loop_ok env dc_ip u d p 3 _ rfl (Or.inr ⟨rfl, by decide⟩) hres
  unfold cm_open_connection_connect
  simp only [hcreds, hst, hres, hgot, hpipe, Bool.not_false, Bool.not_true, if_true,
    Bool.false_eq_true, if_false, secrets_named_mutex_release]
  cases env.is_win2k_pipe pipe_index <;> simp

/-- A controller name that `cm_get_dc_name` returns with True fits in an
`fstring`. -/
theorem cm_get_dc_name_fits (env : Env) (s : State) (domain srv_name : CStr)
    (ip_out : in_addr) (h : (cm_get_dc_name env s domain srv_name ip_out).1 = true) :
    (cm_get_dc_name env s domain srv_name ip_out).2.1.length < FSTRING_LEN := by
  revert h
  unfold cm_get_dc_name
  cases cm_get_dc_name_scan (env.time s.trace) domain s.get_dc_name_cache with
  | positive name => intro _; exact fstrcpy_length name
  | negative => intro h; simp at h
  | miss cache =>
    simp only []
    cases env.malloc s.trace
    · intro h; simp at h
    · simp only [Bool.not_true, Bool.false_eq_true, if_false]
      have hf := cm_get_dc_name_find_fits env s.trace domain srv_name
      rcases hfd : cm_get_dc_name_find env s.trace domain srv_name with ⟨r, srv1, ip1, tr1⟩
      rw [hfd] at hf
      cases r
      · intro h; simp at h
      · intro _; exact hf rfl

set_option maxRecDepth 8000 in
/-- C11, counterexample. A domain name of 300 bytes, no failed-connection
entry, discovery answers "DC1", and `cli_full_connection` fails three times
leaving `retry` True. `cm_open_connection` returns the failure after three
calls and records it under the first 255 bytes of the name, which is what
`fstrcpy` put in `new_conn->domain`: the failed-connection cache holds no entry
whose domain name is the requested one. -/
theorem retry_exhaustion_long_name_counterexample :
    demo_long_domain.length = 300 ∧
    (cm_open_connection (demo_env 100 true demo_dropped) demo_empty demo_long_domain 0
      winbindd_cm_conn.zero false).map
      (fun r => (r.1, open_session_calls r.2.2.trace, r.2.2.failed_connection_cache)) =
      some (NT_STATUS_UNSUCCESSFUL, 3,
        [{ domain_name := List.replicate 255 65, controller := demo_DC1, lookup_time := 100,
           nt_status := NT_STATUS_UNSUCCESSFUL }]) ∧
    (cm_open_connection (demo_env 100 true demo_dropped) demo_empty demo_long_domain 0
      winbindd_cm_conn.zero false).map
      (fun r => r.2.2.failed_connection_cache.any
        (fun e => strequal e.domain_name demo_long_domain)) = some false := by
  decide

/-- C11, amended. Retry exhaustion is cached, for a domain name shorter than
the 256 bytes of an `fstring`. Start with no failed-connection entry for
the domain (a name that fits an `fstring`), and let `cm_get_dc_name` resolve it
to controller `C`. If in each of the three iterations of the connect loop the
lock is granted and `cli_full_connection` fails, leaving `retry` True after
the first and the second, and `malloc` succeeds, then `cm_open_connection`
returns the status of the third attempt, a failure, after three
`cli_full_connection` calls, and the failed-connection cache has gained, at
its head, the entry (domain, C) carrying that status. `st0` .. `st3` are the
loop variables before the first and after each iteration. -/
theorem retry_exhaustion_cached (env : Env) (s : State) (domain : CStr) (pipe_index : Int)
    (new_conn : winbindd_cm_conn) (keep_mutex : Bool) (C : CStr) (ip : in_addr) (s1 : State)
    (u d p : Option CStr) (tr0 : List Event) (st0 st1 st2 st3 : connect_loop_state)
    (hfits : domain.length < FSTRING_LEN)
    (hnone : ∀ x ∈ s.failed_connection_cache, strequal x.domain_name domain = false)
    (hresolve : cm_get_dc_name env s domain new_conn.controller 0 = (true, C, ip, s1))
    (hcreds : cm_get_ipc_userpass env s1.trace = (u, d, p, tr0))
    (hst0 : st0 =
      { retry := true, got_mutex := false, result := NT_STATUS_OK,
        new_conn := { new_conn with
          domain := fstrcpy domain,
          pipe_name := fstrcpy ((env.get_pipe_name_from_index pipe_index).getD []),
          controller := C },
        trace := tr0 })
    (hst1 : st1 = cm_open_connection_failed env ip u d p st0)
    (hst2 : st2 = cm_open_connection_failed env ip u d p st1)
    (hst3 : st3 = cm_open_connection_failed env ip u d p st2)
    (hlock : ∀ st ∈ [st0, st1, st2],
      env.named_lock_acquire st.trace st.new_conn.controller st.new_conn.mutex_ref_count = true)
    (hfail : ∀ st ∈ [st0, st1, st2],
      NT_STATUS_IS_OK (cm_open_connection_attempt env ip u d p st).status = false)
    (hretry : ∀ st ∈ [st0, st1], (cm_open_connection_attempt env ip u d p st).retry = true)
    (hmalloc : env.malloc st3.trace = true) :
    cm_open_connection env s domain pipe_index new_conn keep_mutex =
      some (st3.result, st3.new_conn,
        { s1 with
          failed_connection_cache :=
            { domain_name := domain, controller := C, lookup_time := env.time st3.trace,
              nt_status := st3.result } :: s.failed_connection_cache,
          trace := st3.trace }) ∧
    st3.result = (cm_open_connection_attempt env ip u d p st2).status ∧
    NT_STATUS_IS_OK st3.result = false ∧
    open_session_calls st3.trace = open_session_calls s.trace + 3 := by
  obtain ⟨-, hfcc, -⟩ := cm_get_dc_name_frame env s domain new_conn.controller 0
  obtain ⟨-, -, hq, -⟩ := cm_get_dc_name_quiet env s domain new_conn.controller 0
  have hCfits := cm_get_dc_name_fits env s domain new_conn.controller 0 (by rw [hresolve])
  rw [hresolve] at hfcc hq hCfits
  simp only at hfcc hq hCfits
  have htr := cm_get_ipc_userpass_trace env s1.trace
  rw [hcreds] at htr
  simp only at htr
  have hl0 := hlock st0 (by simp)
  have hl1 := hlock st1 (by simp)
  have hl2 := hlock st2 (by simp)
  have hf0 := hfail st0 (by simp)
  have hf1 := hfail st1 (by simp)
  have hf2 := hfail st2 (by simp)
  have hr0 := hretry st0 (by simp)
  have hr1 := hretry st1 (by simp)
  have hretry0 : st0.retry = true := by rw [hst0]
  have hretry1 : st1.retry = true := by rw [hst1]; exact hr0
  have hretry2 : st2.retry = true := by rw [hst2]; exact hr1
  have hloop : cm_open_connection_loop env ip u d p 3 st0 = st3 := by
    rw [cm_open_connection_loop_step _ _ _ _ _ _ _ hretry0, if_pos hl0,
      if_neg (by rw [hf0]; exact Bool.false_ne_true), ← hst1,
      cm_open_connection_loop_step _ _ _ _ _ _ _ hretry1, if_pos hl1,
      if_neg (by rw [hf1]; exact Bool.false_ne_true), ← hst2,
      cm_open_connection_loop_step _ _ _ _ _ _ _ hretry2, if_pos hl2,
      if_neg (by rw [hf2]; exact Bool.false_ne_true), ← hst3]
    rfl
  have hres3 : st3.result = (cm_open_connection_attempt env ip u d p st2).status := by
    rw [hst3]; rfl
  have hbad : NT_STATUS_IS_OK st3.result = false := by rw [hres3]; exact hf2
  have hgot3 : st3.got_mutex = false := by rw [hst3]; rfl
  have hdom3 : st3.new_conn.domain = fstrcpy domain := by rw [hst3, hst2, hst1, hst0]; rfl
  have hctl3 : st3.new_conn.controller = C := by rw [hst3, hst2, hst1, hst0]; rfl
  have hscan : cm_open_connection_scan (env.time s1.trace) domain C s1.failed_connection_cache
      = fcc_scan.miss s1.failed_connection_cache := by
    apply cm_open_connection_scan_none
    intro x hx
    rw [hfcc] at hx
    have := hnone x hx
    rw [strequal_symm] at this
    simp [this]
  have hconnect := cm_open_connection_connect_of_failure env
    { s1 with failed_connection_cache := s1.failed_connection_cache } pipe_index
    st0.new_conn keep_mutex ip u d p tr0 st3 hcreds (by rw [← hloop, hst0]) hbad hgot3
  have hrec := add_failed_connection_entry_records env
    { s1 with trace := st3.trace } st3.new_conn st3.result hbad
    (by
      intro x hx
      rw [hdom3, fstrcpy_of_fits hfits]
      exact hnone x (by rw [← hfcc]; exact hx))
    hmalloc
  refine ⟨?_, hres3, hbad, ?_⟩
  · unfold cm_open_connection
    simp only [hresolve, hscan]
    rw [hst0] at hconnect
    simp only at hconnect
    rw [hconnect]
    simp only at hrec
    rw [hrec]
    simp [hdom3, hctl3, fstrcpy_of_fits hfits, fstrcpy_of_fits hCfits, hfcc,
      fstrcpy_of_fits (fstrcpy_length domain)]
  · rw [hst3, hst2, hst1, hst0]
    simp [cm_open_connection_failed, open_session_calls_cons, Event.is_open_session, htr, hq]

/-- C19, counterexample. The lock is refused in all three iterations:
`cm_open_connection` makes three `secrets_named_mutex` calls, none granted, and
no `cli_full_connection` call, returns `NT_STATUS_POSSIBLE_DEADLOCK`, and the
failed-connection cache, empty before, now holds an entry ("CORP", "DC1") with
that status. -/
theorem lock_failure_cached_counterexample :
    (cm_open_connection demo_env_nolock demo_empty demo_CORP 0 winbindd_cm_conn.zero false).map
      (fun r => (r.1, lock_calls r.2.2.trace, calls Event.is_mutex_grant r.2.2.trace,
        open_session_calls r.2.2.trace, r.2.2.failed_connection_cache)) =
      some (NT_STATUS_POSSIBLE_DEADLOCK, 3, 0, 0,
        [{ domain_name := demo_CORP, controller := demo_DC1, lookup_time := 100,
           nt_status := NT_STATUS_POSSIBLE_DEADLOCK }]) ∧
    demo_empty.failed_connection_cache = [] := by
  decide

/-- C19, amended. An iteration of the connect loop in which the lock is not
granted uses up one value of `i`, calls no `cli_full_connection` and sets the
result to `NT_STATUS_POSSIBLE_DEADLOCK`. That result is treated like any other
failure: when the lock is refused in all three iterations, the part of
`cm_open_connection` from the loop on hands `NT_STATUS_POSSIBLE_DEADLOCK` to
`add_failed_connection_entry` and returns it, without any
`cli_full_connection` call; the entry (domain, controller,
`NT_STATUS_POSSIBLE_DEADLOCK`) is added when the cache holds no entry for the
domain and `malloc` succeeds, and nothing is added when it holds one. -/
theorem lock_failure_consumes_iteration (env : Env) :
    (∀ (dc_ip : in_addr) (u d p : Option CStr) (n : Nat) (st : connect_loop_state),
      st.retry = true →
      env.named_lock_acquire st.trace st.new_conn.controller st.new_conn.mutex_ref_count
        = false →
      cm_open_connection_loop env dc_ip u d p (n + 1) st =
        cm_open_connection_loop env dc_ip u d p n (cm_open_connection_deadlock st) ∧
      open_session_calls (cm_open_connection_deadlock st).trace = open_session_calls st.trace ∧
      (cm_open_connection_deadlock st).result = NT_STATUS_POSSIBLE_DEADLOCK) ∧
    (∀ (s : State) (pipe_index : Int) (new_conn : winbindd_cm_conn) (keep_mutex : Bool)
        (dc_ip : in_addr) (u d p : Option CStr) (tr0 : List Event)
        (st0 st1 st2 st3 : connect_loop_state),
      cm_get_ipc_userpass env s.trace = (u, d, p, tr0) →
      st0 = { retry := true, got_mutex := false, result := NT_STATUS_OK, new_conn := new_conn,
              trace := tr0 } →
      st1 = cm_open_connection_deadlock st0 →
      st2 = cm_open_connection_deadlock st1 →
      st3 = cm_open_connection_deadlock st2 →
      (∀ st ∈ [st0, st1, st2],
        env.named_lock_acquire st.trace st.new_conn.controller st.new_conn.mutex_ref_count
          = false) →
      cm_open_connection_connect env s pipe_index new_conn keep_mutex dc_ip =
        (add_failed_connection_entry env { s with trace := st3.trace } new_conn
          NT_STATUS_POSSIBLE_DEADLOCK).map
          (fun s1 => (NT_STATUS_POSSIBLE_DEADLOCK, new_conn, s1)) ∧
      open_session_calls st3.trace = open_session_calls s.trace ∧
      ((∀ x ∈ s.failed_connection_cache, strequal x.domain_name new_conn.domain = false) →
        env.malloc st3.trace = true →
        cm_open_connection_connect env s pipe_index new_conn keep_mutex dc_ip =
          some (NT_STATUS_POSSIBLE_DEADLOCK, new_conn,
            { s with
              failed_connection_cache :=
                { domain_name := fstrcpy new_conn.domain,
                  controller := fstrcpy new_conn.controller,
                  lookup_time := env.time st3.trace,
                  nt_status := NT_STATUS_POSSIBLE_DEADLOCK } :: s.failed_connection_cache,
              trace := st3.trace })) ∧
      ((∃ x ∈ s.failed_connection_cache, strequal x.domain_name new_conn.domain = true) →
        cm_open_connection_connect env s pipe_index new_conn keep_mutex dc_ip =
          some (NT_STATUS_POSSIBLE_DEADLOCK, new_conn, { s with trace := st3.trace }))) := by
  constructor
  · intro dc_ip u d p n st hretry hlock
    refine ⟨?_, ?_, rfl⟩
    · rw [cm_open_connection_loop_step _ _ _ _ _ _ _ hretry]
      simp [hlock]
    · simp [cm_open_connection_deadlock, open_session_calls_cons, Event.is_open_session]
  · intro s pipe_index new_conn keep_mutex dc_ip u d p tr0 st0 st1 st2 st3 hcreds hst0 hst1
      hst2 hst3 hlock
    have htr := cm_get_ipc_userpass_trace env s.trace
    rw [hcreds] at htr
    simp only at htr
    have hl0 := hlock st0 (by simp)
    have hl1 := hlock st1 (by simp)
    have hl2 := hlock st2 (by simp)
    have hretry0 : st0.retry = true := by rw [hst0]
    have hretry1 : st1.retry = true := by rw [hst1]; exact hretry0
    have hretry2 : st2.retry = true := by rw [hst2]; exact hretry1
    have hloop : cm_open_connection_loop env dc_ip u d p 3 st0 = st3 := by
      rw [cm_open_connection_loop_step _ _ _ _ _ _ _ hretry0,
        if_neg (by rw [hl0]; exact Bool.false_ne_true), ← hst1,
        cm_open_connection_loop_step _ _ _ _ _ _ _ hretry1,
        if_neg (by rw [hl1]; exact Bool.false_ne_true), ← hst2,
        cm_open_connection_loop_step _ _ _ _ _ _ _ hretry2,
        if_neg (by rw [hl2]; exact Bool.false_ne_true), ← hst3]
      rfl
    have hres3 : st3.result = NT_STATUS_POSSIBLE_DEADLOCK := by rw [hst3]; rfl
    have hconn3 : st3.new_conn = new_conn := by rw [hst3, hst2, hst1, hst0]; rfl
    have hgot3 : st3.got_mutex = false := by rw [hst3, hst2, hst1, hst0]; rfl
    have hbad : NT_STATUS_IS_OK st3.result = false := by rw [hres3]; rfl
    have hconnect := cm_open_connection_connect_of_failure env s pipe_index new_conn
      keep_mutex dc_ip u d p tr0 st3 hcreds (by rw [← hloop, hst0]) hbad hgot3
    rw [hres3, hconn3] at hconnect
    refine ⟨hconnect, ?_, ?_, ?_⟩
    · rw [hst3, hst2, hst1, hst0]
      simp [cm_open_connection_deadlock, open_session_calls_cons, Event.is_open_session, htr]
    · intro hnone hmalloc
      rw [hconnect, add_failed_connection_entry_records env { s with trace := st3.trace }
        new_conn NT_STATUS_POSSIBLE_DEADLOCK rfl hnone hmalloc]
      rfl
    · rintro ⟨x, hx, hxd⟩
      have hany : s.failed_connection_cache.any
          (fun fcc => strequal fcc.domain_name new_conn.domain) = true :=
        List.any_eq_true.mpr ⟨x, hx, hxd⟩
      rw [hconnect]
      have hd : NT_STATUS_IS_OK NT_STATUS_POSSIBLE_DEADLOCK = false := rfl
      simp [add_failed_connection_entry, hd, hany]

/-- C12, counterexample. The pipe of index 0 is not a win2k pipe and the
failed-connection cache holds an entry for "CORP" (left by a failed
discovery). The session to "DC1" is made, `cli_nt_session_open` fails,
`cm_open_connection` returns `NT_STATUS_PIPE_NOT_AVAILABLE` and shuts the
session down, and no entry is added: the cache is as before. -/
theorem optional_endpoint_blocked_counterexample :
    (demo_env_nopipe false).is_win2k_pipe 0 = false ∧
    (demo_blocked 0).failed_connection_cache = [demo_failed_discovery 0] ∧
    (cm_open_connection (demo_env_nopipe false) (demo_blocked 0) demo_CORP 0
      winbindd_cm_conn.zero false).map
      (fun r => (r.1, open_endpoint_calls r.2.2.trace, shutdown_calls r.2.2.trace,
        r.2.2.failed_connection_cache)) =
      some (NT_STATUS_PIPE_NOT_AVAILABLE, 1, 1, [demo_failed_discovery 0]) := by
  decide

/-- C12, amended. When the connect loop ends with a success and
`cli_nt_session_open` fails, the part of `cm_open_connection` from the loop on
returns `NT_STATUS_PIPE_NOT_AVAILABLE`, releases the mutex and calls
`cli_shutdown` on the session last. For a win2k pipe the failed-connection
cache is left as it is. For any other pipe `add_failed_connection_entry` is
called: the entry (domain, controller, `NT_STATUS_PIPE_NOT_AVAILABLE`) is
added when the cache holds no entry for the domain and `malloc` succeeds, and
the cache is left as it is when it holds one. -/
theorem optional_endpoint_exemption (env : Env) (s : State) (pipe_index : Int)
    (new_conn : winbindd_cm_conn) (keep_mutex : Bool) (dc_ip : in_addr)
    (u d p : Option CStr) (tr0 tr1 : List Event) (st : connect_loop_state)
    (hcreds : cm_get_ipc_userpass env s.trace = (u, d, p, tr0))
    (hst : cm_open_connection_loop env dc_ip u d p 3
      { retry := true, got_mutex := false, result := NT_STATUS_OK, new_conn := new_conn,
        trace := tr0 } = st)
    (hres : NT_STATUS_IS_OK st.result = true)
    (hpipe : (env.cli_nt_session_open st.trace st.new_conn.cli pipe_index).1 = false)
    (htr1 : tr1 = Event.secrets_named_mutex_release new_conn.controller ::
      Event.cli_nt_session_open pipe_index :: st.trace) :
    ∃ conn2 s2,
      cm_open_connection_connect env s pipe_index new_conn keep_mutex dc_ip =
        some (NT_STATUS_PIPE_NOT_AVAILABLE, conn2, s2) ∧
      conn2.cli = (env.cli_nt_session_open st.trace st.new_conn.cli pipe_index).2 ∧
      conn2.mutex_ref_count = new_conn.mutex_ref_count ∧
      s2.trace = Event.cli_shutdown conn2.cli :: tr1 ∧
      (env.is_win2k_pipe pipe_index = true →
        s2.failed_connection_cache = s.failed_connection_cache) ∧
      (env.is_win2k_pipe pipe_index = false →
        ((∀ x ∈ s.failed_connection_cache, strequal x.domain_name new_conn.domain = false) →
          env.malloc tr1 = true →
          s2.failed_connection_cache =
            { domain_name := fstrcpy new_conn.domain, controller := fstrcpy new_conn.controller,
              lookup_time := env.time tr1, nt_status := NT_STATUS_PIPE_NOT_AVAILABLE }
              :: s.failed_connection_cache) ∧
        ((∃ x ∈ s.failed_connection_cache, strequal x.domain_name new_conn.domain = true) →
          s2.failed_connection_cache = s.failed_connection_cache)) := by
  have hgot : st.got_mutex = true := by
    rw [← hst] at hres ⊢
    exact cm_open_connection_loop_ok env dc_ip u d p 3 _ rfl (Or.inr ⟨rfl, by decide⟩) hres
  obtain ⟨hd, hp, hc⟩ := cm_open_connection_loop_names env dc_ip u d p 3
    { retry := true, got_mutex := false, result := NT_STATUS_OK, new_conn := new_conn,
      trace := tr0 }
  obtain ⟨-, href⟩ := cm_open_connection_loop_balance env dc_ip u d p [] 3
    { retry := true, got_mutex := false, result := NT_STATUS_OK, new_conn := new_conn,
      trace := tr0 } rfl
  rw [hst] at hd hp hc href
  simp only [hgot, if_true] at hd hp hc href
  have heq := cm_open_connection_connect_of_pipe_failure env s pipe_index new_conn keep_mutex
    dc_ip u d p tr0 st hcreds hst hres hpipe
  have hpna : NT_STATUS_IS_OK NT_STATUS_PIPE_NOT_AVAILABLE = false := by decide
  rw [hc, ← htr1] at heq
  have href2 : st.new_conn.mutex_ref_count - 1 = new_conn.mutex_ref_count := by omega
  cases hw : env.is_win2k_pipe pipe_index
  · simp only [hw, Bool.false_eq_true, if_false] at heq
    obtain ⟨s3, h3, -, -, -⟩ := add_failed_connection_entry_some env { s with trace := tr1 }
      { st.new_conn with
        cli := (env.cli_nt_session_open st.trace st.new_conn.cli pipe_index).2,
        mutex_ref_count := st.new_conn.mutex_ref_count - 1 } NT_STATUS_PIPE_NOT_AVAILABLE hpna
    have h3t : s3.trace = tr1 := by
      have := add_failed_connection_entry_some env { s with trace := tr1 }
        { st.new_conn with
          cli := (env.cli_nt_session_open st.trace st.new_conn.cli pipe_index).2,
          mutex_ref_count := st.new_conn.mutex_ref_count - 1 } NT_STATUS_PIPE_NOT_AVAILABLE hpna
      obtain ⟨s4, h4, h5, -, -⟩ := this
      rw [h3] at h4
      simp only [Option.some.injEq] at h4
      rw [h4]; exact h5
    rw [h3] at heq
    refine ⟨_, _, heq, rfl, href2, by simp [h3t], by intro h; exact Bool.noConfusion h, ?_⟩
    intro _
    refine ⟨?_, ?_⟩
    · intro hnone hmalloc
      have hrec := add_failed_connection_entry_records env { s with trace := tr1 }
        { st.new_conn with
          cli := (env.cli_nt_session_open st.trace st.new_conn.cli pipe_index).2,
          mutex_ref_count := st.new_conn.mutex_ref_count - 1 } NT_STATUS_PIPE_NOT_AVAILABLE hpna
        (by intro x hx; simp only [hd]; exact hnone x hx) hmalloc
      rw [h3] at hrec
      simp only [Option.some.injEq] at hrec
      rw [hrec]
      simp [hd, hc]
    · rintro ⟨x, hx, hxd⟩
      have hany : s.failed_connection_cache.any
          (fun fcc => strequal fcc.domain_name st.new_conn.domain) = true :=
        List.any_eq_true.mpr ⟨x, hx, by rw [hd]; exact hxd⟩
      have : s3 = { s with trace := tr1 } := by
        have h4 := h3
        simp only [add_failed_connection_entry, hpna, hany, Bool.false_eq_true, if_false,
          if_true, Option.some.injEq] at h4
        exact h4.symm
      rw [this]
  · simp only [hw, if_true, Option.map_some'] at heq
    exact ⟨_, _, heq, rfl, href2, rfl, fun _ => rfl, by intro h; exact Bool.noConfusion h⟩

/-- Witness of C11 (amended): three `cli_full_connection` calls fail with `retry` True. -/
theorem retry_exhaustion_cached_witness :
    (cm_open_connection (demo_env 100 true demo_dropped) demo_empty demo_CORP 0
      winbindd_cm_conn.zero false).map
      (fun r => (r.1, r.2.2.failed_connection_cache, open_session_calls r.2.2.trace)) =
      some (NT_STATUS_UNSUCCESSFUL,
        [{ domain_name := demo_CORP, controller := demo_DC1, lookup_time := 100,
           nt_status := NT_STATUS_UNSUCCESSFUL }], 3) := by
  have h := retry_exhaustion_cached (demo_env 100 true demo_dropped) demo_empty demo_CORP 0
    winbindd_cm_conn.zero false demo_DC1 demo_addr
    (cm_get_dc_name (demo_env 100 true demo_dropped) demo_empty demo_CORP [] 0).2.2.2
    (some []) (some []) (some [])
    (cm_get_ipc_userpass (demo_env 100 true demo_dropped)
      (cm_get_dc_name (demo_env 100 true demo_dropped) demo_empty demo_CORP [] 0
        ).2.2.2.trace).2.2.2
    _ _ _ _ (by decide) (by decide) (by decide) (by decide) rfl rfl rfl rfl (by decide)
    (by decide) (by decide) (by decide)
  rw [h.1]
  decide

/-- Witness of C19 (amended): the lock is refused three times. -/
theorem lock_failure_consumes_iteration_witness :
    (cm_open_connection_connect demo_env_nolock demo_empty 0 (demo_conn demo_DC1) false
      demo_addr).map
      (fun r => (r.1, r.2.2.failed_connection_cache, open_session_calls r.2.2.trace)) =
      some (NT_STATUS_POSSIBLE_DEADLOCK,
        [{ domain_name := demo_CORP, controller := demo_DC1, lookup_time := 100,
           nt_status := NT_STATUS_POSSIBLE_DEADLOCK }], 0) := by
  have h := (lock_failure_consumes_iteration demo_env_nolock).2 demo_empty 0
    (demo_conn demo_DC1) false demo_addr (some []) (some []) (some [])
    (cm_get_ipc_userpass demo_env_nolock demo_empty.trace).2.2.2 _ _ _ _ (by decide) rfl rfl
    rfl rfl (by decide)
  rw [h.2.2.1 (by decide) (by decide)]
  decide

/-- Witness of C12 (amended): `cli_nt_session_open` fails on the empty state,
for a win2k pipe and for another pipe. -/
theorem optional_endpoint_exemption_witness :
    (cm_open_connection_connect (demo_env_nopipe true) demo_empty 0 (demo_conn demo_DC1) false
      demo_addr).map (fun r => (r.1, r.2.2.failed_connection_cache)) =
      some (NT_STATUS_PIPE_NOT_AVAILABLE, []) ∧
    (cm_open_connection_connect (demo_env_nopipe false) demo_empty 0 (demo_conn demo_DC1) false
      demo_addr).map (fun r => (r.1, r.2.2.failed_connection_cache)) =
      some (NT_STATUS_PIPE_NOT_AVAILABLE,
        [{ domain_name := demo_CORP, controller := demo_DC1, lookup_time := 100,
           nt_status := NT_STATUS_PIPE_NOT_AVAILABLE }]) := by
  obtain ⟨c1, s1, h1, -, -, -, h5, -⟩ := optional_endpoint_exemption (demo_env_nopipe true)
    demo_empty 0 (demo_conn demo_DC1) false demo_addr (some []) (some []) (some [])
    (cm_get_ipc_userpass (demo_env_nopipe true) demo_empty.trace).2.2.2 _ _ (by decide) rfl
    (by decide) (by decide) rfl
  obtain ⟨c2, s2, k1, -, -, -, -, k6⟩ := optional_endpoint_exemption (demo_env_nopipe false)
    demo_empty 0 (demo_conn demo_DC1) false demo_addr (some []) (some []) (some [])
    (cm_get_ipc_userpass (demo_env_nopipe false) demo_empty.trace).2.2.2 _ _ (by decide) rfl
    (by decide) (by decide) rfl
  constructor
  · rw [h1, Option.map_some']
    simp only [h5 rfl]
    rfl
  · rw [k1, Option.map_some']
    simp only [(k6 rfl).1 (by decide) (by decide)]
    rfl

/-! ## The pool scan without keep_mutex -/

theorem idx_get {α : Type} (pre post : List α) (e : α) :
    (pre ++ e :: post)[pre.length]? = some e := by
  induction pre with
  | nil => simp
  | cons x xs ih => simpa using ih

theorem idx_set {α : Type} (pre post : List α) (e x : α) :
    (pre ++ e :: post).set pre.length x = pre ++ x :: post := by
  induction pre with
  | nil => simp
  | cons y ys ih => simp [ih]

theorem idx_erase {α : Type} (pre post : List α) (e : α) :
    (pre ++ e :: post).eraseIdx pre.length = pre ++ post := by
  induction pre with
  | nil => simp
  | cons y ys ih => simp [ih]

theorem shutdown_not_handle_open (evs tr : List Event)
    (h : ∀ ev ∈ evs, Event.is_shutdown ev = true) :
    handle_open_calls (evs ++ tr) = handle_open_calls tr := by
  unfold handle_open_calls
  rw [calls_append, calls_eq_zero _ evs (fun ev hev => by
    have := h ev hev
    cases ev <;> simp_all [Event.is_shutdown, Event.is_handle_open])]
  omega

/-- The scan of the pool without `keep_mutex`: its events are `cli_shutdown`
calls; it ends either with `conn` NULL and every entry for (domain, pipe)
unlinked, or at a live entry for (domain, pipe) with none before it. -/
theorem get_connection_from_cache_scan_spec (env : Env) (domain pipe_name : CStr) :
    ∀ (l : List winbindd_cm_conn) (tr : List Event) (found : Option Nat)
      (l1 : List winbindd_cm_conn) (tr1 : List Event),
      get_connection_from_cache_scan env domain pipe_name false l tr = some (found, l1, tr1) →
      (∃ evs, tr1 = evs ++ tr ∧ ∀ ev ∈ evs, Event.is_shutdown ev = true) ∧
      (found = none → l1 = l.filter (fun x => !pool_key domain pipe_name x)) ∧
      (∀ k, found = some k → ∃ pre e post, l1 = pre ++ e :: post ∧ k = pre.length ∧
        (∀ x ∈ pre, pool_key domain pipe_name x = false) ∧
        pool_key domain pipe_name e = true ∧ connection_ok e = some true ∧
        pre ++ post.filter (fun x => !pool_key domain pipe_name x)
          = l.filter (fun x => !pool_key domain pipe_name x) ∧
        post.countP (pool_key domain pipe_name) + 1 ≤ l.countP (pool_key domain pipe_name))
  | [], tr, found, l1, tr1, h => by
    simp only [get_connection_from_cache_scan, Option.some.injEq, Prod.mk.injEq] at h
    obtain ⟨h1, h2, h3⟩ := h
    subst h1 h2 h3
    exact ⟨⟨[], rfl, by simp⟩, fun _ => rfl, fun k hk => by simp at hk⟩
  | x :: xs, tr, found, l1, tr1, h => by
    rw [get_connection_from_cache_scan] at h
    cases hx : pool_key domain pipe_name x
    · have hx2 : (strequal x.domain domain && strequal x.pipe_name pipe_name) = false := hx
      simp only [hx2, Bool.false_eq_true, if_false] at h
      cases hrec : get_connection_from_cache_scan env domain pipe_name false xs tr with
      | none => simp [hrec] at h
      | some r =>
        obtain ⟨f, l2, t2⟩ := r
        simp only [hrec, Option.some.injEq, Prod.mk.injEq] at h
        obtain ⟨h1, h2, h3⟩ := h
        obtain ⟨i1, i2, i3⟩ := get_connection_from_cache_scan_spec env domain pipe_name xs tr f
          l2 t2 hrec
        subst h1 h2 h3
        refine ⟨i1, ?_, ?_⟩
        · intro hnone
          have hf : f = none := by cases f <;> simp_all
          rw [i2 hf]
          simp [hx]
        · intro k hk
          cases f with
          | none => simp at hk
          | some j =>
            simp only [Option.map_some', Option.some.injEq] at hk
            obtain ⟨pre, e, post, j1, j2, j3, j4, j5, j6, j7⟩ := i3 j rfl
            refine ⟨x :: pre, e, post, by simp [j1], by simp [← hk, j2], ?_, j4, j5, ?_, ?_⟩
            · intro y hy
              rcases List.mem_cons.mp hy with h | h
              · rw [h]; exact hx
              · exact j3 y h
            · simp [hx, j6]
            · simp only [List.countP_cons, hx, Bool.false_eq_true, if_false, Nat.add_zero]
              exact j7
    · have hx2 : (strequal x.domain domain && strequal x.pipe_name pipe_name) = true := hx
      simp only [hx2, if_true] at h
      cases hok : connection_ok x with
      | none => simp [hok] at h
      | some b =>
        cases b
        · simp only [hok] at h
          obtain ⟨⟨evs, i1, i1b⟩, i2, i3⟩ := get_connection_from_cache_scan_spec env domain
            pipe_name xs _ found l1 tr1 h
          have hcli : x.cli.isSome = true := by
            unfold connection_ok at hok
            cases hc : x.cli with
            | none => simp [hc] at hok
            | some c => rfl
          refine ⟨⟨evs ++ [Event.cli_shutdown x.cli], ?_, ?_⟩, ?_, ?_⟩
          · rw [i1]; simp [hcli]
          · intro ev hev
            rcases List.mem_append.mp hev with h1 | h1
            · exact i1b ev h1
            · simp only [List.mem_singleton] at h1
              rw [h1]; rfl
          · intro hnone
            rw [i2 hnone]
            simp [hx]
          · intro k hk
            obtain ⟨pre, e, post, j1, j2, j3, j4, j5, j6, j7⟩ := i3 k hk
            refine ⟨pre, e, post, j1, j2, j3, j4, j5, ?_, ?_⟩
            · simp [hx, j6]
            · simp only [List.countP_cons, hx, if_true]
              omega
        · simp only [hok, Bool.false_eq_true, if_false, Option.some.injEq, Prod.mk.injEq] at h
          obtain ⟨h1, h2, h3⟩ := h
          subst h1 h2 h3
          refine ⟨⟨[], rfl, by simp⟩, fun hn => by simp at hn, ?_⟩
          intro k hk
          simp only [Option.some.injEq] at hk
          refine ⟨[], x, xs, rfl, by simp [← hk], by simp, hx, hok, by simp [hx], ?_⟩
          simp [List.countP_cons, hx]


theorem handle_open_calls_cons (ev : Event) (tr : List Event) :
    handle_open_calls (ev :: tr) =
      handle_open_calls tr + (if Event.is_handle_open ev then 1 else 0) := by
  simp [handle_open_calls, calls, List.countP_cons]

/-- The connect loop opens no policy handle. -/
theorem cm_open_connection_loop_no_handle (env : Env) (dc_ip : in_addr) (u d p : Option CStr) :
    ∀ (n : Nat) (st : connect_loop_state),
      handle_open_calls (cm_open_connection_loop env dc_ip u d p n st).trace
        = handle_open_calls st.trace
  | 0, st => by simp [cm_open_connection_loop]
  | n + 1, st => by
    cases hretry : st.retry
    · rw [cm_open_connection_loop_no_retry _ _ _ _ _ _ _ hretry]
    · rcases cm_open_connection_loop_cases env dc_ip u d p n st hretry with
        ⟨-, hstep⟩ | ⟨-, hstep⟩ | hstep
      · rw [hstep, cm_open_connection_connected_trace]
        simp [handle_open_calls_cons, Event.is_handle_open]
      · rw [hstep, cm_open_connection_loop_no_handle env dc_ip u d p n _,
          cm_open_connection_failed_trace]
        simp [handle_open_calls_cons, Event.is_handle_open]
      · rw [hstep, cm_open_connection_loop_no_handle env dc_ip u d p n _,
          cm_open_connection_deadlock_trace]
        simp [handle_open_calls_cons, Event.is_handle_open]

theorem cm_open_connection_connect_no_handle (env : Env) (s : State) (pipe_index : Int)
    (new_conn : winbindd_cm_conn) (keep_mutex : Bool) (dc_ip : in_addr) :
    ∃ r, cm_open_connection_connect env s pipe_index new_conn keep_mutex dc_ip = some r ∧
      handle_open_calls r.2.2.trace = handle_open_calls s.trace := by
  unfold cm_open_connection_connect
  simp only []
  have htr := cm_get_ipc_userpass_trace env s.trace
  rcases hc : cm_get_ipc_userpass env s.trace with ⟨u, d, p, tr0⟩
  rw [hc] at htr
  simp only at htr
  simp only []
  have hl := cm_open_connection_loop_no_handle env dc_ip u d p 3
    { retry := true, got_mutex := false, result := NT_STATUS_OK, new_conn := new_conn,
      trace := tr0 }
  have h0 : handle_open_calls tr0 = handle_open_calls s.trace := by
    rw [htr]; simp [handle_open_calls_cons, Event.is_handle_open]
  simp only [h0] at hl
  generalize cm_open_connection_loop env dc_ip u d p 3
    { retry := true, got_mutex := false, result := NT_STATUS_OK, new_conn := new_conn,
      trace := tr0 } = st at hl ⊢
  have hpipe : NT_STATUS_IS_OK NT_STATUS_PIPE_NOT_AVAILABLE = false := by decide
  cases hres : NT_STATUS_IS_OK st.result <;> cases hgot : st.got_mutex <;>
    cases keep_mutex <;>
    cases hop : (env.cli_nt_session_open st.trace st.new_conn.cli pipe_index).1 <;>
    simp only [add_failed_connection_entry, hres, hpipe, hop, secrets_named_mutex_release,
      Bool.not_false, Bool.not_true, Bool.false_eq_true, if_true, if_false, hgot,
      Bool.and_true, Bool.and_false, Bool.true_and] <;>
    (try split_ifs) <;>
    refine ⟨_, rfl, ?_⟩ <;>
    simp only [handle_open_calls_cons, Event.is_handle_open, Bool.false_eq_true, if_false,
      Nat.add_zero] <;>
    exact hl

/-- A returning `cm_open_connection` opens no policy handle. -/
theorem cm_open_connection_no_handle (env : Env) (s : State) (domain : CStr) (pipe_index : Int)
    (new_conn : winbindd_cm_conn) (keep_mutex : Bool)
    (r : NTSTATUS × winbindd_cm_conn × State)
    (h : cm_open_connection env s domain pipe_index new_conn keep_mutex = some r) :
    handle_open_calls r.2.2.trace = handle_open_calls s.trace := by
  unfold cm_open_connection at h
  simp only [] at h
  obtain ⟨⟨evs, h1, h2⟩, -, -⟩ := cm_get_dc_name_frame env s domain new_conn.controller 0
  have hg : handle_open_calls (cm_get_dc_name env s domain new_conn.controller 0).2.2.2.trace
      = handle_open_calls s.trace := by
    rw [h1]
    exact calls_of_discovery _ (fun ev hev => by
      cases ev <;> simp_all [Event.is_discovery, Event.is_handle_open]) _ _ h2
  rcases hd : cm_get_dc_name env s domain new_conn.controller 0 with ⟨ret, srv, ip, s1⟩
  rw [hd] at h hg
  simp only at hg
  cases ret
  · simp only [] at h
    have hnf : NT_STATUS_IS_OK NT_STATUS_DOMAIN_CONTROLLER_NOT_FOUND = false := by decide
    simp only [add_failed_connection_entry, hnf, Bool.false_eq_true, if_false] at h
    split_ifs at h <;>
      simp only [Option.map_some', Option.some.injEq] at h <;>
      subst h <;>
      exact hg
  · simp only [] at h
    split at h
    · split_ifs at h with hres
      simp only [Option.some.injEq] at h
      subst h
      exact hg
    · obtain ⟨r2, h5, h6⟩ := cm_open_connection_connect_no_handle env
        _ pipe_index _ keep_mutex ip
      rw [h5] at h
      simp only [Option.some.injEq] at h
      subst h
      rw [h6]
      exact hg

theorem filter_not_key_idem (domain pipe_name : CStr) (l : List winbindd_cm_conn) :
    (l.filter (fun x => !pool_key domain pipe_name x)).filter
      (fun x => !pool_key domain pipe_name x)
      = l.filter (fun x => !pool_key domain pipe_name x) := by
  simp [List.filter_filter]

theorem countP_key_filter (domain pipe_name : CStr) (l : List winbindd_cm_conn) :
    (l.filter (fun x => !pool_key domain pipe_name x)).countP (pool_key domain pipe_name)
      = 0 := by
  rw [List.countP_eq_zero]
  intro x hx
  have := (List.mem_filter.mp hx).2
  simpa using this

/-- What `get_connection_from_cache` without `keep_mutex` does to the pool. -/
theorem get_connection_from_cache_spec (env : Env) (s : State) (domain pipe_name : CStr)
    (st : NTSTATUS) (ko : Option Nat) (t : State)
    (h : get_connection_from_cache env s domain pipe_name false = some (st, ko, t)) :
    handle_open_calls t.trace = handle_open_calls s.trace ∧
    (NT_STATUS_IS_OK st = false →
      t.cm_conns = s.cm_conns.filter (fun x => !pool_key domain pipe_name x)) ∧
    (NT_STATUS_IS_OK st = true → ∃ pre e post, ko = some pre.length ∧
      t.cm_conns = pre ++ e :: post ∧
      (∀ x ∈ pre, pool_key domain pipe_name x = false) ∧
      (domain.length < FSTRING_LEN →
        strequal (fstrcpy ((env.get_pipe_name_from_index (env.get_pipe_index pipe_name)).getD
          [])) pipe_name = true → pool_key domain pipe_name e = true) ∧
      pre ++ post.filter (fun x => !pool_key domain pipe_name x)
        = s.cm_conns.filter (fun x => !pool_key domain pipe_name x) ∧
      (s.cm_conns.countP (pool_key domain pipe_name) ≤ 1 →
        post.countP (pool_key domain pipe_name) = 0)) := by
  unfold get_connection_from_cache at h
  cases hscan : get_connection_from_cache_scan env domain pipe_name false s.cm_conns
      s.trace with
  | none => simp [hscan] at h
  | some r =>
    obtain ⟨f, conns, tr⟩ := r
    obtain ⟨⟨evs, e1, e2⟩, hnone, hsome⟩ := get_connection_from_cache_scan_spec env domain
      pipe_name _ _ _ _ _ hscan
    have htr : handle_open_calls tr = handle_open_calls s.trace := by
      rw [e1]; exact shutdown_not_handle_open _ _ e2
    cases f with
    | some k =>
      simp only [hscan, Option.some.injEq, Prod.mk.injEq] at h
      obtain ⟨h1, h2, h3⟩ := h
      subst h1 h2 h3
      obtain ⟨pre, e, post, j1, j2, j3, j4, j5, j6, j7⟩ := hsome k rfl
      refine ⟨htr, fun hbad => absurd hbad (by decide), fun _ => ?_⟩
      exact ⟨pre, e, post, by rw [j2], j1, j3, fun _ _ => j4, j6, fun hc => by omega⟩
    | none =>
      have hl := hnone rfl
      simp only [hscan] at h
      split_ifs at h with hm
      · simp only [Option.some.injEq, Prod.mk.injEq] at h
        obtain ⟨h1, h2, h3⟩ := h
        subst h1 h2 h3
        exact ⟨htr, fun _ => hl, fun hbad => absurd hbad (by decide)⟩
      · cases hopen : cm_open_connection env { s with cm_conns := conns, trace := tr } domain
            (env.get_pipe_index pipe_name) winbindd_cm_conn.zero false with
        | none => simp [hopen] at h
        | some r =>
          obtain ⟨hf1, hf2, hf3⟩ := cm_open_connection_frame env _ domain _ _ _ r hopen
          have hnh := cm_open_connection_no_handle env _ domain _ _ _ r hopen
          obtain ⟨result, conn, s2⟩ := r
          simp only at hf1 hf2 hf3 hnh
          simp only [hopen] at h
          split_ifs at h with hres
          · simp only [Option.some.injEq, Prod.mk.injEq] at h
            obtain ⟨h1, h2, h3⟩ := h
            subst h1 h2 h3
            refine ⟨by rw [hnh, htr], fun _ => by rw [hf1, hl], fun hbad => ?_⟩
            simp [hbad] at hres
          · simp only [Option.some.injEq, Prod.mk.injEq] at h
            obtain ⟨h1, h2, h3⟩ := h
            subst h1 h2 h3
            refine ⟨by rw [hnh, htr], fun hbad => absurd hbad (by decide), fun _ => ?_⟩
            refine ⟨[], conn, s2.cm_conns, rfl, rfl, by simp, ?_, ?_, ?_⟩
            · intro hfits hpipe
              unfold pool_key
              rw [hf2, hf3, fstrcpy_of_fits hfits, strequal_refl, hpipe]
              rfl
            · rw [hf1, hl]
              simp [List.filter_filter]
            · intro _
              rw [hf1, hl]
              exact countP_key_filter domain pipe_name _

/-- The paths through `cm_get_lsa_handle` and `cm_get_sam_handle` that return. -/
theorem cm_get_handle_cases (env : Env) (pipe_name : CStr) (open_handle : handle_opener)
    (ev : Event) (s : State) (domain : CStr) (res : Option CLI_POLICY_HND) (t : State)
    (h : cm_get_handle env pipe_name open_handle ev s domain = some (res, t)) :
    ∃ st ko s1, get_connection_from_cache env s domain pipe_name false = some (st, ko, s1) ∧
      ((NT_STATUS_IS_OK st = false ∧ res = none ∧ t = s1) ∨
       (NT_STATUS_IS_OK st = true ∧ ∃ k conn, ko = some k ∧ s1.cm_conns[k]? = some conn ∧
        ((policy_handle_is_valid conn.pol = true ∧
            res = some { pol := conn.pol, cli := conn.cli } ∧ t = s1) ∨
         (policy_handle_is_valid conn.pol = false ∧
          ∃ result1 s2, cm_get_handle_open open_handle ev s1 k = some (result1, s2) ∧
           ((NT_STATUS_IS_OK result1 = true ∧ res = cm_get_handle_hnd s2 k ∧ t = s2) ∨
            (NT_STATUS_IS_OK result1 = false ∧ cm_get_handle_fd s2 k ≠ some (-1) ∧
              res = none ∧ t = cm_get_handle_drop s2 k) ∨
            (NT_STATUS_IS_OK result1 = false ∧ cm_get_handle_fd s2 k = some (-1) ∧
             ∃ st2 ko2 s3,
              get_connection_from_cache env s2 domain pipe_name false = some (st2, ko2, s3) ∧
              ((NT_STATUS_IS_OK st2 = false ∧ res = none ∧ t = s3) ∨
               (NT_STATUS_IS_OK st2 = true ∧ ∃ k2 result3 s4, ko2 = some k2 ∧
                cm_get_handle_open open_handle ev s3 k2 = some (result3, s4) ∧
                ((NT_STATUS_IS_OK result3 = false ∧ res = none ∧
                    t = cm_get_handle_drop s4 k2) ∨
                 (NT_STATUS_IS_OK result3 = true ∧ res = cm_get_handle_hnd s4 k2 ∧
                    t = s4)))))))))) := by
  unfold cm_get_handle at h
  cases hget : get_connection_from_cache env s domain pipe_name false with
  | none => simp [hget] at h
  | some r =>
    obtain ⟨st, ko, s1⟩ := r
    refine ⟨st, ko, s1, rfl, ?_⟩
    simp only [hget] at h
    cases hst : NT_STATUS_IS_OK st
    · simp only [hst, Bool.not_false, if_true, Option.some.injEq, Prod.mk.injEq] at h
      exact Or.inl ⟨rfl, h.1.symm, h.2.symm⟩
    · simp only [hst, Bool.not_true, Bool.false_eq_true, if_false] at h
      refine Or.inr ⟨rfl, ?_⟩
      cases ko with
      | none => simp at h
      | some k =>
        simp only [Option.some_bind] at h
        cases hk : s1.cm_conns[k]? with
        | none => simp [hk] at h
        | some conn =>
          refine ⟨k, conn, rfl, hk, ?_⟩
          simp only [hk, Option.map_some'] at h
          cases hv : policy_handle_is_valid conn.pol
          · refine Or.inr ⟨rfl, ?_⟩
            simp only [hv, Bool.false_eq_true, if_false] at h
            cases ho : cm_get_handle_open open_handle ev s1 k with
            | none => simp [ho] at h
            | some r1 =>
              obtain ⟨result1, s2⟩ := r1
              refine ⟨result1, s2, rfl, ?_⟩
              simp only [ho] at h
              cases h1 : NT_STATUS_IS_OK result1
              · simp only [h1, Bool.not_false, if_true] at h
                by_cases hfd : cm_get_handle_fd s2 k = some (-1)
                · refine Or.inr (Or.inr ⟨rfl, hfd, ?_⟩)
                  simp only [hfd, if_true] at h
                  cases hget2 : get_connection_from_cache env s2 domain pipe_name false with
                  | none => simp [hget2] at h
                  | some r2 =>
                    obtain ⟨st2, ko2, s3⟩ := r2
                    refine ⟨st2, ko2, s3, rfl, ?_⟩
                    simp only [hget2] at h
                    cases hst2 : NT_STATUS_IS_OK st2
                    · simp only [hst2, Bool.not_false, if_true, Option.some.injEq,
                        Prod.mk.injEq] at h
                      exact Or.inl ⟨rfl, h.1.symm, h.2.symm⟩
                    · simp only [hst2, Bool.not_true, Bool.false_eq_true, if_false] at h
                      refine Or.inr ⟨rfl, ?_⟩
                      cases ko2 with
                      | none => simp at h
                      | some k2 =>
                        simp only [] at h
                        cases ho2 : cm_get_handle_open open_handle ev s3 k2 with
                        | none => simp [ho2] at h
                        | some r3 =>
                          obtain ⟨result3, s4⟩ := r3
                          refine ⟨k2, result3, s4, rfl, ho2, ?_⟩
                          simp only [ho2] at h
                          cases h3 : NT_STATUS_IS_OK result3
                          · simp only [h3, Bool.not_false, if_true, Option.some.injEq,
                              Prod.mk.injEq] at h
                            exact Or.inl ⟨rfl, h.1.symm, h.2.symm⟩
                          · simp only [h3, Bool.not_true, Bool.false_eq_true, if_false,
                              Option.some.injEq, Prod.mk.injEq] at h
                            exact Or.inr ⟨rfl, h.1.symm, h.2.symm⟩
                · refine Or.inr (Or.inl ⟨rfl, hfd, ?_⟩)
                  simp only [hfd, if_false, Option.some.injEq, Prod.mk.injEq] at h
                  exact ⟨h.1.symm, h.2.symm⟩
              · simp only [h1, Bool.not_true, Bool.false_eq_true, if_false, Option.some.injEq,
                  Prod.mk.injEq] at h
                exact Or.inl ⟨rfl, h.1.symm, h.2.symm⟩
          · refine Or.inl ⟨rfl, ?_⟩
            simp only [hv, if_true, Option.some.injEq, Prod.mk.injEq] at h
            exact ⟨h.1.symm, h.2.symm⟩

/-- A handle-open call on the pool entry at the end of `pre`. -/
theorem cm_get_handle_open_at (open_handle : handle_opener) (ev : Event) (s : State)
    (pre post : List winbindd_cm_conn) (e : winbindd_cm_conn) (r : NTSTATUS × State)
    (hpool : s.cm_conns = pre ++ e :: post)
    (hr : cm_get_handle_open open_handle ev s pre.length = some r) :
    ∃ e1, r.2.cm_conns = pre ++ e1 :: post ∧ e1.domain = e.domain ∧
      e1.pipe_name = e.pipe_name ∧ r.2.trace = ev :: s.trace ∧
      cm_get_handle_hnd r.2 pre.length = some { pol := e1.pol, cli := e1.cli } ∧
      (cm_get_handle_drop r.2 pre.length).cm_conns = pre ++ post ∧
      (cm_get_handle_drop r.2 pre.length).trace = Event.cli_shutdown e1.cli :: ev :: s.trace := by
  unfold cm_get_handle_open at hr
  rw [hpool, idx_get] at hr
  simp only [] at hr
  cases hc : e.cli with
  | none => simp [hc] at hr
  | some cli =>
    simp only [hc, Option.some.injEq] at hr
    subst hr
    refine ⟨{ e with cli := some (open_handle s.trace cli).2.1,
                     pol := (open_handle s.trace cli).2.2 }, ?_, rfl, rfl, rfl, ?_, ?_, ?_⟩
    · simp only [idx_set]
    · simp only [cm_get_handle_hnd, idx_set, idx_get, Option.map_some']
    · simp only [cm_get_handle_drop, idx_set, idx_erase]
    · simp only [cm_get_handle_drop, idx_set, idx_get, Option.some_bind]

theorem pool_key_congr (domain pipe_name : CStr) (a b : winbindd_cm_conn)
    (h1 : a.domain = b.domain) (h2 : a.pipe_name = b.pipe_name) :
    pool_key domain pipe_name a = pool_key domain pipe_name b := by
  simp [pool_key, h1, h2]

theorem filter_not_key_self (domain pipe_name : CStr) (l : List winbindd_cm_conn)
    (h : ∀ x ∈ l, pool_key domain pipe_name x = false) :
    l.filter (fun x => !pool_key domain pipe_name x) = l := by
  rw [List.filter_eq_self]
  intro x hx
  simp [h x hx]

theorem filter_not_key_of_count (domain pipe_name : CStr) (l : List winbindd_cm_conn)
    (h : l.countP (pool_key domain pipe_name) = 0) :
    l.filter (fun x => !pool_key domain pipe_name x) = l := by
  apply filter_not_key_self
  intro x hx
  rw [List.countP_eq_zero] at h
  simpa using h x hx

theorem countP_key_of_none (domain pipe_name : CStr) (l : List winbindd_cm_conn)
    (h : ∀ x ∈ l, pool_key domain pipe_name x = false) :
    l.countP (pool_key domain pipe_name) = 0 := by
  rw [List.countP_eq_zero]
  intro x hx
  simp [h x hx]

/-- The pool after a handle acquisition that returns NULL, on a pool with at
most one entry for the key. -/
theorem cm_get_handle_none (env : Env) (pipe_name : CStr) (open_handle : handle_opener)
    (ev : Event) (s : State) (domain : CStr) (t : State)
    (h : cm_get_handle env pipe_name open_handle ev s domain = some (none, t))
    (hone : s.cm_conns.countP (pool_key domain pipe_name) ≤ 1)
    (hfits : domain.length < FSTRING_LEN)
    (hpipe : strequal (fstrcpy ((env.get_pipe_name_from_index
      (env.get_pipe_index pipe_name)).getD [])) pipe_name = true) :
    t.cm_conns = s.cm_conns.filter (fun x => !pool_key domain pipe_name x) := by
  obtain ⟨st, ko, s1, hget, hcases⟩ := cm_get_handle_cases env pipe_name open_handle ev s
    domain _ _ h
  obtain ⟨-, hbad, hok⟩ := get_connection_from_cache_spec env s domain pipe_name st ko s1 hget
  rcases hcases with ⟨hst, -, ht⟩ | ⟨hst, k, conn, hko, hk, hrest⟩
  · rw [ht]; exact hbad hst
  obtain ⟨pre, e, post, g1, g2, g3, g4, g5, g6⟩ := hok hst
  rw [hko, Option.some.injEq] at g1
  subst g1
  have hpost := filter_not_key_of_count domain pipe_name post (g6 hone)
  rw [hpost] at g5
  rcases hrest with ⟨-, hres, -⟩ | ⟨-, result1, s2, hopen, hrest⟩
  · exact absurd hres (by simp)
  obtain ⟨e1, o1, o2, o3, -, o5, o6, -⟩ := cm_get_handle_open_at open_handle ev s1 pre post e
    _ g2 hopen
  simp only at o1 o5 o6
  have hkey1 : pool_key domain pipe_name e1 = true := by
    rw [pool_key_congr domain pipe_name e1 e o2 o3]
    exact g4 hfits hpipe
  have hs2 : s2.cm_conns.filter (fun x => !pool_key domain pipe_name x)
      = s.cm_conns.filter (fun x => !pool_key domain pipe_name x) := by
    rw [o1, List.filter_append, List.filter_cons, filter_not_key_self domain pipe_name pre g3,
      hpost]
    simp [hkey1, g5]
  rcases hrest with ⟨-, hres, -⟩ | ⟨-, -, -, ht⟩ | ⟨-, -, st2, ko2, s3, hget2, hrest⟩
  · rw [o5] at hres
    exact absurd hres (by simp)
  · rw [ht, o6, g5]
  obtain ⟨-, hbad2, hok2⟩ := get_connection_from_cache_spec env s2 domain pipe_name st2 ko2 s3
    hget2
  rcases hrest with ⟨hst2, -, ht⟩ | ⟨hst2, k2, result3, s4, hko2, hopen2, hrest⟩
  · rw [ht, hbad2 hst2, hs2]
  obtain ⟨pre2, e2, post2, q1, q2, q3, q4, q5, q6⟩ := hok2 hst2
  rw [hko2, Option.some.injEq] at q1
  subst q1
  have hone2 : s2.cm_conns.countP (pool_key domain pipe_name) ≤ 1 := by
    rw [o1, List.countP_append, List.countP_cons, countP_key_of_none domain pipe_name pre g3,
      g6 hone]
    simp [hkey1]
  have hpost2 := filter_not_key_of_count domain pipe_name post2 (q6 hone2)
  rw [hpost2, hs2] at q5
  obtain ⟨e3, -, -, -, -, p5, p6, -⟩ := cm_get_handle_open_at open_handle ev s3 pre2 post2 e2
    _ q2 hopen2
  simp only at p5 p6
  rcases hrest with ⟨-, -, ht⟩ | ⟨-, hres, -⟩
  · rw [ht, p6, q5]
  · rw [p5] at hres
    exact absurd hres (by simp)

set_option maxRecDepth 8000 in
/-- C15, counterexample. A domain name of 300 bytes and an empty pool; the
connection is made, and every handle-open call fails and leaves the transport
descriptor at -1. `cm_get_lsa_handle` makes a pool entry, named by the first
255 bytes of the domain name, fails to open the handle, looks for the entry of
the requested name, does not find the one it made, makes a second one, fails
again, removes the second one and returns NULL. The first entry stays: the
pool, empty before, now holds an entry, for a key other than the requested
one. -/
theorem failed_handle_long_name_counterexample :
    demo_long_domain.length = 300 ∧
    demo_empty.cm_conns = [] ∧
    (cm_get_lsa_handle (demo_env_handle_fails demo_connected (-1)) demo_empty
      demo_long_domain).map (fun r => (r.1, r.2.cm_conns)) =
      some (none,
        [{ domain := List.replicate 255 65, controller := demo_DC1, pipe_name := PIPE_LSARPC,
           mutex_ref_count := 0, cli := some { initialised := 1, fd := -1 }, pol := 0 }]) ∧
    pool_key demo_long_domain PIPE_LSARPC
      { domain := List.replicate 255 65, controller := demo_DC1, pipe_name := PIPE_LSARPC,
        mutex_ref_count := 0, cli := some { initialised := 1, fd := -1 }, pol := 0 } = false := by
  decide

/-- C15, amended. Failed handle acquisition leaves no pool entry, for a domain
name shorter than the 256 bytes of an `fstring`. Whenever
`cm_get_lsa_handle` or `cm_get_sam_handle` returns NULL, starting from a pool
with at most one entry for the requested (domain, endpoint), the domain name
fitting an `fstring` and the pipe table giving the endpoint name back, the
pool afterwards holds no entry for the requested (domain, endpoint) and is the
pool on entry with the entries for that key taken out: the entries for every
other key are unchanged and in their order. -/
theorem failed_handle_leaves_no_entry (env : Env) (s t : State) (domain : CStr)
    (hfits : domain.length < FSTRING_LEN) :
    (cm_get_lsa_handle env s domain = some (none, t) →
      s.cm_conns.countP (pool_key domain PIPE_LSARPC) ≤ 1 →
      strequal (fstrcpy ((env.get_pipe_name_from_index
        (env.get_pipe_index PIPE_LSARPC)).getD [])) PIPE_LSARPC = true →
      (∀ x ∈ t.cm_conns, pool_key domain PIPE_LSARPC x = false) ∧
      t.cm_conns = s.cm_conns.filter (fun x => !pool_key domain PIPE_LSARPC x)) ∧
    (cm_get_sam_handle env s domain = some (none, t) →
      s.cm_conns.countP (pool_key domain PIPE_SAMR) ≤ 1 →
      strequal (fstrcpy ((env.get_pipe_name_from_index
        (env.get_pipe_index PIPE_SAMR)).getD [])) PIPE_SAMR = true →
      (∀ x ∈ t.cm_conns, pool_key domain PIPE_SAMR x = false) ∧
      t.cm_conns = s.cm_conns.filter (fun x => !pool_key domain PIPE_SAMR x)) := by
  constructor
  · intro h hone hpipe
    have := cm_get_handle_none env PIPE_LSARPC _ _ s domain t h hone hfits hpipe
    refine ⟨fun x hx => ?_, this⟩
    rw [this] at hx
    simpa using (List.mem_filter.mp hx).2
  · intro h hone hpipe
    have := cm_get_handle_none env PIPE_SAMR _ _ s domain t h hone hfits hpipe
    refine ⟨fun x hx => ?_, this⟩
    rw [this] at hx
    simpa using (List.mem_filter.mp hx).2

theorem cm_get_handle_open_trace (open_handle : handle_opener) (ev : Event) (s : State)
    (k : Nat) (r : NTSTATUS × State) (h : cm_get_handle_open open_handle ev s k = some r) :
    r.2.trace = ev :: s.trace := by
  unfold cm_get_handle_open at h
  cases hk : s.cm_conns[k]? with
  | none => simp [hk] at h
  | some conn =>
    cases hc : conn.cli with
    | none => simp [hk, hc] at h
    | some cli =>
      simp only [hk, hc, Option.some.injEq] at h
      subst h
      rfl

theorem cm_get_handle_drop_trace (s : State) (k : Nat) :
    handle_open_calls (cm_get_handle_drop s k).trace = handle_open_calls s.trace := by
  simp [cm_get_handle_drop, handle_open_calls_cons, Event.is_handle_open]

theorem cm_get_handle_first_eq (env : Env) (pipe_name : CStr) (open_handle : handle_opener)
    (ev : Event) (s : State) (domain : CStr) (st : NTSTATUS) (k : Nat) (s1 : State)
    (conn : winbindd_cm_conn)
    (hget : get_connection_from_cache env s domain pipe_name false = some (st, some k, s1))
    (hst : NT_STATUS_IS_OK st = true) (hk : s1.cm_conns[k]? = some conn) :
    cm_get_handle_first env pipe_name open_handle ev s domain =
      if policy_handle_is_valid conn.pol then none
      else (cm_get_handle_open open_handle ev s1 k).map (fun r => (r.1, r.2, k)) := by
  unfold cm_get_handle_first
  simp only [hget, hst, Bool.not_true, Bool.false_eq_true, if_false, Option.some_bind, hk,
    Option.map_some']

/-- The handle-open attempts of a handle acquisition that returns. -/
theorem cm_get_handle_attempts (env : Env) (pipe_name : CStr) (open_handle : handle_opener)
    (ev : Event) (s : State) (domain : CStr) (res : Option CLI_POLICY_HND) (t : State)
    (hev : Event.is_handle_open ev = true)
    (h : cm_get_handle env pipe_name open_handle ev s domain = some (res, t)) :
    handle_open_calls t.trace ≤ handle_open_calls s.trace + 2 ∧
    (handle_open_calls t.trace = handle_open_calls s.trace + 2 ↔
      ∃ result1 s2 k st2 ko2 s3,
        cm_get_handle_first env pipe_name open_handle ev s domain = some (result1, s2, k) ∧
        NT_STATUS_IS_OK result1 = false ∧ cm_get_handle_fd s2 k = some (-1) ∧
        get_connection_from_cache env s2 domain pipe_name false = some (st2, ko2, s3) ∧
        NT_STATUS_IS_OK st2 = true) ∧
    (∀ result1 s2 k st2 k2 s3 result3 s4,
      cm_get_handle_first env pipe_name open_handle ev s domain = some (result1, s2, k) →
      NT_STATUS_IS_OK result1 = false → cm_get_handle_fd s2 k = some (-1) →
      get_connection_from_cache env s2 domain pipe_name false = some (st2, some k2, s3) →
      NT_STATUS_IS_OK st2 = true →
      cm_get_handle_open open_handle ev s3 k2 = some (result3, s4) →
      NT_STATUS_IS_OK result3 = true →
      res = cm_get_handle_hnd s4 k2 ∧ res.isSome = true ∧ t = s4) := by
  obtain ⟨st, ko, s1, hget, hcases⟩ := cm_get_handle_cases env pipe_name open_handle ev s
    domain _ _ h
  obtain ⟨hc1, -, -⟩ := get_connection_from_cache_spec env s domain pipe_name st ko s1 hget
  rcases hcases with ⟨hst, -, ht⟩ | ⟨hst, k, conn, hko, hk, hrest⟩
  · have hfirst : cm_get_handle_first env pipe_name open_handle ev s domain = none := by
      unfold cm_get_handle_first
      simp [hget, hst]
    subst ht
    refine ⟨by omega, ⟨fun hn => by omega, ?_⟩, ?_⟩
    · rintro ⟨result1, s2, k, st2, ko2, s3, hf, -⟩
      rw [hfirst] at hf
      exact absurd hf (by simp)
    · intro result1 s2 k st2 k2 s3 result3 s4 hf
      rw [hfirst] at hf
      exact absurd hf (by simp)
  subst hko
  have hfirst := cm_get_handle_first_eq env pipe_name open_handle ev s domain st k s1 conn hget
    hst hk
  rcases hrest with ⟨hv, -, ht⟩ | ⟨hv, result1, s2, hopen, hrest⟩
  · simp only [hv, if_true] at hfirst
    subst ht
    refine ⟨by omega, ⟨fun hn => by omega, ?_⟩, ?_⟩
    · rintro ⟨result1, s2, k, st2, ko2, s3, hf, -⟩
      rw [hfirst] at hf
      exact absurd hf (by simp)
    · intro result1 s2 k st2 k2 s3 result3 s4 hf
      rw [hfirst] at hf
      exact absurd hf (by simp)
  simp only [hv, Bool.false_eq_true, if_false, hopen, Option.map_some'] at hfirst
  have htr2 := cm_get_handle_open_trace open_handle ev s1 k _ hopen
  simp only at htr2
  have hc2 : handle_open_calls s2.trace = handle_open_calls s.trace + 1 := by
    rw [htr2, handle_open_calls_cons, hev, hc1]
    simp
  rcases hrest with ⟨hok1, -, ht⟩ | ⟨-, hfd, -, ht⟩ | ⟨hbad1, hfd, st2, ko2, s3, hget2, hrest⟩
  · subst ht
    refine ⟨by omega, ⟨fun hn => by omega, ?_⟩, ?_⟩
    · rintro ⟨r1, t2, j, st2, ko2, s3, hf, hb, -⟩
      rw [hfirst, Option.some.injEq, Prod.mk.injEq] at hf
      rw [← hf.1, hok1] at hb
      exact absurd hb (by simp)
    · intro r1 t2 j st2 k2 s3 result3 s4 hf hb
      rw [hfirst, Option.some.injEq, Prod.mk.injEq] at hf
      rw [← hf.1, hok1] at hb
      exact absurd hb (by simp)
  · subst ht
    rw [cm_get_handle_drop_trace]
    refine ⟨by omega, ⟨fun hn => by omega, ?_⟩, ?_⟩
    · rintro ⟨r1, t2, j, st2, ko2, s3, hf, -, hfd2, -⟩
      rw [hfirst, Option.some.injEq, Prod.mk.injEq, Prod.mk.injEq] at hf
      rw [← hf.2.1, ← hf.2.2] at hfd2
      exact absurd hfd2 hfd
    · intro r1 t2 j st2 k2 s3 result3 s4 hf _ hfd2
      rw [hfirst, Option.some.injEq, Prod.mk.injEq, Prod.mk.injEq] at hf
      rw [← hf.2.1, ← hf.2.2] at hfd2
      exact absurd hfd2 hfd
  obtain ⟨hc3, -, -⟩ := get_connection_from_cache_spec env s2 domain pipe_name st2 ko2 s3 hget2
  rcases hrest with ⟨hst2, -, ht⟩ | ⟨hst2, k2, result3, s4, hko2, hopen2, hrest⟩
  · subst ht
    refine ⟨by omega, ⟨fun hn => by omega, ?_⟩, ?_⟩
    · rintro ⟨r1, t2, j, st3, ko3, t3, hf, -, -, hg, hok⟩
      rw [hfirst, Option.some.injEq, Prod.mk.injEq, Prod.mk.injEq] at hf
      rw [← hf.2.1, hget2, Option.some.injEq, Prod.mk.injEq] at hg
      rw [← hg.1, hst2] at hok
      exact absurd hok (by simp)
    · intro r1 t2 j st3 k3 t3 result3 s4 hf _ _ hg hok
      rw [hfirst, Option.some.injEq, Prod.mk.injEq, Prod.mk.injEq] at hf
      rw [← hf.2.1, hget2, Option.some.injEq, Prod.mk.injEq] at hg
      rw [← hg.1, hst2] at hok
      exact absurd hok (by simp)
  subst hko2
  have htr4 := cm_get_handle_open_trace open_handle ev s3 k2 _ hopen2
  simp only at htr4
  have hc4 : handle_open_calls s4.trace = handle_open_calls s.trace + 2 := by
    rw [htr4, handle_open_calls_cons, hev, hc3, hc2]
    simp
  have hright : ∃ result1 s2 k st2 ko2 s3,
      cm_get_handle_first env pipe_name open_handle ev s domain = some (result1, s2, k) ∧
      NT_STATUS_IS_OK result1 = false ∧ cm_get_handle_fd s2 k = some (-1) ∧
      get_connection_from_cache env s2 domain pipe_name false = some (st2, ko2, s3) ∧
      NT_STATUS_IS_OK st2 = true :=
    ⟨result1, s2, k, st2, some k2, s3, hfirst, hbad1, hfd, hget2, hst2⟩
  rcases hrest with ⟨hbad3, -, ht⟩ | ⟨-, hres, ht⟩
  · subst ht
    rw [cm_get_handle_drop_trace]
    refine ⟨by omega, ⟨fun _ => hright, fun _ => hc4⟩, ?_⟩
    intro r1 t2 j st3 k3 t3 r3 t4 hf _ _ hg _ ho hok
    rw [hfirst, Option.some.injEq, Prod.mk.injEq, Prod.mk.injEq] at hf
    rw [← hf.2.1, hget2, Option.some.injEq, Prod.mk.injEq, Prod.mk.injEq,
      Option.some.injEq] at hg
    rw [← hg.2.1, ← hg.2.2, hopen2, Option.some.injEq, Prod.mk.injEq] at ho
    rw [← ho.1, hbad3] at hok
    exact absurd hok (by simp)
  · subst ht
    refine ⟨by omega, ⟨fun _ => hright, fun _ => hc4⟩, ?_⟩
    intro r1 t2 j st3 k3 t3 r3 t4 hf _ _ hg _ ho _
    rw [hfirst, Option.some.injEq, Prod.mk.injEq, Prod.mk.injEq] at hf
    rw [← hf.2.1, hget2, Option.some.injEq, Prod.mk.injEq, Prod.mk.injEq,
      Option.some.injEq] at hg
    rw [← hg.2.1, ← hg.2.2, hopen2, Option.some.injEq, Prod.mk.injEq] at ho
    rw [← ho.2, ← hg.2.1]
    refine ⟨hres, ?_, rfl⟩
    rw [hres]
    unfold cm_get_handle_open at hopen2
    unfold cm_get_handle_hnd
    cases hk2 : s3.cm_conns[k2]? with
    | none => simp [hk2] at hopen2
    | some c2 =>
      cases hcl : c2.cli with
      | none => simp [hk2, hcl] at hopen2
      | some cli =>
        simp only [hk2, hcl, Option.some.injEq, Prod.mk.injEq] at hopen2
        rw [← hopen2.2]
        have hlen : k2 < s3.cm_conns.length := by
          by_contra hcon
          rw [List.getElem?_eq_none (by omega)] at hk2
          exact absurd hk2 (by simp)
        simp [List.getElem?_set, hlen]

/-- Witness of C15 (amended): the handle-open call fails for ("CORP", lsarpc)
on a pool with an entry for lsarpc and one for samr; the entry for samr
stays. -/
theorem failed_handle_leaves_no_entry_witness :
    cm_get_lsa_handle (demo_env_handle_fails demo_connected 5) demo_pool_lsa_samr demo_CORP
      = some (none, demo_handle_failed) ∧
    demo_pool_lsa_samr.cm_conns
      = [{ demo_handle_conn PIPE_SAMR with pol := 0 },
         { demo_handle_conn PIPE_LSARPC with pol := 0 }] ∧
    demo_handle_failed.cm_conns = [{ demo_handle_conn PIPE_SAMR with pol := 0 }] ∧
    ((∀ x ∈ demo_handle_failed.cm_conns, pool_key demo_CORP PIPE_LSARPC x = false) ∧
      demo_handle_failed.cm_conns
        = demo_pool_lsa_samr.cm_conns.filter (fun x => !pool_key demo_CORP PIPE_LSARPC x)) :=
  ⟨by decide, by decide, by decide,
   (failed_handle_leaves_no_entry (demo_env_handle_fails demo_connected 5) demo_pool_lsa_samr
      demo_handle_failed demo_CORP (by decide)).1 (by decide) (by decide) (by decide)⟩

/-- C14, counterexample. On a pool whose entry for ("CORP", lsarpc) has no
handle, with a controller that drops the session at the handle-open call and
then refuses the connection, the first handle-open attempt of
`cm_get_lsa_handle` fails and leaves the transport descriptor at -1, yet the
function returns NULL after that one attempt: the re-acquisition through
`get_connection_from_cache` failed, so no second attempt was made. -/
theorem single_retry_reacquire_counterexample :
    (cm_get_lsa_handle_first (demo_env_handle_fails demo_refused (-1)) demo_pool_lsa
      demo_CORP).map (fun r => (NT_STATUS_IS_OK r.1, cm_get_handle_fd r.2.1 r.2.2))
      = some (false, some (-1)) ∧
    (cm_get_lsa_handle (demo_env_handle_fails demo_refused (-1)) demo_pool_lsa demo_CORP).map
      (fun r => (r.1, handle_open_calls r.2.trace)) = some (none, 1) ∧
    handle_open_calls demo_pool_lsa.trace = 0 := by
  decide

/-- C14, amended. Single retry on staleness. In every run of
`cm_get_lsa_handle` or `cm_get_sam_handle` that returns: the run makes at most
two handle-open calls (never a third); it makes two exactly when the first
attempt failed, the transport descriptor of the session was then -1, and the
re-acquisition of the session through `get_connection_from_cache`, made on the
state the first attempt left, succeeded (when the re-acquisition fails the
function returns NULL without a second attempt); and when the second attempt,
made on the re-acquired pool entry, succeeds, the function returns a handle
(not NULL), the one that attempt stored in the entry, paired with its
session. -/
theorem single_retry_on_staleness (env : Env) (s : State) (domain : CStr)
    (res : Option CLI_POLICY_HND) (t : State) :
    (cm_get_lsa_handle env s domain = some (res, t) →
      handle_open_calls t.trace ≤ handle_open_calls s.trace + 2 ∧
      (handle_open_calls t.trace = handle_open_calls s.trace + 2 ↔
        ∃ result1 s2 k st2 ko2 s3,
          cm_get_lsa_handle_first env s domain = some (result1, s2, k) ∧
          NT_STATUS_IS_OK result1 = false ∧ cm_get_handle_fd s2 k = some (-1) ∧
          get_connection_from_cache env s2 domain PIPE_LSARPC false = some (st2, ko2, s3) ∧
          NT_STATUS_IS_OK st2 = true) ∧
      (∀ result1 s2 k st2 k2 s3 result3 s4,
        cm_get_lsa_handle_first env s domain = some (result1, s2, k) →
        NT_STATUS_IS_OK result1 = false → cm_get_handle_fd s2 k = some (-1) →
        get_connection_from_cache env s2 domain PIPE_LSARPC false
          = some (st2, some k2, s3) →
        NT_STATUS_IS_OK st2 = true →
        cm_get_handle_open env.cli_lsa_open_policy Event.cli_lsa_open_policy s3 k2
          = some (result3, s4) →
        NT_STATUS_IS_OK result3 = true →
        res = cm_get_handle_hnd s4 k2 ∧ res.isSome = true ∧ t = s4)) ∧
    (cm_get_sam_handle env s domain = some (res, t) →
      handle_open_calls t.trace ≤ handle_open_calls s.trace + 2 ∧
      (handle_open_calls t.trace = handle_open_calls s.trace + 2 ↔
        ∃ result1 s2 k st2 ko2 s3,
          cm_get_sam_handle_first env s domain = some (result1, s2, k) ∧
          NT_STATUS_IS_OK result1 = false ∧ cm_get_handle_fd s2 k = some (-1) ∧
          get_connection_from_cache env s2 domain PIPE_SAMR false = some (st2, ko2, s3) ∧
          NT_STATUS_IS_OK st2 = true) ∧
      (∀ result1 s2 k st2 k2 s3 result3 s4,
        cm_get_sam_handle_first env s domain = some (result1, s2, k) →
        NT_STATUS_IS_OK result1 = false → cm_get_handle_fd s2 k = some (-1) →
        get_connection_from_cache env s2 domain PIPE_SAMR false = some (st2, some k2, s3) →
        NT_STATUS_IS_OK st2 = true →
        cm_get_handle_open env.cli_samr_connect Event.cli_samr_connect s3 k2
          = some (result3, s4) →
        NT_STATUS_IS_OK result3 = true →
        res = cm_get_handle_hnd s4 k2 ∧ res.isSome = true ∧ t = s4)) :=
  ⟨fun h => cm_get_handle_attempts env PIPE_LSARPC _ _ s domain res t rfl h,
   fun h => cm_get_handle_attempts env PIPE_SAMR _ _ s domain res t rfl h⟩

theorem single_retry_on_staleness_witness :
    cm_get_lsa_handle demo_env_stale_once demo_pool_lsa demo_CORP
      = some (some { pol := 7, cli := some demo_cli }, demo_handle_retried) ∧
    handle_open_calls demo_pool_lsa.trace = 0 ∧
    handle_open_calls demo_handle_retried.trace = 2 ∧
    handle_open_calls demo_handle_retried.trace ≤ handle_open_calls demo_pool_lsa.trace + 2 ∧
    (handle_open_calls demo_handle_retried.trace = handle_open_calls demo_pool_lsa.trace + 2 ↔
      ∃ result1 s2 k st2 ko2 s3,
        cm_get_lsa_handle_first demo_env_stale_once demo_pool_lsa demo_CORP
          = some (result1, s2, k) ∧
        NT_STATUS_IS_OK result1 = false ∧ cm_get_handle_fd s2 k = some (-1) ∧
        get_connection_from_cache demo_env_stale_once s2 demo_CORP PIPE_LSARPC false
          = some (st2, ko2, s3) ∧
        NT_STATUS_IS_OK st2 = true) :=
  ⟨by decide, by decide, by decide,
   ((single_retry_on_staleness demo_env_stale_once demo_pool_lsa demo_CORP
      (some { pol := 7, cli := some demo_cli }) demo_handle_retried).1 (by decide)).1,
   ((single_retry_on_staleness demo_env_stale_once demo_pool_lsa demo_CORP
      (some { pol := 7, cli := some demo_cli }) demo_handle_retried).1 (by decide)).2.1⟩

/-- C16. Happy path (Scenario A). Starting from an empty lookup cache, an empty
failed-connection cache and an empty pool, with allocation succeeding: if
discovery for "CORP" returns ("DC1", 10.0.0.1), the named lock of "DC1" is
granted, `cli_full_connection` succeeds (whatever it leaves in `*retry`),
`cli_nt_session_open` on the lsarpc pipe succeeds and `cli_lsa_open_policy`
succeeds with a valid handle, then `cm_get_lsa_handle` for "CORP" returns that
valid handle paired with the session; the lookup cache then holds a positive
entry for "CORP" naming "DC1", the pool holds exactly one entry, for
("CORP", "DC1", lsarpc), carrying that handle and session with a lock
reference count of 0, the failed-connection cache is still empty, and the
named lock is not held: the run made one granted lock call, for "DC1", and
released it, so for every lock name the grants and the releases of the run
are equal in number. -/
theorem happy_path (env : Env) (tr0 tr1 : List Event) (cli0 cli1 cli2 : cli_state)
    (pol : POLICY_HND)
    (hmalloc : ∀ tr, env.malloc tr = true)
    (hfind : cm_get_dc_name_find env tr0 demo_CORP [] = (true, demo_DC1, demo_addr, tr1))
    (hlock : ∀ tr rc, env.named_lock_acquire tr demo_DC1 rc = true)
    (hconn : ∀ tr u d p, (env.cli_full_connection tr demo_DC1 demo_addr u d p).status
      = NT_STATUS_OK)
    (hcli : ∀ tr u d p, (env.cli_full_connection tr demo_DC1 demo_addr u d p).cli = some cli0)
    (hname : env.get_pipe_name_from_index (env.get_pipe_index PIPE_LSARPC) = some PIPE_LSARPC)
    (hpipe : ∀ tr, env.cli_nt_session_open tr (some cli0) (env.get_pipe_index PIPE_LSARPC)
      = (true, some cli1))
    (hopen : ∀ tr, env.cli_lsa_open_policy tr cli1 = (NT_STATUS_OK, cli2, pol))
    (hvalid : policy_handle_is_valid pol = true) :
    ∃ hd t, cm_get_lsa_handle env { demo_empty with trace := tr0 } demo_CORP
        = some (some hd, t) ∧
      hd = { pol := pol, cli := some cli2 } ∧ policy_handle_is_valid hd.pol = true ∧
      t.get_dc_name_cache
        = [{ domain_name := demo_CORP, srv_name := demo_DC1, lookup_time := env.time tr0 }] ∧
      t.cm_conns
        = [{ domain := demo_CORP, controller := demo_DC1, pipe_name := PIPE_LSARPC,
             mutex_ref_count := 0, cli := hd.cli, pol := hd.pol }] ∧
      t.failed_connection_cache = [] ∧
      t.trace = Event.cli_lsa_open_policy :: Event.secrets_named_mutex_release demo_DC1 ::
        Event.cli_nt_session_open (env.get_pipe_index PIPE_LSARPC) ::
        Event.cli_full_connection demo_DC1 demo_addr ::
        Event.secrets_named_mutex demo_DC1 true ::
        Event.secrets_fetch SecretKey.SECRETS_AUTH_PASSWORD ::
        Event.secrets_fetch SecretKey.SECRETS_AUTH_DOMAIN ::
        Event.secrets_fetch SecretKey.SECRETS_AUTH_USER :: tr1 ∧
      ∀ nm, grant_calls nm t.trace + release_calls nm tr0
        = release_calls nm t.trace + grant_calls nm tr0 := by
  have hok : NT_STATUS_IS_OK NT_STATUS_OK = true := by decide
  have hf1 : fstrcpy demo_CORP = demo_CORP := by decide
  have hf2 : fstrcpy demo_DC1 = demo_DC1 := by decide
  have hf3 : fstrcpy PIPE_LSARPC = PIPE_LSARPC := by decide
  have hget : get_connection_from_cache env { demo_empty with trace := tr0 } demo_CORP
      PIPE_LSARPC false = some (NT_STATUS_OK, some 0,
        { get_dc_name_cache := [{ domain_name := demo_CORP, srv_name := demo_DC1,
                                  lookup_time := env.time tr0 }],
          failed_connection_cache := [],
          cm_conns := [{ domain := demo_CORP, controller := demo_DC1, pipe_name := PIPE_LSARPC,
                         mutex_ref_count := 0, cli := some cli1, pol := 0 }],
          trace := Event.secrets_named_mutex_release demo_DC1 ::
            Event.cli_nt_session_open (env.get_pipe_index PIPE_LSARPC) ::
            Event.cli_full_connection demo_DC1 demo_addr ::
            Event.secrets_named_mutex demo_DC1 true ::
            Event.secrets_fetch SecretKey.SECRETS_AUTH_PASSWORD ::
            Event.secrets_fetch SecretKey.SECRETS_AUTH_DOMAIN ::
            Event.secrets_fetch SecretKey.SECRETS_AUTH_USER :: tr1 }) := by
    have hloop : ∀ (u d p : Option CStr) (tr : List Event),
        cm_open_connection_loop env demo_addr u d p 3
          { retry := true, got_mutex := false, result := NT_STATUS_OK,
            new_conn :=
              { domain := demo_CORP, controller := demo_DC1, pipe_name := PIPE_LSARPC,
                mutex_ref_count := 0, cli := none, pol := 0 },
            trace := tr }
        = { retry := (env.cli_full_connection
              (Event.secrets_named_mutex demo_DC1 true :: tr) demo_DC1 demo_addr u d p).retry,
            got_mutex := true, result := NT_STATUS_OK,
            new_conn :=
              { domain := demo_CORP, controller := demo_DC1, pipe_name := PIPE_LSARPC,
                mutex_ref_count := 1, cli := some cli0, pol := 0 },
            trace := Event.cli_full_connection demo_DC1 demo_addr ::
              Event.secrets_named_mutex demo_DC1 true :: tr } := by
      intro u d p tr
      rw [cm_open_connection_loop]
      simp [secrets_named_mutex, hlock, hconn, hcli, hok, winbindd_cm_conn.zero]
    unfold get_connection_from_cache
    simp only [demo_empty, get_connection_from_cache_scan, hmalloc, Bool.not_true,
      Bool.false_eq_true, if_false]
    unfold cm_open_connection cm_get_dc_name
    simp only [cm_get_dc_name_scan, hmalloc, Bool.not_true, Bool.false_eq_true, if_false,
      winbindd_cm_conn.zero, hfind, hname, Option.getD_some, hf1, hf2, hf3,
      cm_open_connection_scan]
    unfold cm_open_connection_connect
    simp only []
    rcases hup : cm_get_ipc_userpass env tr1 with ⟨u, d, p, tr2⟩
    have htr := cm_get_ipc_userpass_trace env tr1
    rw [hup] at htr
    simp only at htr
    subst htr
    have hl := hloop u d p
    simp only [winbindd_cm_conn.zero] at hl
    simp [hl, hok, hpipe, secrets_named_mutex_release]
  have hrun : cm_get_lsa_handle env { demo_empty with trace := tr0 } demo_CORP
      = some (some { pol := pol, cli := some cli2 },
        { get_dc_name_cache := [{ domain_name := demo_CORP, srv_name := demo_DC1,
                                  lookup_time := env.time tr0 }],
          failed_connection_cache := [],
          cm_conns := [{ domain := demo_CORP, controller := demo_DC1, pipe_name := PIPE_LSARPC,
                         mutex_ref_count := 0, cli := some cli2, pol := pol }],
          trace := Event.cli_lsa_open_policy :: Event.secrets_named_mutex_release demo_DC1 ::
            Event.cli_nt_session_open (env.get_pipe_index PIPE_LSARPC) ::
            Event.cli_full_connection demo_DC1 demo_addr ::
            Event.secrets_named_mutex demo_DC1 true ::
            Event.secrets_fetch SecretKey.SECRETS_AUTH_PASSWORD ::
            Event.secrets_fetch SecretKey.SECRETS_AUTH_DOMAIN ::
            Event.secrets_fetch SecretKey.SECRETS_AUTH_USER :: tr1 }) := by
    unfold cm_get_lsa_handle cm_get_handle
    rw [hget]
    have hinv : policy_handle_is_valid 0 = false := by decide
    simp [hok, hinv, cm_get_handle_open, hopen, cm_get_handle_hnd]
  refine ⟨_, _, hrun, rfl, hvalid, rfl, rfl, rfl, rfl, fun nm => ?_⟩
  obtain ⟨evs, h1, h2, -⟩ := cm_get_dc_name_find_trace env tr0 demo_CORP []
  rw [hfind] at h1
  simp only at h1
  have hg : grant_calls nm tr1 = grant_calls nm tr0 := by
    rw [h1]
    exact calls_of_discovery _ (fun ev hev => by
      cases ev <;> simp_all [Event.is_discovery, Event.is_grant_of]) _ _ h2
  have hr : release_calls nm tr1 = release_calls nm tr0 := by
    rw [h1]
    exact calls_of_discovery _ (fun ev hev => by
      cases ev <;> simp_all [Event.is_discovery, Event.is_release_of]) _ _ h2
  by_cases hnm : demo_DC1 = nm <;>
    simp only [grant_calls_cons, release_calls_cons, Event.is_grant_of, Event.is_release_of,
      hnm, hg, hr, decide_True, decide_False, Bool.false_eq_true, if_true, if_false,
      Bool.and_true, Bool.and_false, Bool.true_and] <;>
    omega

theorem happy_path_witness :
    ∃ hd t, cm_get_lsa_handle (demo_env 100 true demo_connected)
        { demo_empty with trace := [] } demo_CORP = some (some hd, t) ∧
      hd = { pol := 7, cli := some demo_cli } ∧ policy_handle_is_valid hd.pol = true ∧
      t.get_dc_name_cache
        = [{ domain_name := demo_CORP, srv_name := demo_DC1, lookup_time := 100 }] ∧
      t.cm_conns
        = [{ domain := demo_CORP, controller := demo_DC1, pipe_name := PIPE_LSARPC,
             mutex_ref_count := 0, cli := hd.cli, pol := hd.pol }] ∧
      t.failed_connection_cache = [] ∧
      t.trace = Event.cli_lsa_open_policy :: Event.secrets_named_mutex_release demo_DC1 ::
        Event.cli_nt_session_open 0 :: Event.cli_full_connection demo_DC1 demo_addr ::
        Event.secrets_named_mutex demo_DC1 true ::
        Event.secrets_fetch SecretKey.SECRETS_AUTH_PASSWORD ::
        Event.secrets_fetch SecretKey.SECRETS_AUTH_DOMAIN ::
        Event.secrets_fetch SecretKey.SECRETS_AUTH_USER :: [Event.rpc_find_dc demo_CORP] ∧
      ∀ nm, grant_calls nm t.trace + release_calls nm []
        = release_calls nm t.trace + grant_calls nm [] :=
  happy_path (demo_env 100 true demo_connected) [] [Event.rpc_find_dc demo_CORP] demo_cli
    demo_cli demo_cli 7 (fun _ => rfl) (by decide) (fun _ _ => rfl) (fun _ _ _ _ => rfl)
    (fun _ _ _ _ => rfl) (by decide) (fun _ => rfl) (fun _ => rfl) (by decide)

/-! ## Invariants of the caches -/


/-- The scan of the failed-connection cache returns the status of an entry of
the cache, or leaves a part of the cache. -/
theorem cm_open_connection_scan_sub (now : time_t) (domain controller : CStr) :
    ∀ l : List failed_connection_cache,
      (∀ r, cm_open_connection_scan now domain controller l = fcc_scan.cached r →
        ∃ e ∈ l, e.nt_status = r) ∧
      (∀ c, cm_open_connection_scan now domain controller l = fcc_scan.miss c →
        ∀ x ∈ c, x ∈ l)
  | [] => by
    constructor
    · intro r h
      simp [cm_open_connection_scan] at h
    · intro c h
      simp only [cm_open_connection_scan, fcc_scan.miss.injEq] at h
      subst h
      simp
  | fcc :: next => by
    obtain ⟨ih1, ih2⟩ := cm_open_connection_scan_sub now domain controller next
    rw [cm_open_connection_scan]
    split_ifs with h1 h2
    · cases hrec : cm_open_connection_scan now domain controller next with
      | cached r0 =>
        simp only []
        constructor
        · intro r h
          obtain ⟨e, he, hr⟩ := ih1 r0 hrec
          simp only [fcc_scan.cached.injEq] at h
          exact ⟨e, List.mem_cons_of_mem _ he, hr.trans h⟩
        · intro c h
          simp at h
      | miss rest =>
        simp only []
        constructor
        · intro r h
          simp at h
        · intro c h
          simp only [fcc_scan.miss.injEq] at h
          subst h
          intro x hx
          rcases List.mem_cons.mp hx with h | h
          · rw [h]; exact List.mem_cons_self _ _
          · exact List.mem_cons_of_mem _ (ih2 rest hrec x h)
    · constructor
      · intro r h
        simp at h
      · intro c h
        simp only [fcc_scan.miss.injEq] at h
        subst h
        exact fun x hx => List.mem_cons_of_mem _ hx
    · constructor
      · intro r h
        simp only [fcc_scan.cached.injEq] at h
        exact ⟨fcc, List.mem_cons_self _ _, h⟩
      · intro c h
        simp at h

theorem fcc_all_failures_iff (l : List failed_connection_cache) :
    fcc_all_failures l = true ↔ ∀ e ∈ l, NT_STATUS_IS_OK e.nt_status = false := by
  simp [fcc_all_failures, List.all_eq_true]

theorem fcc_all_failures_cons (e : failed_connection_cache) (l : List failed_connection_cache)
    (he : NT_STATUS_IS_OK e.nt_status = false) (hl : fcc_all_failures l = true) :
    fcc_all_failures (e :: l) = true := by
  simp only [fcc_all_failures, List.all_cons, he, Bool.not_false, Bool.true_and]
  exact hl

/-- The part of `cm_open_connection` from the connect loop on never hands a
success to `add_failed_connection_entry`: it returns, and a cache of failures
stays a cache of failures. -/
theorem cm_open_connection_connect_failures (env : Env) (s : State) (pipe_index : Int)
    (new_conn : winbindd_cm_conn) (keep_mutex : Bool) (dc_ip : in_addr)
    (hs : fcc_all_failures s.failed_connection_cache = true) :
    ∃ r, cm_open_connection_connect env s pipe_index new_conn keep_mutex dc_ip = some r ∧
      fcc_all_failures r.2.2.failed_connection_cache = true := by
  unfold cm_open_connection_connect
  simp only []
  rcases cm_get_ipc_userpass env s.trace with ⟨u, d, p, tr0⟩
  simp only []
  generalize cm_open_connection_loop env dc_ip u d p 3
    { retry := true, got_mutex := false, result := NT_STATUS_OK, new_conn := new_conn,
      trace := tr0 } = st
  have hpipe : NT_STATUS_IS_OK NT_STATUS_PIPE_NOT_AVAILABLE = false := by decide
  cases hok : NT_STATUS_IS_OK st.result <;>
    simp only [add_failed_connection_entry, hok, hpipe, secrets_named_mutex_release,
      Bool.not_false, Bool.not_true, Bool.false_eq_true, if_true, if_false] <;>
    split_ifs <;>
    refine ⟨_, rfl, ?_⟩ <;>
    first
      | exact hs
      | exact fcc_all_failures_cons _ _ hok hs

/-- From a cache of failures `cm_open_connection` returns (neither assertion
fails) and leaves a cache of failures. -/
theorem cm_open_connection_failures (env : Env) (s : State) (domain : CStr) (pipe_index : Int)
    (new_conn : winbindd_cm_conn) (keep_mutex : Bool)
    (hs : fcc_all_failures s.failed_connection_cache = true) :
    ∃ r, cm_open_connection env s domain pipe_index new_conn keep_mutex = some r ∧
      fcc_all_failures r.2.2.failed_connection_cache = true := by
  unfold cm_open_connection
  simp only []
  obtain ⟨-, hfcc, -⟩ := cm_get_dc_name_frame env s domain new_conn.controller 0
  rcases hd : cm_get_dc_name env s domain new_conn.controller 0 with ⟨ret, srv, ip, s1⟩
  rw [hd] at hfcc
  simp only at hfcc
  have hs1 : fcc_all_failures s1.failed_connection_cache = true := by rw [hfcc]; exact hs
  have hnf : NT_STATUS_IS_OK NT_STATUS_DOMAIN_CONTROLLER_NOT_FOUND = false := by decide
  cases ret
  · simp only [add_failed_connection_entry, hnf, Bool.false_eq_true, if_false]
    split_ifs <;> refine ⟨_, rfl, ?_⟩
    · exact hs1
    · exact hs1
    · exact fcc_all_failures_cons _ _ hnf hs1
  · simp only []
    obtain ⟨h1, h2⟩ := cm_open_connection_scan_sub (env.time s1.trace) domain srv
      s1.failed_connection_cache
    cases hscan : cm_open_connection_scan (env.time s1.trace) domain srv
        s1.failed_connection_cache with
    | cached result =>
      obtain ⟨e, he, hr⟩ := h1 result hscan
      have hbad : NT_STATUS_IS_OK result = false := by
        rw [← hr]
        exact (fcc_all_failures_iff _).mp hs1 e he
      simp only [hbad, Bool.false_eq_true, if_false]
      exact ⟨_, rfl, hs1⟩
    | miss cache =>
      simp only []
      apply cm_open_connection_connect_failures
      rw [fcc_all_failures_iff]
      intro e he
      exact (fcc_all_failures_iff _).mp hs1 e (h2 cache hscan e he)


/-- A returning `get_connection_from_cache` leaves a cache of failures. -/
theorem get_connection_from_cache_failures (env : Env) (s : State) (domain pipe_name : CStr)
    (keep_mutex : Bool) (r : NTSTATUS × Option Nat × State)
    (hs : fcc_all_failures s.failed_connection_cache = true)
    (h : get_connection_from_cache env s domain pipe_name keep_mutex = some r) :
    fcc_all_failures r.2.2.failed_connection_cache = true := by
  unfold get_connection_from_cache at h
  cases hscan : get_connection_from_cache_scan env domain pipe_name keep_mutex s.cm_conns
      s.trace with
  | none => simp [hscan] at h
  | some q =>
    obtain ⟨f, conns, tr⟩ := q
    cases f with
    | some k =>
      simp only [hscan, Option.some.injEq] at h
      subst h
      exact hs
    | none =>
      simp only [hscan] at h
      split_ifs at h with hm
      · simp only [Option.some.injEq] at h
        subst h
        exact hs
      · obtain ⟨q, hq, hq2⟩ := cm_open_connection_failures env
          { s with cm_conns := conns, trace := tr } domain (env.get_pipe_index pipe_name)
          winbindd_cm_conn.zero keep_mutex hs
        rw [hq] at h
        simp only [] at h
        split_ifs at h <;>
          simp only [Option.some.injEq] at h <;>
          subst h <;>
          exact hq2

theorem cm_get_handle_open_fcc (open_handle : handle_opener) (ev : Event) (s : State)
    (k : Nat) (r : NTSTATUS × State) (h : cm_get_handle_open open_handle ev s k = some r) :
    r.2.failed_connection_cache = s.failed_connection_cache := by
  unfold cm_get_handle_open at h
  cases hk : s.cm_conns[k]? with
  | none => simp [hk] at h
  | some conn =>
    cases hc : conn.cli with
    | none => simp [hk, hc] at h
    | some cli =>
      simp only [hk, hc, Option.some.injEq] at h
      subst h
      rfl

/-- A returning handle acquisition leaves a cache of failures. -/
theorem cm_get_handle_failures (env : Env) (pipe_name : CStr) (open_handle : handle_opener)
    (ev : Event) (s : State) (domain : CStr) (r : Option CLI_POLICY_HND × State)
    (hs : fcc_all_failures s.failed_connection_cache = true)
    (h : cm_get_handle env pipe_name open_handle ev s domain = some r) :
    fcc_all_failures r.2.failed_connection_cache = true := by
  obtain ⟨res, t⟩ := r
  obtain ⟨st, ko, s1, hget, hcases⟩ := cm_get_handle_cases env pipe_name open_handle ev s
    domain _ _ h
  have h1 := get_connection_from_cache_failures env s domain pipe_name false _ hs hget
  simp only at h1 ⊢
  rcases hcases with ⟨-, -, ht⟩ | ⟨-, k, conn, -, -, hrest⟩
  · rw [ht]; exact h1
  rcases hrest with ⟨-, -, ht⟩ | ⟨-, result1, s2, hopen, hrest⟩
  · rw [ht]; exact h1
  have h2 : fcc_all_failures s2.failed_connection_cache = true := by
    rw [cm_get_handle_open_fcc open_handle ev s1 k _ hopen]; exact h1
  rcases hrest with ⟨-, -, ht⟩ | ⟨-, -, -, ht⟩ | ⟨-, -, st2, ko2, s3, hget2, hrest⟩
  · rw [ht]; exact h2
  · rw [ht]; exact h2
  have h3 := get_connection_from_cache_failures env s2 domain pipe_name false _ h2 hget2
  simp only at h3
  rcases hrest with ⟨-, -, ht⟩ | ⟨-, k2, result3, s4, -, hopen2, hrest⟩
  · rw [ht]; exact h3
  have h4 : fcc_all_failures s4.failed_connection_cache = true := by
    rw [cm_get_handle_open_fcc open_handle ev s3 k2 _ hopen2]; exact h3
  rcases hrest with ⟨-, -, ht⟩ | ⟨-, -, ht⟩
  · rw [ht]; exact h4
  · rw [ht]; exact h4

/-- Every reachable state has a cache of failures. -/
theorem cm_reachable_failures (env : Env) (s : State) (h : cm_reachable env s) :
    fcc_all_failures s.failed_connection_cache = true := by
  induction h with
  | start s h => rw [h]; rfl
  | resolve s domain srv_name ip_out _ ih =>
    rw [(cm_get_dc_name_frame env s domain srv_name ip_out).2.1]
    exact ih
  | establish s domain pipe_index new_conn keep_mutex r _ hr ih =>
    obtain ⟨q, hq, hq2⟩ := cm_open_connection_failures env s domain pipe_index new_conn
      keep_mutex ih
    rw [hq, Option.some.injEq] at hr
    rw [← hr]
    exact hq2
  | acquire s domain pipe_name keep_mutex r _ hr ih =>
    exact get_connection_from_cache_failures env s domain pipe_name keep_mutex r ih hr
  | lsa_handle s domain r _ hr ih =>
    exact cm_get_handle_failures env PIPE_LSARPC _ _ s domain r ih hr
  | sam_handle s domain r _ hr ih =>
    exact cm_get_handle_failures env PIPE_SAMR _ _ s domain r ih hr

/-- C21. Failure cache never holds success. In every state reachable from an
empty failed-connection cache, each entry of the cache carries a failure
status, and every call of `cm_open_connection` made in such a state returns:
no call of `add_failed_connection_entry` it makes receives a success status
and the assertion on the short-circuit path holds (a violated `SMB_ASSERT`
would abort the call), and the cache it leaves again holds failures only. -/
theorem failure_cache_never_holds_success (env : Env) (s : State)
    (h : cm_reachable env s) :
    (∀ e ∈ s.failed_connection_cache, NT_STATUS_IS_OK e.nt_status = false) ∧
    ∀ (domain : CStr) (pipe_index : Int) (new_conn : winbindd_cm_conn) (keep_mutex : Bool),
      ∃ r, cm_open_connection env s domain pipe_index new_conn keep_mutex = some r ∧
        ∀ e ∈ r.2.2.failed_connection_cache, NT_STATUS_IS_OK e.nt_status = false := by
  have hs := cm_reachable_failures env s h
  refine ⟨(fcc_all_failures_iff _).mp hs, fun domain pipe_index new_conn keep_mutex => ?_⟩
  obtain ⟨r, hr, hr2⟩ := cm_open_connection_failures env s domain pipe_index new_conn
    keep_mutex hs
  exact ⟨r, hr, (fcc_all_failures_iff _).mp hr2⟩

/-- How a scan of the lookup cache that ends in a miss leaves the list: as it
is, when it has no entry for the domain, or without its first entry for the
domain. -/
theorem cm_get_dc_name_scan_miss (now : time_t) (domain : CStr) :
    ∀ (l c : List get_dc_name_cache), cm_get_dc_name_scan now domain l = dc_scan.miss c →
      (c = l ∧ ∀ x ∈ l, strequal domain x.domain_name = false) ∨
      ∃ pre e post, l = pre ++ e :: post ∧ c = pre ++ post ∧
        strequal domain e.domain_name = true ∧
        ∀ x ∈ pre, strequal domain x.domain_name = false
  | [], c, h => by
    simp only [cm_get_dc_name_scan, dc_scan.miss.injEq] at h
    subst h
    exact Or.inl ⟨rfl, by simp⟩
  | dcc :: next, c, h => by
    rw [cm_get_dc_name_scan] at h
    cases hx : strequal domain dcc.domain_name
    · simp only [hx, Bool.not_false, if_true] at h
      cases hrec : cm_get_dc_name_scan now domain next with
      | positive n => simp [hrec] at h
      | negative => simp [hrec] at h
      | miss rest =>
        simp only [hrec, dc_scan.miss.injEq] at h
        subst h
        rcases cm_get_dc_name_scan_miss now domain next rest hrec with ⟨h1, h2⟩ |
          ⟨pre, e, post, h1, h2, h3, h4⟩
        · left
          refine ⟨by rw [h1], ?_⟩
          intro x hx2
          rcases List.mem_cons.mp hx2 with h | h
          · rw [h]; exact hx
          · exact h2 x h
        · right
          refine ⟨dcc :: pre, e, post, by rw [h1]; rfl, by rw [h2]; rfl, h3, ?_⟩
          intro x hx2
          rcases List.mem_cons.mp hx2 with h | h
          · rw [h]; exact hx
          · exact h4 x h
    · simp only [hx, Bool.not_true, Bool.false_eq_true, if_false] at h
      split_ifs at h
      · simp only [dc_scan.miss.injEq] at h
        subst h
        exact Or.inr ⟨[], dcc, next, rfl, rfl, hx, by simp⟩

/-- A call of `cm_get_dc_name` for a name that fits an `fstring` keeps the
lookup cache at one entry per domain name at most. -/
theorem cm_get_dc_name_one_entry (env : Env) (s : State) (domain srv_name : CStr)
    (ip_out : in_addr) (hfits : domain.length < FSTRING_LEN)
    (hs : ∀ d : CStr, s.get_dc_name_cache.countP (fun e => strequal d e.domain_name) ≤ 1) :
    ∀ d : CStr, (cm_get_dc_name env s domain srv_name ip_out).2.2.2.get_dc_name_cache.countP
      (fun e => strequal d e.domain_name) ≤ 1 := by
  intro d
  unfold cm_get_dc_name
  cases hscan : cm_get_dc_name_scan (env.time s.trace) domain s.get_dc_name_cache with
  | positive name => exact hs d
  | negative => exact hs d
  | miss cache =>
    have hsub : cache.countP (fun e => strequal d e.domain_name)
        ≤ s.get_dc_name_cache.countP (fun e => strequal d e.domain_name) := by
      rcases cm_get_dc_name_scan_miss _ _ _ _ hscan with ⟨h1, -⟩ | ⟨pre, e, post, h1, h2, -, -⟩
      · rw [h1]
      · rw [h1, h2]
        simp only [List.countP_append, List.countP_cons]
        omega
    have hnone : cache.countP (fun e => strequal domain e.domain_name) = 0 := by
      rcases cm_get_dc_name_scan_miss _ _ _ _ hscan with ⟨h1, h2⟩ | ⟨pre, e, post, h1, h2, h3, -⟩
      · rw [h1, List.countP_eq_zero]
        intro x hx
        simp [h2 x hx]
      · have := hs domain
        rw [h1] at this
        rw [h2]
        simp only [List.countP_append, List.countP_cons, h3, if_true] at this ⊢
        omega
    have hle := le_trans hsub (hs d)
    simp only []
    split_ifs
    · exact hle
    · rcases cm_get_dc_name_find env s.trace domain srv_name with ⟨ret, srv1, ip1, tr1⟩
      cases ret <;>
        simp only [List.countP_cons, fstrcpy_of_fits hfits] <;>
        cases hd : strequal d domain <;>
        simp only [Bool.false_eq_true, if_false, if_true, Nat.add_zero]
      · exact hle
      · have hcongr : (fun e : get_dc_name_cache => strequal d e.domain_name)
            = (fun e => strequal domain e.domain_name) := by
          funext e
          exact strequal_congr_left _ hd
        rw [hcongr, hnone]
      · exact hle
      · have hcongr : (fun e : get_dc_name_cache => strequal d e.domain_name)
            = (fun e => strequal domain e.domain_name) := by
          funext e
          exact strequal_congr_left _ hd
        rw [hcongr, hnone]

theorem lookup_reachable_one_entry (env : Env) (s : State) (h : lookup_reachable env s) :
    ∀ d : CStr, s.get_dc_name_cache.countP (fun e => strequal d e.domain_name) ≤ 1 := by
  induction h with
  | start s h => intro d; rw [h]; simp
  | resolve s domain srv_name ip_out _ hfits ih =>
    exact cm_get_dc_name_one_entry env s domain srv_name ip_out hfits ih

set_option maxRecDepth 8000 in
/-- C22, counterexample. A domain name of 300 bytes, resolved twice from the
empty cache at time 100. Each call stores an entry under the first 255 bytes of
the name and the second call, comparing the full name with the stored one,
does not find the entry of the first: the cache holds two entries with the
same domain name. -/
theorem lookup_entries_long_name_counterexample :
    demo_long_domain.length = 300 ∧
    demo_empty.get_dc_name_cache = [] ∧
    (cm_get_dc_name (demo_env 100 true demo_connected)
      (cm_get_dc_name (demo_env 100 true demo_connected) demo_empty demo_long_domain [] 0
        ).2.2.2 demo_long_domain [] 0).2.2.2.get_dc_name_cache =
      [{ domain_name := List.replicate 255 65, srv_name := demo_DC1, lookup_time := 100 },
       { domain_name := List.replicate 255 65, srv_name := demo_DC1, lookup_time := 100 }] ∧
    (cm_get_dc_name (demo_env 100 true demo_connected)
      (cm_get_dc_name (demo_env 100 true demo_connected) demo_empty demo_long_domain [] 0
        ).2.2.2 demo_long_domain [] 0).2.2.2.get_dc_name_cache.countP
      (fun e => strequal (List.replicate 255 65) e.domain_name) = 2 := by
  decide

/-- C22, amended. One lookup entry per domain, for domain names shorter than
the 256 bytes of an `fstring`. In every state reachable from an empty
lookup cache by any sequence of `cm_get_dc_name` calls for domain names that
fit an `fstring`, the cache holds at most one entry per domain name, names
compared without regard to case; and a call for such a name that finds no
unexpired entry for it, memory being available, leaves exactly one entry for
that domain, at the head of the cache, time-stamped with the time of the
call. -/
theorem one_lookup_entry_per_domain (env : Env) (s : State) (h : lookup_reachable env s) :
    (∀ d : CStr, s.get_dc_name_cache.countP (fun e => strequal d e.domain_name) ≤ 1) ∧
    ∀ (domain srv_name : CStr) (ip_out : in_addr) (cache : List get_dc_name_cache),
      domain.length < FSTRING_LEN → env.malloc s.trace = true →
      cm_get_dc_name_scan (env.time s.trace) domain s.get_dc_name_cache = dc_scan.miss cache →
      ∃ e, (cm_get_dc_name env s domain srv_name ip_out).2.2.2.get_dc_name_cache = e :: cache ∧
        e.domain_name = domain ∧ e.lookup_time = env.time s.trace ∧
        (e :: cache).countP (fun x => strequal domain x.domain_name) = 1 := by
  have hs := lookup_reachable_one_entry env s h
  refine ⟨hs, ?_⟩
  intro domain srv_name ip_out cache hfits hmalloc hscan
  have hnone : cache.countP (fun e => strequal domain e.domain_name) = 0 := by
    rcases cm_get_dc_name_scan_miss _ _ _ _ hscan with ⟨h1, h2⟩ | ⟨pre, e, post, h1, h2, h3, -⟩
    · rw [h1, List.countP_eq_zero]
      intro x hx
      simp [h2 x hx]
    · have := hs domain
      rw [h1] at this
      rw [h2]
      simp only [List.countP_append, List.countP_cons, h3, if_true] at this ⊢
      omega
  unfold cm_get_dc_name
  simp only [hscan, hmalloc, Bool.not_true, Bool.false_eq_true, if_false]
  rcases cm_get_dc_name_find env s.trace domain srv_name with ⟨ret, srv1, ip1, tr1⟩
  cases ret <;>
    refine ⟨_, rfl, fstrcpy_of_fits hfits, rfl, ?_⟩ <;>
    simp [List.countP_cons, hnone, fstrcpy_of_fits hfits, strequal_refl]

/-- Witness of C21: the state after a refused connection for "CORP" is
reachable and its cache holds the recorded failure. -/
theorem failure_cache_never_holds_success_witness :
    demo_after_refusal.2.2.failed_connection_cache = [demo_failed 100] ∧
    ((∀ e ∈ demo_after_refusal.2.2.failed_connection_cache,
        NT_STATUS_IS_OK e.nt_status = false) ∧
      ∀ (domain : CStr) (pipe_index : Int) (new_conn : winbindd_cm_conn) (keep_mutex : Bool),
        ∃ r, cm_open_connection (demo_env 100 true demo_refused) demo_after_refusal.2.2 domain
            pipe_index new_conn keep_mutex = some r ∧
          ∀ e ∈ r.2.2.failed_connection_cache, NT_STATUS_IS_OK e.nt_status = false) :=
  ⟨by decide,
   failure_cache_never_holds_success (demo_env 100 true demo_refused) demo_after_refusal.2.2
    (cm_reachable.establish demo_empty demo_CORP 0 winbindd_cm_conn.zero false
      demo_after_refusal (cm_reachable.start demo_empty rfl) (by decide))⟩

/-- Witness of C22 (amended): after "CORP" was resolved, a call for "DC2" finds no entry
and puts one at the head of the cache. -/
theorem one_lookup_entry_per_domain_witness :
    demo_resolved.get_dc_name_cache = [demo_lookup 100] ∧
    (∀ d : CStr, demo_resolved.get_dc_name_cache.countP
      (fun e => strequal d e.domain_name) ≤ 1) ∧
    ∃ e, (cm_get_dc_name (demo_env 100 true demo_connected) demo_resolved demo_DC2 []
        0).2.2.2.get_dc_name_cache = e :: [demo_lookup 100] ∧
      e.domain_name = demo_DC2 ∧
      e.lookup_time = (demo_env 100 true demo_connected).time demo_resolved.trace ∧
      (e :: [demo_lookup 100]).countP (fun x => strequal demo_DC2 x.domain_name) = 1 :=
  ⟨by decide,
   (one_lookup_entry_per_domain (demo_env 100 true demo_connected) demo_resolved
    (lookup_reachable.resolve demo_empty demo_CORP [] 0 (lookup_reachable.start demo_empty rfl)
      (by decide))).1,
   (one_lookup_entry_per_domain (demo_env 100 true demo_connected) demo_resolved
    (lookup_reachable.resolve demo_empty demo_CORP [] 0 (lookup_reachable.start demo_empty rfl)
      (by decide))).2 demo_DC2 [] 0 [demo_lookup 100] (by decide) rfl (by decide)⟩

theorem credential_calls_cons (ev : Event) (tr : List Event) :
    credential_calls (ev :: tr)
      = credential_calls tr + (if Event.is_secrets_fetch ev then 1 else 0) := by
  simp [credential_calls, calls, List.countP_cons]

/-- The connect loop does not read the secrets store. -/
theorem cm_open_connection_loop_no_fetch (env : Env) (dc_ip : in_addr) (u d p : Option CStr) :
    ∀ (n : Nat) (st : connect_loop_state),
      credential_calls (cm_open_connection_loop env dc_ip u d p n st).trace
        = credential_calls st.trace
  | 0, st => by simp [cm_open_connection_loop]
  | n + 1, st => by
    cases hretry : st.retry
    · rw [cm_open_connection_loop_no_retry _ _ _ _ _ _ _ hretry]
    · rcases cm_open_connection_loop_cases env dc_ip u d p n st hretry with
        ⟨-, hstep⟩ | ⟨-, hstep⟩ | hstep
      · rw [hstep, cm_open_connection_connected_trace]
        simp [credential_calls_cons, Event.is_secrets_fetch]
      · rw [hstep, cm_open_connection_loop_no_fetch env dc_ip u d p n _,
          cm_open_connection_failed_trace]
        simp [credential_calls_cons, Event.is_secrets_fetch]
      · rw [hstep, cm_open_connection_loop_no_fetch env dc_ip u d p n _,
          cm_open_connection_deadlock_trace]
        simp [credential_calls_cons, Event.is_secrets_fetch]

/-- The part of `cm_open_connection` from the connect loop on reads the three
secrets, asks for the lock at least once, and leaves the failed-connection
cache as it is or puts one entry, for the failure it returns, at its head. -/
theorem cm_open_connection_connect_runs (env : Env) (s : State) (pipe_index : Int)
    (new_conn : winbindd_cm_conn) (keep_mutex : Bool) (dc_ip : in_addr) :
    ∃ r, cm_open_connection_connect env s pipe_index new_conn keep_mutex dc_ip = some r ∧
      credential_calls r.2.2.trace = credential_calls s.trace + 3 ∧
      lock_calls s.trace + 1 ≤ lock_calls r.2.2.trace ∧
      (r.2.2.failed_connection_cache = s.failed_connection_cache ∨
        ∃ n, r.2.2.failed_connection_cache = n :: s.failed_connection_cache ∧
          n.nt_status = r.1 ∧ NT_STATUS_IS_OK r.1 = false) := by
  unfold cm_open_connection_connect
  simp only []
  have htr := cm_get_ipc_userpass_trace env s.trace
  rcases hc : cm_get_ipc_userpass env s.trace with ⟨u, d, p, tr0⟩
  rw [hc] at htr
  simp only at htr
  simp only []
  have hf := cm_open_connection_loop_no_fetch env dc_ip u d p 3
    { retry := true, got_mutex := false, result := NT_STATUS_OK, new_conn := new_conn,
      trace := tr0 }
  have hl := cm_open_connection_loop_lock_calls_started env dc_ip u d p 2
    { retry := true, got_mutex := false, result := NT_STATUS_OK, new_conn := new_conn,
      trace := tr0 } rfl
  have hf0 : credential_calls tr0 = credential_calls s.trace + 3 := by
    rw [htr]; simp [credential_calls_cons, Event.is_secrets_fetch]
  have hl0 : lock_calls tr0 = lock_calls s.trace := by
    rw [htr]; simp [lock_calls_cons, Event.is_mutex_request]
  simp only [hf0, hl0] at hf hl
  generalize cm_open_connection_loop env dc_ip u d p 3
    { retry := true, got_mutex := false, result := NT_STATUS_OK, new_conn := new_conn,
      trace := tr0 } = st at hf hl ⊢
  have hpipe : NT_STATUS_IS_OK NT_STATUS_PIPE_NOT_AVAILABLE = false := by decide
  cases hok : NT_STATUS_IS_OK st.result <;> cases hgot : st.got_mutex <;>
    cases keep_mutex <;>
    cases hop : (env.cli_nt_session_open st.trace st.new_conn.cli pipe_index).1 <;>
    simp only [add_failed_connection_entry, hok, hpipe, hop, secrets_named_mutex_release,
      Bool.not_false, Bool.not_true, Bool.false_eq_true, if_true, if_false, hgot,
      Bool.and_true, Bool.and_false, Bool.true_and] <;>
    (try split_ifs) <;>
    refine ⟨_, rfl, ?_, ?_, ?_⟩ <;>
    simp only [credential_calls_cons, lock_calls_cons, Event.is_secrets_fetch,
      Event.is_mutex_request, Bool.false_eq_true, if_false, Nat.add_zero] <;>
    first
      | exact hf
      | exact hl
      | exact Or.inl rfl
      | exact Or.inr ⟨_, rfl, rfl, hok⟩
      | exact Or.inr ⟨_, rfl, rfl, hpipe⟩
      | exact Or.inl trivial

/-- C23. Failure-cache expiry on check. Suppose `cm_get_dc_name` resolves the
domain to controller `C` and `e` is the first entry of the failed-connection
cache for (domain, C). When `e` is more than 30 seconds old at the scan,
`cm_open_connection` unlinks it and does not short-circuit: it is the connect
part run on the cache without `e`; it returns, having read the three secrets
and asked for the named lock at least once, and the cache it leaves is the
cache without `e`, with at most one new entry, for the failure it returns, at
its head. When `e` is at most 30 seconds old (and carries a failure status)
it returns `e.nt_status` in the state `cm_get_dc_name` left, the cache
unchanged. -/
theorem failure_cache_expiry_on_check (env : Env) (s : State) (domain : CStr)
    (pipe_index : Int) (new_conn : winbindd_cm_conn) (keep_mutex : Bool)
    (C : CStr) (ip : in_addr) (s1 : State) (pre post : List failed_connection_cache)
    (e : failed_connection_cache)
    (hresolve : cm_get_dc_name env s domain new_conn.controller 0 = (true, C, ip, s1))
    (hcache : s.failed_connection_cache = pre ++ e :: post)
    (hpre : ∀ x ∈ pre, (strequal domain x.domain_name && strequal C x.controller) = false)
    (hkey : (strequal domain e.domain_name && strequal C e.controller) = true) :
    (env.time s1.trace - e.lookup_time > 30 →
      cm_open_connection env s domain pipe_index new_conn keep_mutex =
        cm_open_connection_connect env { s1 with failed_connection_cache := pre ++ post }
          pipe_index
          { new_conn with
            domain := fstrcpy domain,
            pipe_name := fstrcpy ((env.get_pipe_name_from_index pipe_index).getD []),
            controller := C } keep_mutex ip ∧
      ∃ r, cm_open_connection env s domain pipe_index new_conn keep_mutex = some r ∧
        credential_calls r.2.2.trace = credential_calls s.trace + 3 ∧
        lock_calls s.trace + 1 ≤ lock_calls r.2.2.trace ∧
        (r.2.2.failed_connection_cache = pre ++ post ∨
          ∃ n, r.2.2.failed_connection_cache = n :: (pre ++ post) ∧
            n.nt_status = r.1 ∧ NT_STATUS_IS_OK r.1 = false)) ∧
    (env.time s1.trace - e.lookup_time ≤ 30 → NT_STATUS_IS_OK e.nt_status = false →
      cm_open_connection env s domain pipe_index new_conn keep_mutex =
        some (e.nt_status,
          { new_conn with
            domain := fstrcpy domain,
            pipe_name := fstrcpy ((env.get_pipe_name_from_index pipe_index).getD []),
            controller := C }, s1) ∧
      s1.failed_connection_cache = s.failed_connection_cache) := by
  obtain ⟨-, hfcc, -⟩ := cm_get_dc_name_frame env s domain new_conn.controller 0
  obtain ⟨q1, q2, -, -⟩ := cm_get_dc_name_quiet env s domain new_conn.controller 0
  rw [hresolve] at hfcc q1 q2
  simp only at hfcc q1 q2
  have hscan := cm_open_connection_scan_first (env.time s1.trace) domain C pre post e hpre hkey
  rw [← hcache, ← hfcc] at hscan
  constructor
  · intro hold
    have hold2 : env.time s1.trace - e.lookup_time > FAILED_CONNECTION_CACHE_TIMEOUT := hold
    rw [if_pos hold2] at hscan
    have hrun : cm_open_connection env s domain pipe_index new_conn keep_mutex =
        cm_open_connection_connect env { s1 with failed_connection_cache := pre ++ post }
          pipe_index
          { new_conn with
            domain := fstrcpy domain,
            pipe_name := fstrcpy ((env.get_pipe_name_from_index pipe_index).getD []),
            controller := C } keep_mutex ip := by
      unfold cm_open_connection
      simp only [hresolve, hscan]
    refine ⟨hrun, ?_⟩
    obtain ⟨r, hr, c1, c2, c3⟩ := cm_open_connection_connect_runs env
      { s1 with failed_connection_cache := pre ++ post } pipe_index
      { new_conn with
        domain := fstrcpy domain,
        pipe_name := fstrcpy ((env.get_pipe_name_from_index pipe_index).getD []),
        controller := C } keep_mutex ip
    simp only [q1, q2] at c1 c2 c3
    exact ⟨r, by rw [hrun, hr], c1, c2, c3⟩
  · intro hlive hstatus
    have hlive2 : ¬ env.time s1.trace - e.lookup_time > FAILED_CONNECTION_CACHE_TIMEOUT := by
      unfold FAILED_CONNECTION_CACHE_TIMEOUT
      exact not_lt.mpr hlive
    rw [if_neg hlive2] at hscan
    refine ⟨?_, hfcc⟩
    unfold cm_open_connection
    simp only [hresolve, hscan, hstatus, Bool.false_eq_true, if_false]

/-- Witness of C23: "CORP" resolves to "DC1" at time 100; a failure recorded at
time 50 is dropped and the connection is made, one recorded at time 90 is
returned. -/
theorem failure_cache_expiry_on_check_witness :
    ((100 : Int) - (demo_failed 50).lookup_time > 30 ∧
      (cm_open_connection (demo_env 100 true demo_connected) (demo_failed_state 50) demo_CORP 0
        winbindd_cm_conn.zero false).map
          (fun r => (r.1, r.2.2.failed_connection_cache, credential_calls r.2.2.trace,
            lock_calls r.2.2.trace)) = some (NT_STATUS_OK, [], 3, 1)) ∧
    ((100 : Int) - (demo_failed 90).lookup_time ≤ 30 ∧
      (cm_open_connection (demo_env 100 true demo_connected) (demo_failed_state 90) demo_CORP 0
        winbindd_cm_conn.zero false).map (fun r => (r.1, r.2.2.failed_connection_cache))
          = some (NT_STATUS_UNSUCCESSFUL, [demo_failed 90])) :=
  ⟨⟨by decide, by
      rw [((failure_cache_expiry_on_check (demo_env 100 true demo_connected)
        (demo_failed_state 50) demo_CORP 0 winbindd_cm_conn.zero false demo_DC1 demo_addr
        { demo_failed_state 50 with
          get_dc_name_cache := [demo_lookup 100],
          trace := [Event.rpc_find_dc demo_CORP] }
        [] [] (demo_failed 50) (by decide) (by decide) (by decide) (by decide)).1
        (by decide)).1]
      decide⟩,
   ⟨by decide, by
      rw [((failure_cache_expiry_on_check (demo_env 100 true demo_connected)
        (demo_failed_state 90) demo_CORP 0 winbindd_cm_conn.zero false demo_DC1 demo_addr
        { demo_failed_state 90 with
          get_dc_name_cache := [demo_lookup 100],
          trace := [Event.rpc_find_dc demo_CORP] }
        [] [] (demo_failed 90) (by decide) (by decide) (by decide) (by decide)).2
        (by decide) (by decide)).1]
      decide⟩⟩

/-! ## Account database helpers -/


/-- The letters `pdb_encode_acct_ctrl` writes for the flags of a table. -/
theorem acb_letters_foldl (a : Nat) :
    ∀ (l : List (Nat × Nat)) (s : List Nat),
      l.foldl (fun s p => if a &&& p.1 ≠ 0 then s ++ [p.2] else s) s
        = s ++ (l.filter (fun p => decide (a &&& p.1 ≠ 0))).map Prod.snd
  | [], s => by simp
  | p :: l, s => by
    rw [List.foldl_cons, acb_letters_foldl a l]
    by_cases h : a &&& p.1 ≠ 0
    · simp [h]
    · simp [h]

theorem c_store_append (pre rest bytes : List Nat) :
    c_store (pre ++ rest) pre.length bytes = pre ++ bytes ++ rest.drop bytes.length := by
  simp [c_store, List.take_append_eq_append_take, List.drop_append_eq_append_drop]

theorem c_string_of_terminated (l r : List Nat) (h : ∀ x ∈ l, x ≠ 0) :
    c_string (l ++ 0 :: r) = l := by
  unfold c_string
  rw [List.takeWhile_append_of_pos]
  · simp
  · intro x hx
    simpa using h x hx

/-- The loop of `pdb_decode_acct_ctrl` over the letters of a part of the
table. -/
theorem pdb_decode_acct_ctrl_loop_letters (a : Nat) (tail : CStr) :
    ∀ (l : List (Nat × Nat)) (acc : Nat), (∀ p ∈ l, p ∈ acb_letters) →
      pdb_decode_acct_ctrl_loop
        ((l.filter (fun p => decide (a &&& p.1 ≠ 0))).map Prod.snd ++ tail) acc
        = pdb_decode_acct_ctrl_loop tail
            (l.foldl (fun acc p => if a &&& p.1 ≠ 0 then acc ||| p.1 else acc) acc)
  | [], acc, _ => by simp
  | p :: l, acc, h => by
    have hp := h p (List.mem_cons_self _ _)
    have ih := fun acc1 => pdb_decode_acct_ctrl_loop_letters a tail l acc1
      (fun q hq => h q (List.mem_cons_of_mem _ hq))
    by_cases hc : a &&& p.1 ≠ 0
    · simp only [List.filter_cons, hc, decide_True, if_true, List.map_cons, List.cons_append,
        List.foldl_cons, ne_eq, not_false_eq_true]
      rw [← ih]
      simp only [acb_letters, List.mem_cons, List.mem_singleton, List.not_mem_nil, or_false] at hp
      rcases hp with h | h | h | h | h | h | h | h | h | h | h <;>
        rw [h] <;>
        rw [pdb_decode_acct_ctrl_loop] <;>
        simp
    · simp only [List.filter_cons, hc, decide_False, Bool.false_eq_true, if_false,
        List.foldl_cons]
      exact ih acc

theorem pdb_decode_acct_ctrl_loop_blanks (tail : CStr) (acc : Nat) :
    ∀ n : Nat, pdb_decode_acct_ctrl_loop (List.replicate n 32 ++ tail) acc
      = pdb_decode_acct_ctrl_loop tail acc
  | 0 => by simp
  | n + 1 => by
    rw [List.replicate_succ, List.cons_append, pdb_decode_acct_ctrl_loop]
    simp only [Nat.reduceEqDiff, if_false, if_true]
    exact pdb_decode_acct_ctrl_loop_blanks tail acc n

/-- For flags of one bit each, collecting the flags that `a` has gives the
bits of `a` among them. -/
theorem acb_collect (a : Nat) :
    ∀ (l : List (Nat × Nat)) (acc : Nat), (∀ p ∈ l, ∃ k, p.1 = 2 ^ k) →
      l.foldl (fun acc p => if a &&& p.1 ≠ 0 then acc ||| p.1 else acc) acc
        = acc ||| (a &&& l.foldl (fun m p => m ||| p.1) 0)
  | [], acc, _ => by simp
  | p :: l, acc, h => by
    obtain ⟨k, hk⟩ := h p (List.mem_cons_self _ _)
    have ih := fun acc1 => acb_collect a l acc1 (fun q hq => h q (List.mem_cons_of_mem _ hq))
    have hstep : (if a &&& p.1 ≠ 0 then acc ||| p.1 else acc) = acc ||| (a &&& p.1) := by
      rw [hk]
      apply Nat.eq_of_testBit_eq
      intro i
      by_cases hb : a.testBit k = true
      · have hne : a &&& 2 ^ k ≠ 0 := by
          intro h0
          have := congrArg (fun x => x.testBit k) h0
          simp [Nat.testBit_two_pow, hb] at this
        rw [if_pos hne]
        simp only [Nat.testBit_or, Nat.testBit_and, Nat.testBit_two_pow]
        by_cases hik : k = i
        · subst hik; simp [hb]
        · simp [hik]
      · have he : a &&& 2 ^ k = 0 := by
          apply Nat.eq_of_testBit_eq
          intro j
          simp only [Nat.testBit_and, Nat.testBit_two_pow, Nat.zero_testBit]
          by_cases hjk : k = j
          · subst hjk; simp [hb]
          · simp [hjk]
        rw [he]
        simp
    have hmask : ∀ (l2 : List (Nat × Nat)) (m : Nat),
        l2.foldl (fun m p => m ||| p.1) m = m ||| l2.foldl (fun m p => m ||| p.1) 0 := by
      intro l2
      induction l2 with
      | nil => intro m; simp
      | cons q l3 ih3 =>
        intro m
        rw [List.foldl_cons, List.foldl_cons, ih3 (m ||| q.1), ih3 (0 ||| q.1)]
        simp [Nat.or_assoc]
    rw [List.foldl_cons, List.foldl_cons, hstep, ih, hmask l (0 ||| p.1)]
    simp only [Nat.zero_or, Nat.and_or_distrib_left, Nat.or_assoc]

theorem acb_letters_nonzero (a : Nat) :
    ∀ x ∈ (acb_letters.filter (fun p => decide (a &&& p.1 ≠ 0))).map Prod.snd, x ≠ 0 := by
  intro x hx
  obtain ⟨p, hp, hpx⟩ := List.mem_map.mp hx
  have hp2 := (List.mem_filter.mp hp).1
  simp only [acb_letters, List.mem_cons, List.mem_singleton, List.not_mem_nil, or_false] at hp2
  rcases hp2 with h | h | h | h | h | h | h | h | h | h | h <;>
    rw [h] at hpx <;>
    rw [← hpx] <;>
    decide

theorem acb_letters_length (a : Nat) :
    ((acb_letters.filter (fun p => decide (a &&& p.1 ≠ 0))).map Prod.snd).length ≤ 11 := by
  rw [List.length_map]
  exact le_trans (List.length_filter_le _ _) (by decide)

/-- C29. Account-control string round trip. For every `acct_ctrl`, every
`length` with 14 <= length <= sizeof(fstring) and every content of the static
buffer, `pdb_encode_acct_ctrl` stays within the buffer; the string it returns
has exactly `length - 1` characters, begins with '[' and ends with ']'; and
`pdb_decode_acct_ctrl` of that string is `acct_ctrl` restricted to the eleven
encodable flags. -/
theorem acct_ctrl_round_trip (acct_str : List Nat) (acct_ctrl length : Nat)
    (hbuf : acct_str.length = FSTRING_LEN) (h1 : 14 ≤ length) (h2 : length ≤ FSTRING_LEN) :
    ∃ buf, pdb_encode_acct_ctrl acct_str acct_ctrl length = some buf ∧
      buf.length = FSTRING_LEN ∧
      (c_string buf).length = length - 1 ∧
      (c_string buf).head? = some 91 ∧ (c_string buf).getLast? = some 93 ∧
      pdb_decode_acct_ctrl (c_string buf) = acct_ctrl &&& ACB_ENCODABLE := by
  have hF : FSTRING_LEN = 256 := rfl
  rw [hF] at hbuf h2 ⊢
  have hlast : (length + SIZE_T_MOD - 2) % SIZE_T_MOD = length - 2 := by
    have : SIZE_T_MOD = 4294967296 := by decide
    rw [this]
    omega
  have hchain := acb_letters_foldl acct_ctrl acb_letters [91]
  have hnz := acb_letters_nonzero acct_ctrl
  have hlen := acb_letters_length acct_ctrl
  generalize hL : (acb_letters.filter (fun p => decide (acct_ctrl &&& p.1 ≠ 0))).map Prod.snd
    = letters at hchain hnz hlen
  have hs11 : (if acct_ctrl &&& ACB_DOMTRUST ≠ 0 then
      (if acct_ctrl &&& ACB_PWNOEXP ≠ 0 then
      (if acct_ctrl &&& ACB_AUTOLOCK ≠ 0 then
      (if acct_ctrl &&& ACB_SVRTRUST ≠ 0 then
      (if acct_ctrl &&& ACB_WSTRUST ≠ 0 then
      (if acct_ctrl &&& ACB_MNS ≠ 0 then
      (if acct_ctrl &&& ACB_NORMAL ≠ 0 then
      (if acct_ctrl &&& ACB_TEMPDUP ≠ 0 then
      (if acct_ctrl &&& ACB_HOMDIRREQ ≠ 0 then
      (if acct_ctrl &&& ACB_DISABLED ≠ 0 then
      (if acct_ctrl &&& ACB_PWNOTREQ ≠ 0 then [91] ++ [78] else [91]) ++ [68]
      else (if acct_ctrl &&& ACB_PWNOTREQ ≠ 0 then [91] ++ [78] else [91])) ++ [72]
      else _) ++ [84] else _) ++ [85] else _) ++ [77] else _) ++ [87] else _) ++ [83]
      else _) ++ [76] else _) ++ [88] else _) ++ [73] else _) = 91 :: letters := hchain
  unfold pdb_encode_acct_ctrl
  simp only [hlast, hF]
  rw [hs11]
  have hfits : length - 2 + 1 < 256 := by omega
  simp only [hfits, if_true]
  refine ⟨_, rfl, ?_⟩
  have hb1 : c_store acct_str 0 (91 :: letters)
      = (91 :: letters) ++ acct_str.drop (91 :: letters).length := by
    have := c_store_append [] acct_str (91 :: letters)
    simpa using this
  have hb2 : c_store ((91 :: letters) ++ acct_str.drop (91 :: letters).length)
      (91 :: letters).length (List.replicate (length - 2 - (91 :: letters).length) 32)
      = (91 :: letters) ++ List.replicate (length - 2 - (91 :: letters).length) 32
        ++ (acct_str.drop (91 :: letters).length).drop
          (List.replicate (length - 2 - (91 :: letters).length) 32).length :=
    c_store_append _ _ _
  have hpre : ((91 :: letters) ++ List.replicate (length - 2 - (91 :: letters).length) 32).length
      = length - 2 := by
    simp only [List.length_append, List.length_cons, List.length_replicate]
    omega
  have hb3 := c_store_append
    ((91 :: letters) ++ List.replicate (length - 2 - (91 :: letters).length) 32)
    ((acct_str.drop (91 :: letters).length).drop
      (List.replicate (length - 2 - (91 :: letters).length) 32).length) [93, 0]
  rw [hpre] at hb3
  rw [hb1, hb2, hb3]
  generalize hrest : List.drop [93, 0].length ((acct_str.drop (91 :: letters).length).drop
      (List.replicate (length - 2 - (91 :: letters).length) 32).length) = rest
  have hrestlen : rest.length = 256 - length := by
    rw [← hrest]
    simp only [List.length_drop, List.length_cons, List.length_nil, List.length_replicate, hbuf]
    omega
  have hstr : c_string ((91 :: letters) ++
      List.replicate (length - 2 - (91 :: letters).length) 32 ++ [93, 0] ++ rest)
      = (91 :: letters) ++ List.replicate (length - 2 - (91 :: letters).length) 32 ++ [93] := by
    have := c_string_of_terminated
      ((91 :: letters) ++ List.replicate (length - 2 - (91 :: letters).length) 32 ++ [93]) rest
      (by
        intro x hx
        simp only [List.mem_append, List.mem_cons, List.mem_singleton, List.not_mem_nil,
          or_false] at hx
        rcases hx with (h | h) | h
        · rcases h with h | h
          · rw [h]; decide
          · exact hnz x h
        · rw [(List.mem_replicate.mp h).2]; decide
        · rw [h]; decide)
    rw [← this]
    simp
  rw [hstr]
  refine ⟨?_, ?_, ?_, ?_, ?_⟩
  · simp only [List.length_append, List.length_cons, List.length_replicate, List.length_nil,
      hrestlen]
    omega
  · simp only [List.length_append, List.length_cons, List.length_replicate, List.length_nil]
    omega
  · simp
  · rw [List.getLast?_append]
    simp
  · simp only [List.cons_append, pdb_decode_acct_ctrl, List.append_assoc]
    rw [← hL, pdb_decode_acct_ctrl_loop_letters acct_ctrl _ acb_letters 0 (fun p hp => hp),
      pdb_decode_acct_ctrl_loop_blanks]
    have hend : ∀ acc, pdb_decode_acct_ctrl_loop [93] acc = acc := by
      intro acc
      simp [pdb_decode_acct_ctrl_loop]
    rw [hend, acb_collect acct_ctrl acb_letters 0 (by
      intro p hp
      simp only [acb_letters, List.mem_cons, List.mem_singleton, List.not_mem_nil,
        or_false] at hp
      rcases hp with h | h | h | h | h | h | h | h | h | h | h <;> rw [h]
      · exact ⟨2, rfl⟩
      · exact ⟨0, rfl⟩
      · exact ⟨1, rfl⟩
      · exact ⟨3, rfl⟩
      · exact ⟨4, rfl⟩
      · exact ⟨5, rfl⟩
      · exact ⟨7, rfl⟩
      · exact ⟨8, rfl⟩
      · exact ⟨10, rfl⟩
      · exact ⟨9, rfl⟩
      · exact ⟨6, rfl⟩)]
    rw [Nat.zero_or]
    rfl

/-- C24, failing input. The operand of `&` in the `other_acb` statement is the
logical negation of a non-zero mask, that is 0, so `other_acb` is always 0 and
the account-type step writes exactly `ACB_WSTRUST`, `ACB_DOMTRUST` or
`ACB_NORMAL`: every other bit is dropped. For an account with
`ACB_NORMAL | ACB_PWNOEXP` and no local flag it writes `ACB_NORMAL`, without
`ACB_PWNOEXP`. -/
theorem local_password_change_drops_other_bits (acct_ctrl local_flags : Nat) :
    local_password_change_other_acb acct_ctrl = 0 ∧
    (local_password_change_acct_type acct_ctrl local_flags = ACB_WSTRUST ∨
      local_password_change_acct_type acct_ctrl local_flags = ACB_DOMTRUST ∨
      local_password_change_acct_type acct_ctrl local_flags = ACB_NORMAL) ∧
    (ACB_NORMAL ||| ACB_PWNOEXP) &&& ACB_PWNOEXP = ACB_PWNOEXP ∧
    local_password_change_acct_type (ACB_NORMAL ||| ACB_PWNOEXP) 0 = ACB_NORMAL ∧
    local_password_change_acct_type (ACB_NORMAL ||| ACB_PWNOEXP) 0 &&& ACB_PWNOEXP = 0 := by
  have h0 : local_password_change_other_acb acct_ctrl = 0 := by
    have hm : c_logical_not (ACB_WSTRUST ||| ACB_DOMTRUST ||| ACB_SVRTRUST ||| ACB_NORMAL) = 0 := by
      decide
    simp [local_password_change_other_acb, hm]
  refine ⟨h0, ?_, by decide, by decide, by decide⟩
  unfold local_password_change_acct_type
  simp only [h0, Nat.or_zero]
  split_ifs
  · exact Or.inl (by decide)
  · exact Or.inr (Or.inl (by decide))
  · exact Or.inr (Or.inr (by decide))

/-- C30, failing input. A string of thirty-one hexadecimal digits: the
thirty-second character read is the terminating NUL, `strchr(hexchars, 0)`
points at the NUL that ends `hexchars`, so the test for NULL passes;
`pdb_gethexpwd` returns True and stores 16 bytes, the last one made with the
offset 16. -/
theorem pdb_gethexpwd_accepts_short_string :
    demo_hex31.length = 31 ∧
    pdb_gethexpwd demo_hex31
      = some (true, [1, 35, 69, 103, 137, 171, 205, 239, 1, 35, 69, 103, 137, 171, 205, 240]) := by
  decide

/-- Witness of C29: the zeroed buffer, an `acct_ctrl` with `ACB_PWNOEXP`,
`ACB_NORMAL`, `ACB_PWNOTREQ` and the bit 0x8000 that no letter encodes, and
length 16: the string is "[NUX          ]". -/
theorem acct_ctrl_round_trip_witness :
    (pdb_encode_acct_ctrl (List.replicate 256 0) 0x8214 16).map c_string
      = some [91, 78, 85, 88, 32, 32, 32, 32, 32, 32, 32, 32, 32, 32, 93] ∧
    ∃ buf, pdb_encode_acct_ctrl (List.replicate 256 0) 0x8214 16 = some buf ∧
      buf.length = FSTRING_LEN ∧
      (c_string buf).length = 16 - 1 ∧
      (c_string buf).head? = some 91 ∧ (c_string buf).getLast? = some 93 ∧
      pdb_decode_acct_ctrl (c_string buf) = 0x8214 &&& ACB_ENCODABLE :=
  ⟨by decide,
   acct_ctrl_round_trip (List.replicate 256 0) 0x8214 16 (List.length_replicate 256 0)
    (by decide) (by decide)⟩

/-! ## NT ACL to Unix mode -/


/-- The counts the first loop of `map_ntacl_to_mode` makes. -/
theorem map_ntacl_to_mode_scan_counts (env : darwin_acl_env) (owner_sid group_sid : DOM_SID) :
    ∀ (l : List SEC_ACE) (st : ntacl_scan),
      (map_ntacl_to_mode_scan env owner_sid group_sid l st).direct_ace_count
        = st.direct_ace_count
          + l.countP (fun a => decide (a.flags &&& SEC_ACE_FLAG_INHERITED_ACE = 0)) ∧
      (map_ntacl_to_mode_scan env owner_sid group_sid l st).deny_ace_count
        = st.deny_ace_count + l.countP (fun a => decide (a.type = SEC_ACE_TYPE_ACCESS_DENIED))
  | [], st => by simp [map_ntacl_to_mode_scan]
  | a :: l, st => by
    rw [map_ntacl_to_mode_scan]
    have ih := map_ntacl_to_mode_scan_counts env owner_sid group_sid l
    have hne : SEC_ACE_TYPE_ACCESS_DENIED ≠ SEC_ACE_TYPE_ACCESS_ALLOWED := by decide
    simp only [(ih _).1, (ih _).2, List.countP_cons]
    constructor <;>
      split_ifs <;>
      simp_all <;>
      omega

/-- C26, failing input. A DACL of one direct SYSTEM_AUDIT entry: the first loop
counts it neither as a deny entry nor as an allow entry ("ignoring unsupported
ACL type"), the function goes on to the second loop, and the
`SMB_ASSERT(sec_ace->type == SEC_ACE_TYPE_ACCESS_ALLOWED)` there fails. More
generally the assertion fails for every DACL without an ACCESS_DENIED entry
that holds an entry of another type than ACCESS_ALLOWED. -/
theorem map_ntacl_to_mode_assert_fails (env : darwin_acl_env) (aces : List SEC_ACE)
    (owner_sid group_sid : DOM_SID) (mode : Nat) :
    map_ntacl_to_mode env (some [demo_audit_ace]) owner_sid group_sid mode = none ∧
    ((∀ a ∈ aces, a.type ≠ SEC_ACE_TYPE_ACCESS_DENIED) →
      (∃ a ∈ aces, a.type ≠ SEC_ACE_TYPE_ACCESS_ALLOWED) →
      map_ntacl_to_mode env (some aces) owner_sid group_sid mode = none) := by
  have hstrip : ∀ (ua ga oa : Nat) (l : List SEC_ACE),
      (∃ a ∈ l, a.type ≠ SEC_ACE_TYPE_ACCESS_ALLOWED) →
      map_ntacl_to_mode_strip env owner_sid group_sid ua ga oa l = none := by
    intro ua ga oa l
    induction l with
    | nil => rintro ⟨a, ha, -⟩; exact absurd ha (List.not_mem_nil a)
    | cons x xs ih =>
      rintro ⟨a, ha, hat⟩
      rw [map_ntacl_to_mode_strip]
      by_cases hx : x.type = SEC_ACE_TYPE_ACCESS_ALLOWED
      · rcases List.mem_cons.mp ha with h | h
        · rw [h] at hat; exact absurd hx hat
        · simp [hx, ih ⟨a, h, hat⟩]
      · simp [hx]
  have hgen : ∀ l : List SEC_ACE, (∀ a ∈ l, a.type ≠ SEC_ACE_TYPE_ACCESS_DENIED) →
      (∃ a ∈ l, a.type ≠ SEC_ACE_TYPE_ACCESS_ALLOWED) →
      map_ntacl_to_mode env (some l) owner_sid group_sid mode = none := by
    intro l hnd hex
    obtain ⟨-, hc2⟩ := map_ntacl_to_mode_scan_counts env owner_sid group_sid l
      { direct_ace_count := 0, deny_ace_count := 0, user_allowed := 0, group_allowed := 0,
        other_allowed := 0 }
    have hz : (map_ntacl_to_mode_scan env owner_sid group_sid l
        { direct_ace_count := 0, deny_ace_count := 0, user_allowed := 0, group_allowed := 0,
          other_allowed := 0 }).deny_ace_count = 0 := by
      rw [hc2, List.countP_eq_zero.mpr]
      intro x hx
      simp [hnd x hx]
    cases l with
    | nil =>
      obtain ⟨a, ha, -⟩ := hex
      exact absurd ha (List.not_mem_nil a)
    | cons a0 rest =>
      simp only [map_ntacl_to_mode, hz, ne_eq, not_true_eq_false, if_false, hstrip _ _ _ _ hex]
  exact ⟨hgen [demo_audit_ace] (by decide) ⟨demo_audit_ace, by simp, by decide⟩, hgen aces⟩

/-! ## Command lookup -/


theorem getLast?_cons_getD (i : Int) (l : List Int) (cmd : Int) :
    ((i :: l).getLast?).getD cmd = (l.getLast?).getD i := by
  cases l with
  | nil => rfl
  | cons x xs =>
    rw [List.getLast?_cons_cons]
    cases h : (x :: xs).getLast? with
    | none => simp at h
    | some v => rfl

/-- The scan of `process_tok` over entries with a non-NULL `fn`, followed by
one with a NULL `fn`: it stops at the first entry whose name equals the token,
else it counts the entries that have the token as a prefix and keeps the
position of the last one. -/
theorem process_tok_loop_spec (strnequal : CStr → CStr → Nat → Bool) (tok : CStr)
    (hsn : ∀ name, strnequal name tok tok.length = abbreviates tok name)
    (term : client_command) (rest : List client_command) (hterm : term.fn = false) :
    ∀ (l : List client_command) (i m cmd : Int), (∀ c ∈ l, c.fn = true) →
      process_tok_loop strnequal tok tok.length (l ++ term :: rest) i m cmd =
        match matching_indices (fun c => strequal c.name tok) l i with
        | j :: _ => some (1, j)
        | [] =>
          some (m + (matching_indices (fun c => abbreviates tok c.name) l i).length,
            ((matching_indices (fun c => abbreviates tok c.name) l i).getLast?).getD cmd)
  | [], i, m, cmd, _ => by
    simp [process_tok_loop, hterm, matching_indices]
  | c :: l, i, m, cmd, h => by
    have hc := h c (List.mem_cons_self _ _)
    have ih := fun i1 m1 cmd1 => process_tok_loop_spec strnequal tok hsn term rest hterm l i1 m1
      cmd1 (fun x hx => h x (List.mem_cons_of_mem _ hx))
    rw [List.cons_append, process_tok_loop]
    simp only [hc, Bool.not_true, Bool.false_eq_true, if_false, matching_indices]
    rcases Bool.eq_false_or_eq_true (strequal c.name tok) with he | he
    · simp only [he, if_true, List.singleton_append]
    · simp only [he, Bool.false_eq_true, if_false, List.nil_append, hsn]
      rcases Bool.eq_false_or_eq_true (abbreviates tok c.name) with hp | hp
      · simp only [hp, if_true]
        rw [ih]
        cases matching_indices (fun c => strequal c.name tok) l (i + 1) with
        | cons j js => rfl
        | nil =>
          simp only [List.singleton_append, List.length_cons, getLast?_cons_getD]
          congr 2
          push_cast
          ring
      · simp only [hp, Bool.false_eq_true, if_false, List.nil_append]
        exact ih _ _ _

/-- The scan of `process_tok` over entries that neither equal the token nor
match it under `strnequal` leaves `matches` and `cmd` as they are. -/
theorem process_tok_loop_quiet (strnequal : CStr → CStr → Nat → Bool) (tok : CStr)
    (term : client_command) (rest : List client_command) (hterm : term.fn = false) :
    ∀ (l : List client_command) (i m cmd : Int),
      (∀ c ∈ l, c.fn = true ∧ strequal c.name tok = false) →
      (∀ c ∈ l, strnequal c.name tok tok.length = false) →
      process_tok_loop strnequal tok tok.length (l ++ term :: rest) i m cmd = some (m, cmd)
  | [], i, m, cmd, _, _ => by
    simp [process_tok_loop, hterm]
  | c :: l, i, m, cmd, h1, h2 => by
    obtain ⟨hf, he⟩ := h1 c (List.mem_cons_self _ _)
    have hs := h2 c (List.mem_cons_self _ _)
    rw [List.cons_append, process_tok_loop]
    simp only [hf, he, hs, Bool.not_true, Bool.false_eq_true, if_false]
    exact process_tok_loop_quiet strnequal tok term rest hterm l _ _ _
      (fun x hx => h1 x (List.mem_cons_of_mem _ hx))
      (fun x hx => h2 x (List.mem_cons_of_mem _ hx))

theorem commands_split :
    commands = commands.takeWhile (fun c => c.fn)
      ++ { name := [33], fn := false } :: [{ name := [], fn := false }] := by
  decide

/-- C27, counterexample. The empty token, with a `strnequal` that reports no
match when asked to compare no character. No command name is empty, so the
`strequal` test fails at each entry; `strnequal(name, "", 0)` fails at each
entry too; `process_tok` returns -1. Every name has the empty token as a
prefix, so the description gives -2. -/
theorem command_lookup_empty_token_counterexample :
    process_tok demo_strnequal [] = some (-1) ∧ process_tok_spec [] = -2 ∧
    (∀ c ∈ commands.takeWhile (fun c => c.fn), abbreviates [] c.name = true) := by
  decide

/-- C27, amended. Command lookup with abbreviations. `strnequal` is not among
the sources and is a parameter. For every non-empty token, when `strnequal`
compares the first n > 0 characters without regard to case (second part; the
first part is the same for any token on which `strnequal` agrees with the
prefix test), `process_tok` returns the index of the command whose name equals
the token case-insensitively when one exists among the entries before the
terminating "!" entry; otherwise the index of the entry that has the token as a
prefix if there is exactly one, -2 if there are two or more, -1 if there is
none. For the empty token, when `strnequal` reports no match for a comparison
of no character, `process_tok` returns -1, where the prefix rule, every name
having the empty prefix, gives -2 (third part). -/
theorem command_lookup (strnequal : CStr → CStr → Nat → Bool) (tok : CStr) :
    ((∀ name, strnequal name tok tok.length = abbreviates tok name) →
      process_tok strnequal tok = some (process_tok_spec tok)) ∧
    ((∀ s1 s2 n, 0 < n → strnequal s1 s2 n
        = decide ((s1.take n).map toupper_ascii = (s2.take n).map toupper_ascii)) →
      tok ≠ [] → process_tok strnequal tok = some (process_tok_spec tok)) ∧
    ((∀ name, strnequal name [] 0 = false) →
      process_tok strnequal [] = some (-1) ∧ process_tok_spec [] = -2) := by
  have hmain : ∀ t : CStr, (∀ name, strnequal name t t.length = abbreviates t name) →
      process_tok strnequal t = some (process_tok_spec t) := by
    intro t hsn
    have hloop := process_tok_loop_spec strnequal t hsn { name := [33], fn := false }
      [{ name := [], fn := false }] rfl (commands.takeWhile (fun c => c.fn)) 0 0 0
      (fun c hc => by
        have := List.mem_takeWhile_imp hc
        simpa using this)
    rw [← commands_split] at hloop
    unfold process_tok process_tok_spec
    rw [hloop]
    simp only []
    cases matching_indices (fun c => strequal c.name t)
        (commands.takeWhile (fun c => c.fn)) 0 with
    | cons j js => simp
    | nil =>
      simp only []
      cases matching_indices (fun c => abbreviates t c.name)
          (commands.takeWhile (fun c => c.fn)) 0 with
      | nil => simp
      | cons a as =>
        cases as with
        | nil => simp
        | cons b bs =>
          simp only [List.length_cons, List.getLast?_cons_cons]
          have h0 : ¬ ((0 : Int) + ((bs.length + 1 + 1 : Nat) : Int) = 0) := by omega
          have h1 : ¬ ((0 : Int) + ((bs.length + 1 + 1 : Nat) : Int) = 1) := by omega
          simp only [h0, h1, if_false]
  refine ⟨hmain tok, ?_, ?_⟩
  · intro hsn htok
    apply hmain
    intro name
    have hpos : 0 < tok.length := List.length_pos.mpr htok
    rw [hsn name tok tok.length hpos, List.take_length]
    rfl
  · intro hno
    have hloop := process_tok_loop_quiet strnequal [] { name := [33], fn := false }
      [{ name := [], fn := false }] rfl (commands.takeWhile (fun c => c.fn)) 0 0 0
      (by decide) (fun c _ => hno c.name)
    rw [← commands_split] at hloop
    refine ⟨?_, by decide⟩
    unfold process_tok
    rw [hloop]
    rfl

theorem demo_strnequal_contract (s1 s2 : CStr) (n : Nat) (h : 0 < n) :
    demo_strnequal s1 s2 n
      = decide ((s1.take n).map toupper_ascii = (s2.take n).map toupper_ascii) := by
  have hn : (n != 0) = true := by simpa using Nat.pos_iff_ne_zero.mp h
  simp [demo_strnequal, hn]

/-- Witness of C27 (amended): "he" abbreviates "help" only (index 13), "h" abbreviates
"help" and "history" (-2), "Q" is the command "q" (index 32), "zz" matches
nothing (-1). -/
theorem command_lookup_witness :
    (process_tok demo_strnequal [104, 101] = some (process_tok_spec [104, 101]) ∧
      process_tok_spec [104, 101] = 13) ∧
    (process_tok demo_strnequal [104] = some (process_tok_spec [104]) ∧
      process_tok_spec [104] = -2) ∧
    (process_tok demo_strnequal [81] = some (process_tok_spec [81]) ∧
      process_tok_spec [81] = 32) ∧
    (process_tok demo_strnequal [122, 122] = some (process_tok_spec [122, 122]) ∧
      process_tok_spec [122, 122] = -1) ∧
    (process_tok demo_strnequal [] = some (-1) ∧ process_tok_spec [] = -2) :=
  ⟨⟨(command_lookup demo_strnequal [104, 101]).2.1 demo_strnequal_contract (by decide),
      by decide⟩,
   ⟨(command_lookup demo_strnequal [104]).2.1 demo_strnequal_contract (by decide), by decide⟩,
   ⟨(command_lookup demo_strnequal [81]).2.1 demo_strnequal_contract (by decide), by decide⟩,
   ⟨(command_lookup demo_strnequal [122, 122]).2.1 demo_strnequal_contract (by decide),
      by decide⟩,
   (command_lookup demo_strnequal []).2.2 (fun _ => rfl)⟩

/-! ## The do_list queue is a FIFO -/

/-- The bytes of a queue with one more entry at the end. -/
theorem do_list_encode_append (q : List CStr) (e : CStr) :
    do_list_encode (q ++ [e]) = do_list_encode q ++ (e ++ [0]) := by
  induction q with
  | nil => simp [do_list_encode]
  | cons a q ih => simp [do_list_encode, ih]

/-- Only the empty queue has no bytes. -/
theorem do_list_encode_eq_nil (q : List CStr) : do_list_encode q = [] ↔ q = [] := by
  cases q <;> simp [do_list_encode]

/-- With an allocator that never fails, the loop of `add_to_do_list_queue`
ends and leaves the bytes of the buffer, followed by new ones. -/
theorem add_to_do_list_queue_grow_spec (env : client_env) (halloc : ∀ n, env.alloc_ok n = true)
    (new_end : Nat) :
    ∀ (rounds : Nat) (st : do_list_state) (buf : List Nat),
      st.do_list_queue = some buf → buf.length = st.do_list_queue_size →
      new_end ≤ st.do_list_queue_size * 2 ^ rounds →
      ∃ z : List Nat,
        add_to_do_list_queue_grow env new_end rounds st =
          some { st with do_list_queue := some (buf ++ z),
                         do_list_queue_size := (buf ++ z).length } ∧
        new_end ≤ (buf ++ z).length := by
  intro rounds
  induction rounds with
  | zero =>
    intro st buf hq hlen hle
    refine ⟨[], ?_, ?_⟩
    · have : ¬ new_end > st.do_list_queue_size := by simpa using hle
      simp only [add_to_do_list_queue_grow, this, if_false, List.append_nil, hlen]
      rw [← hq]
    · simpa [hlen] using hle
  | succ n ih =>
    intro st buf hq hlen hle
    by_cases hgt : new_end > st.do_list_queue_size
    · simp only [add_to_do_list_queue_grow, hgt, if_true, halloc, Bool.not_true, hq,
        Option.getD_some]
      have hdlq : (buf ++ List.replicate (st.do_list_queue_size * 2) env.fresh_byte).take
          (st.do_list_queue_size * 2) =
          buf ++ List.replicate st.do_list_queue_size env.fresh_byte := by
        rw [List.take_append_eq_append_take, List.take_of_length_le (by omega), hlen]
        simp
        omega
      have hstore : c_store (buf ++ List.replicate st.do_list_queue_size env.fresh_byte)
          (st.do_list_queue_size * 2 / 2) (List.replicate (st.do_list_queue_size * 2 / 2) 0) =
          buf ++ List.replicate st.do_list_queue_size 0 := by
        have h2 : st.do_list_queue_size * 2 / 2 = buf.length := by omega
        rw [h2, c_store_append]
        simp [hlen]
      simp only [hdlq, hstore]
      obtain ⟨z, hz, hb⟩ := ih
        { st with do_list_queue_size := st.do_list_queue_size * 2,
                  do_list_queue := some (buf ++ List.replicate st.do_list_queue_size 0) }
        (buf ++ List.replicate st.do_list_queue_size 0) rfl (by simp [hlen]; omega)
        (by simp only; rw [pow_succ] at hle; linarith)
      refine ⟨List.replicate st.do_list_queue_size 0 ++ z, ?_, ?_⟩
      · rw [hz]; simp
      · simpa using hb
    · refine ⟨[], ?_, ?_⟩
      · simp only [add_to_do_list_queue_grow, hgt, if_false, List.append_nil, hlen]
        rw [← hq]
      · simp only [List.append_nil, hlen]; omega

/-- Doubling `n` times from 1 reaches `n`. -/
theorem two_pow_ge (n : Nat) : n ≤ 2 ^ n := Nat.le_of_lt (Nat.lt_two_pow n)

/-- The state after `init_do_list_queue` holds the empty queue. -/
theorem init_do_list_queue_holds (env : client_env) (halloc : ∀ n, env.alloc_ok n = true) :
    do_list_holds (init_do_list_queue env) [] := by
  refine ⟨[], List.replicate 1024 0, ?_, ?_, ?_, ?_, ?_, ?_, ?_⟩
  · simp only [init_do_list_queue, halloc, if_true, do_list_encode, List.nil_append]
  · simp only [init_do_list_queue, halloc, if_true, reset_do_list_queue, List.length_nil]
  · simp only [init_do_list_queue, halloc, if_true, reset_do_list_queue, do_list_encode,
      List.length_nil]
  · simp only [init_do_list_queue, halloc, if_true, do_list_encode, List.nil_append,
      List.length_replicate]
  · intro e he; cases he
  · intro _; exact ⟨rfl, rfl⟩
  · intro h; exact absurd rfl h

/-- The call `add_to_do_list_queue(entry)` returns and appends the entry to the
queue that the state holds. -/
theorem add_to_do_list_queue_holds (env : client_env) (halloc : ∀ n, env.alloc_ok n = true)
    (st : do_list_state) (q : List CStr) (e : CStr) (h : do_list_holds st q)
    (hne : e ≠ []) (hlen : e.length < PSTRING_LEN) (hnz : ∀ c ∈ e, c ≠ 0) :
    ∃ st1, add_to_do_list_queue env st e = some st1 ∧ do_list_holds st1 (q ++ [e]) := by
  obtain ⟨pre, post, hq, hs, hend, hsize, hwf, hemp, hhead⟩ := h
  have hpos : 0 < st.do_list_queue_size := by
    rw [hsize]
    by_cases hq0 : q = []
    · obtain ⟨_, hp⟩ := hemp hq0
      cases post with
      | nil => simp at hp
      | cons a post => simp
    · obtain ⟨c, hc, _⟩ := hhead hq0
      cases hpe : pre ++ do_list_encode q with
      | nil => rw [hpe] at hc; simp at hc
      | cons a l => simp
  obtain ⟨z, hz, hb⟩ := add_to_do_list_queue_grow_spec env halloc
    (st.do_list_queue_end + e.length + 1) (st.do_list_queue_end + e.length + 1) st _ hq
    hsize.symm (by
      calc st.do_list_queue_end + e.length + 1
          ≤ 2 ^ (st.do_list_queue_end + e.length + 1) := two_pow_ge _
        _ ≤ st.do_list_queue_size * 2 ^ (st.do_list_queue_end + e.length + 1) :=
            Nat.le_mul_of_pos_left _ hpos)
  have htake : e.take (PSTRING_LEN - 1) = e := List.take_of_length_le (by omega)
  have hbuf : pre ++ do_list_encode q ++ post ++ z =
      (pre ++ do_list_encode q) ++ (post ++ z) := by simp
  have hstore : c_store (pre ++ do_list_encode q ++ post ++ z) st.do_list_queue_end (e ++ [0]) =
      pre ++ do_list_encode (q ++ [e]) ++ (post ++ z).drop (e.length + 1) := by
    have : st.do_list_queue_end = (pre ++ do_list_encode q).length := by simp [hend]
    rw [hbuf, this, c_store_append, do_list_encode_append]
    simp
  have hrun : add_to_do_list_queue env st e = some
      { do_list_queue :=
          some (pre ++ do_list_encode (q ++ [e]) ++ (post ++ z).drop (e.length + 1)),
        do_list_queue_size := (pre ++ do_list_encode q ++ post ++ z).length,
        do_list_queue_start := st.do_list_queue_start,
        do_list_queue_end := st.do_list_queue_end + e.length + 1 } := by
    simp only [add_to_do_list_queue, hz, htake, hstore]
  refine ⟨_, hrun, pre, (post ++ z).drop (e.length + 1), rfl, ?_, ?_, ?_, ?_, ?_, ?_⟩
  · exact hs
  · simp [do_list_encode_append, hend]; omega
  · simp only [List.length_append, List.length_drop, do_list_encode_append, List.length_cons,
      List.length_nil] at hb ⊢
    rw [hend] at hb
    omega
  · intro x hx
    rcases List.mem_append.1 hx with hx | hx
    · exact hwf x hx
    · simp only [List.mem_singleton] at hx
      subst hx
      exact ⟨hne, hnz⟩
  · intro h0; simp at h0
  · intro _
    by_cases hq0 : q = []
    · obtain ⟨hp, _⟩ := hemp hq0
      subst hq0 hp
      cases e with
      | nil => exact absurd rfl hne
      | cons c e => exact ⟨c, by simp [do_list_encode], hnz c (by simp)⟩
    · obtain ⟨c, hc, hc0⟩ := hhead hq0
      refine ⟨c, ?_, hc0⟩
      rw [do_list_encode_append, ← List.append_assoc]
      cases hpe : pre ++ do_list_encode q with
      | nil => rw [hpe] at hc; simp at hc
      | cons a l => rw [hpe] at hc; simpa using hc

/-- The call `remove_do_list_queue_head()` returns and drops the oldest entry
of the queue that the state holds (nothing when the queue is empty). -/
theorem remove_do_list_queue_head_holds (st : do_list_state) (q : List CStr)
    (h : do_list_holds st q) :
    ∃ st1, remove_do_list_queue_head st = some st1 ∧ do_list_holds st1 q.tail := by
  obtain ⟨pre, post, hq, hs, hend, hsize, hwf, hemp, hhead⟩ := h
  cases q with
  | nil =>
    refine ⟨st, ?_, pre, post, hq, hs, hend, hsize, hwf, hemp, hhead⟩
    have : ¬ st.do_list_queue_end > st.do_list_queue_start := by
      rw [hend, hs]; simp [do_list_encode]
    simp only [remove_do_list_queue_head, this, if_false]
  | cons e q =>
    obtain ⟨hene, henz⟩ := hwf e (by simp)
    have hwf1 : ∀ x ∈ q, x ≠ [] ∧ ∀ c ∈ x, c ≠ 0 := fun x hx => hwf x (by simp [hx])
    have hgt : st.do_list_queue_end > st.do_list_queue_start := by
      rw [hend, hs]; simp [do_list_encode]
    have hheadstr : do_list_queue_head st = some e := by
      simp only [do_list_queue_head, hq, hs, Option.map_some', do_list_encode]
      have : pre ++ (e ++ 0 :: do_list_encode q) ++ post =
          pre ++ (e ++ 0 :: (do_list_encode q ++ post)) := by simp
      rw [this, List.drop_left, c_string_of_terminated _ _ henz]
    have hbuf : pre ++ do_list_encode (e :: q) ++ post =
        (pre ++ e ++ [0]) ++ (do_list_encode q ++ post) := by simp [do_list_encode]
    have hstart : st.do_list_queue_start + e.length + 1 = (pre ++ e ++ [0]).length := by
      simp [hs, Nat.add_assoc]
    have hend1 : st.do_list_queue_end = (pre ++ e ++ [0]).length + (do_list_encode q).length := by
      simp [hend, do_list_encode]; omega
    have hsize1 : st.do_list_queue_size =
        (pre ++ e ++ [0] ++ do_list_encode q ++ post).length := by
      rw [hsize]; simp [do_list_encode]
    by_cases hq0 : q = []
    · subst hq0
      have hrun : remove_do_list_queue_head st = some
          { do_list_queue := some (c_store (pre ++ do_list_encode [e] ++ post) 0 [0]),
            do_list_queue_size := st.do_list_queue_size,
            do_list_queue_start := 0, do_list_queue_end := 0 } := by
        have heq : st.do_list_queue_start + e.length + 1 = st.do_list_queue_end := by
          rw [hstart, hend1]; simp [do_list_encode]
        simp only [remove_do_list_queue_head, hgt, if_true, hheadstr, adjust_do_list_queue, hq,
          heq]
      refine ⟨_, hrun, [], c_store (pre ++ do_list_encode [e] ++ post) 0 [0], ?_, rfl, ?_, ?_,
        ?_, ?_, ?_⟩
      · simp [do_list_encode]
      · simp [do_list_encode]
      · simp only [hsize1, c_store, do_list_encode, List.tail_cons, List.nil_append,
          List.append_nil, List.length_cons, List.length_append, List.length_drop,
          List.length_nil, List.take_zero]
        omega
      · intro x hx; simp at hx
      · intro _; exact ⟨rfl, by simp [c_store]⟩
      · intro h0; simp at h0
    · have hencne : do_list_encode q ≠ [] := fun h0 => hq0 ((do_list_encode_eq_nil q).1 h0)
      have hlenpos : 0 < (do_list_encode q).length := List.length_pos.2 hencne
      have hneq : ¬ st.do_list_queue_start + e.length + 1 = st.do_list_queue_end := by
        rw [hstart, hend1]; omega
      obtain ⟨c1, hc1, hc10⟩ : ∃ c, (do_list_encode q).head? = some c ∧ c ≠ 0 := by
        cases q with
        | nil => exact absurd rfl hq0
        | cons a q =>
          obtain ⟨hane, hanz⟩ := hwf1 a (by simp)
          cases a with
          | nil => exact absurd rfl hane
          | cons c a => exact ⟨c, by simp [do_list_encode], hanz c (by simp)⟩
      by_cases hhalf : st.do_list_queue_start + e.length + 1 > st.do_list_queue_size / 2
      · have hrun : remove_do_list_queue_head st = some
            { do_list_queue := some (do_list_encode q ++
                (pre ++ do_list_encode (e :: q) ++ post).drop (do_list_encode q).length),
              do_list_queue_size := st.do_list_queue_size,
              do_list_queue_start := 0,
              do_list_queue_end := (do_list_encode q).length } := by
          have hmove : ((pre ++ do_list_encode (e :: q) ++ post).drop
              (st.do_list_queue_start + e.length + 1)).take (do_list_encode q).length =
              do_list_encode q := by
            rw [hbuf, hstart, List.drop_left]
            simp
          have hst : c_store (pre ++ do_list_encode (e :: q) ++ post) 0 (do_list_encode q) =
              do_list_encode q ++
                (pre ++ do_list_encode (e :: q) ++ post).drop (do_list_encode q).length := by
            simp [c_store]
          have hsub : st.do_list_queue_end - (st.do_list_queue_start + e.length + 1) =
              (do_list_encode q).length := by rw [hstart, hend1]; omega
          simp only [remove_do_list_queue_head, hgt, if_true, hheadstr, adjust_do_list_queue, hq,
            hneq, if_false, hhalf, hsub, hmove, hst]
        refine ⟨_, hrun, [],
          (pre ++ do_list_encode (e :: q) ++ post).drop (do_list_encode q).length,
          ?_, rfl, ?_, ?_, hwf1, ?_, ?_⟩
        · simp
        · simp
        · rw [hsize]
          simp only [do_list_encode, List.tail_cons, List.nil_append,
            List.length_cons, List.length_append, List.length_drop]
          omega
        · intro h0; exact absurd h0 hq0
        · intro _; exact ⟨c1, by simpa using hc1, hc10⟩
      · have hrun : remove_do_list_queue_head st = some
            { st with do_list_queue_start := st.do_list_queue_start + e.length + 1 } := by
          simp only [remove_do_list_queue_head, hgt, if_true, hheadstr, adjust_do_list_queue, hq,
            hneq, if_false, hhalf]
        refine ⟨_, hrun, pre ++ e ++ [0], post, ?_, hstart, hend1, ?_, hwf1, ?_, ?_⟩
        · simp [hq, do_list_encode]
        · simp [hsize1]
        · intro h0; exact absurd h0 hq0
        · intro _
          obtain ⟨c, hc, hc0⟩ := hhead (by simp)
          refine ⟨c, ?_, hc0⟩
          simpa [do_list_encode] using hc

/-- What the functions that read the queue give in a state that holds `q`. -/
theorem do_list_holds_reads (st : do_list_state) (q : List CStr) (h : do_list_holds st q) :
    st.do_list_queue_start ≤ st.do_list_queue_end ∧
    st.do_list_queue_end ≤ st.do_list_queue_size ∧
    (do_list_queue_empty st = true ↔ q = []) ∧
    (∀ e, q.head? = some e → do_list_queue_head st = some e) := by
  obtain ⟨pre, post, hq, hs, hend, hsize, hwf, hemp, hhead⟩ := h
  refine ⟨by omega, ?_, ?_, ?_⟩
  · rw [hend, hsize]; simp
  · simp only [do_list_queue_empty, hq]
    constructor
    · intro h0
      by_contra hq0
      obtain ⟨c, hc, hc0⟩ := hhead hq0
      cases hpe : pre ++ do_list_encode q with
      | nil => rw [hpe] at hc; simp at hc
      | cons a l =>
        rw [hpe] at hc h0
        simp at hc h0
        exact hc0 (hc ▸ h0)
    · intro hq0
      obtain ⟨hp, hpost⟩ := hemp hq0
      subst hq0 hp
      cases post with
      | nil => simp at hpost
      | cons a post =>
        simp at hpost
        simp [do_list_encode, hpost]
  · intro e he
    cases q with
    | nil => simp at he
    | cons a q =>
      simp at he
      subst he
      obtain ⟨_, hanz⟩ := hwf a (by simp)
      simp only [do_list_queue_head, hq, hs, Option.map_some', do_list_encode]
      have : pre ++ (a ++ 0 :: do_list_encode q) ++ post =
          pre ++ (a ++ 0 :: (do_list_encode q ++ post)) := by simp
      rw [this, List.drop_left, c_string_of_terminated _ _ hanz]

/-- The calls of a list, made from a state that holds `q`, return and leave a
state that holds the FIFO after them. -/
theorem do_list_run_holds (env : client_env) (halloc : ∀ n, env.alloc_ok n = true) :
    ∀ (ops : List do_list_op) (st : do_list_state) (q : List CStr),
      do_list_holds st q →
      (∀ e, do_list_op.add e ∈ ops → e ≠ [] ∧ e.length < PSTRING_LEN ∧ ∀ c ∈ e, c ≠ 0) →
      ∃ st1, do_list_run env ops st = some st1 ∧ do_list_holds st1 (fifo_after ops q) := by
  intro ops
  induction ops with
  | nil => intro st q h _; exact ⟨st, rfl, h⟩
  | cons op ops ih =>
    intro st q h hwf
    have hwf1 : ∀ e, do_list_op.add e ∈ ops →
        e ≠ [] ∧ e.length < PSTRING_LEN ∧ ∀ c ∈ e, c ≠ 0 :=
      fun e he => hwf e (List.mem_cons_of_mem _ he)
    cases op with
    | add e =>
      obtain ⟨h1, h2, h3⟩ := hwf e (List.mem_cons_self _ _)
      obtain ⟨st1, hrun, hh⟩ := add_to_do_list_queue_holds env halloc st q e h h1 h2 h3
      obtain ⟨st2, hrun2, hh2⟩ := ih st1 _ hh hwf1
      exact ⟨st2, by simp only [do_list_run, hrun, Option.some_bind, hrun2], hh2⟩
    | remove_head =>
      obtain ⟨st1, hrun, hh⟩ := remove_do_list_queue_head_holds st q h
      obtain ⟨st2, hrun2, hh2⟩ := ih st1 _ hh hwf1
      exact ⟨st2, by simp only [do_list_run, hrun, Option.some_bind, hrun2], hh2⟩

/-- C28: from the state after `init_do_list_queue`, with an allocator that
never fails, any list of calls `add_to_do_list_queue(entry)` (each entry a
non-empty string shorter than a pstring, so without a NUL byte) and
`remove_do_list_queue_head()` behaves as a FIFO after each of its calls: the
first `n` calls all return, leave `start <= end <= size` (the three are natural
numbers, so `0 <= start`), `do_list_queue_empty` is true exactly when the FIFO
is empty, and `do_list_queue_head` is the oldest entry of the FIFO. Buffer
doubling and sliding back are steps of the functions and are covered. -/
theorem do_list_queue_is_fifo (env : client_env) (halloc : ∀ n, env.alloc_ok n = true)
    (ops : List do_list_op)
    (hwf : ∀ e, do_list_op.add e ∈ ops → e ≠ [] ∧ e.length < PSTRING_LEN ∧ ∀ c ∈ e, c ≠ 0)
    (n : Nat) :
    ∃ st, do_list_run env (ops.take n) (init_do_list_queue env) = some st ∧
      st.do_list_queue_start ≤ st.do_list_queue_end ∧
      st.do_list_queue_end ≤ st.do_list_queue_size ∧
      (do_list_queue_empty st = true ↔ fifo_after (ops.take n) [] = []) ∧
      (∀ e, (fifo_after (ops.take n) []).head? = some e → do_list_queue_head st = some e) := by
  obtain ⟨st, hrun, hh⟩ := do_list_run_holds env halloc (ops.take n) _ []
    (init_do_list_queue_holds env halloc)
    (fun e he => hwf e (List.mem_of_mem_take he))
  exact ⟨st, hrun, do_list_holds_reads st _ hh⟩

/-- The entries of `demo_do_list_ops` are non-empty strings shorter than a
pstring. -/
theorem demo_do_list_ops_strings : ∀ e, do_list_op.add e ∈ demo_do_list_ops →
    e ≠ [] ∧ e.length < PSTRING_LEN ∧ ∀ c ∈ e, c ≠ 0 := by
  intro e he
  simp only [demo_do_list_ops, List.mem_cons, do_list_op.add.injEq, List.mem_singleton,
    reduceCtorEq, List.not_mem_nil, or_false] at he
  have hne : ∀ c : Nat, List.replicate 600 c ≠ [] := fun c h0 => by
    have := congrArg List.length h0
    rw [List.length_replicate] at this
    exact absurd this (by decide)
  rcases he with rfl | rfl | rfl
  all_goals
    refine ⟨hne _, ?_, ?_⟩
    · rw [List.length_replicate]; decide
    · intro c hc
      rw [List.eq_of_mem_replicate hc]
      decide

/-- Three long entries make the buffer double, and the second removal slides
the rest back: the third entry is then the head, and the queue is not empty. -/
theorem do_list_queue_is_fifo_witness :
    (∀ n, demo_client_env.alloc_ok n = true) ∧
    (∀ e, do_list_op.add e ∈ demo_do_list_ops →
      e ≠ [] ∧ e.length < PSTRING_LEN ∧ ∀ c ∈ e, c ≠ 0) ∧
    ∃ st, do_list_run demo_client_env (demo_do_list_ops.take 5)
        (init_do_list_queue demo_client_env) = some st ∧
      st.do_list_queue_start ≤ st.do_list_queue_end ∧
      st.do_list_queue_end ≤ st.do_list_queue_size ∧
      (do_list_queue_empty st = true ↔ fifo_after (demo_do_list_ops.take 5) [] = []) ∧
      (∀ e, (fifo_after (demo_do_list_ops.take 5) []).head? = some e →
        do_list_queue_head st = some e) :=
  ⟨fun _ => rfl, demo_do_list_ops_strings,
    do_list_queue_is_fifo demo_client_env (fun _ => rfl) demo_do_list_ops
      demo_do_list_ops_strings 5⟩

/-- The FIFO after the calls of `demo_do_list_ops`: the third entry alone. -/
theorem demo_do_list_fifo :
    fifo_after (demo_do_list_ops.take 5) [] = [List.replicate 600 67] := rfl

end Samba
